import Mathlib

/-!
# Router control commands of `pkg/ainshutil/wshrouter_controlimpl.go`

A shallow embedding of the authentication commands of `WshRouterControlImpl`
and of the data they touch, followed by theorems about them.

Conventions of the embedding.

* A Go `error` is its message (`String`); a Go `(T, error)` result is
  `Except String T`. Every error return of the embedded commands carries the zero
  value of `T` in the source, so nothing is lost.
* A Go pointer that may be `nil` is an `Option`.
* The commands mutate two pieces of state: the router (`impl.Router`) and the
  process-wide token swap store of `shellutil`. Both are passed explicitly in a
  `World`.
* `log.Printf` calls are not modelled.
-/

namespace Ainsh

/-! ## Data model -/

/-- Link identifier (`baseds.LinkId`). -/
abbrev LinkId := Int

/-- Trust tier handed to `trustLink` (`LinkKind_Leaf`, `LinkKind_Router`). -/
inductive LinkKind where
  | Leaf
  | Router
deriving DecidableEq, Repr

/-- Identity payload `ainshrpc.RpcContext`. -/
structure RpcContext where
  RouteId : String
  SockName : String
  Conn : String
  BlockId : String
  IsRouter : Bool
deriving DecidableEq, Repr

/-- Payload `ainshrpc.CommandAuthenticateRtnData`; `RpcContext` is a pointer in the source. -/
structure CommandAuthenticateRtnData where
  Env : List (String × String)
  InitScriptText : String
  RpcContext : Option Ainsh.RpcContext
deriving DecidableEq, Repr

/-- The zero value `ainshrpc.CommandAuthenticateRtnData{}`. -/
def CommandAuthenticateRtnData.empty : CommandAuthenticateRtnData :=
  { Env := [], InitScriptText := "", RpcContext := none }

/-- Payload `ainshrpc.CommandAuthenticateTokenData`. -/
structure CommandAuthenticateTokenData where
  Token : String
deriving DecidableEq, Repr

/-- Record `shellutil.TokenSwapEntry` (fields as used in `makeSwapToken` and in the
control commands); `Exp` is the expiry instant. -/
structure TokenSwapEntry where
  Token : String
  RpcContext : Option Ainsh.RpcContext
  Env : List (String × String)
  ScriptText : String
  Exp : Nat
deriving DecidableEq, Repr

/-- The in-memory token swap store of the root router: the live entries, keyed by
their `Token`. -/
abbrev TokenStore := List TokenSwapEntry

/-- The entry the store holds for a token, if any. -/
def entryFor (token : String) (store : TokenStore) : Option TokenSwapEntry :=
  store.find? (fun e => decide (e.Token = token))

/-- Modelled from the spec: `shellutil.GetAndRemoveTokenSwapEntry` is not among the
sources. The spec says an entry is "consumed exactly once by
`GetAndRemoveTokenSwapEntry`": the call returns the entry stored under the token
(`nil` when there is none) and removes it from the store. Expiry is a change of the store
between calls (an expired entry is no longer among the live entries), not a part of this
function. -/
def GetAndRemoveTokenSwapEntry (token : String) (store : TokenStore) :
    Option TokenSwapEntry × TokenStore :=
  match entryFor token store with
  | some entry => (some entry, store.filter (fun e => decide (e.Token ≠ token)))
  | none => (none, store)

/-- The handler found in the request context; `GetIngressLinkId` is the link the
request arrived on. -/
structure RpcResponseHandler where
  GetIngressLinkId : LinkId
deriving DecidableEq, Repr

/-- The `*WshRpc` client found in the request context. Only `SendRpcRequest` is used:
command name, payload and destination route go in, the response data (type `ρ`, Go
`any`) or an error comes back. -/
structure WshRpc (ρ : Type) where
  SendRpcRequest : String → CommandAuthenticateTokenData → String → Except String ρ

/-- What the control commands read from their `context.Context`:
`GetRpcSourceFromContext`, `GetRpcResponseHandlerFromContext`, `GetWshRpcFromContext`. -/
structure Ctx (ρ : Type) where
  source : String
  handler : Option RpcResponseHandler
  wshRpc : Option (WshRpc ρ)

/-- Constants and helpers of other packages that the commands use and that are not
among the sources; they are parameters of the embedding. -/
structure Deps (ρ : Type) where
  /-- The constant `baseds.NoLinkId`. -/
  NoLinkId : LinkId
  /-- The constant `ainshrpc.Command_AuthenticateTokenVerify`. -/
  Command_AuthenticateTokenVerify : String
  /-- The constant `ControlRootRoute`. -/
  ControlRootRoute : String
  /-- The function `ValidateAndExtractRpcContextFromToken` (JWT validation). -/
  ValidateAndExtractRpcContextFromToken : String → Except String (Option RpcContext)
  /-- The call `utilfn.ReUnmarshal(&rtnData, respData)` on a zero `rtnData`. -/
  ReUnmarshal : ρ → Except String CommandAuthenticateRtnData

/-- The operations of `*WshRouter` used by the control commands, over a router state
`σ`. Their bodies are not among the sources; they are parameters of the embedding.
`bindRoute` and `unbindRoute` return a Go `error` (`none` is `nil`). -/
structure WshRouter (σ : Type) where
  IsRootRouter : σ → Bool
  trustLink : LinkId → LinkKind → σ → σ
  bindRoute : LinkId → String → Bool → σ → Option String × σ
  unbindRoute : LinkId → String → σ → Option String × σ

/-- The mutable state the commands act on. -/
structure World (σ : Type) where
  router : σ
  tokens : TokenStore

/-- One call of a mutating router operation, as recorded by `recording`. -/
inductive RouterCall where
  | trustLink (linkId : LinkId) (kind : LinkKind)
  | bindRoute (linkId : LinkId) (routeId : String) (replace : Bool)
  | unbindRoute (linkId : LinkId) (routeId : String)
deriving DecidableEq, Repr

/-- Instrumentation: the router `R` together with the log of the mutating calls made
on it, oldest first. The router behaves exactly as `R`. -/
def recording {σ : Type} (R : WshRouter σ) : WshRouter (σ × List RouterCall) where
  IsRootRouter s := R.IsRootRouter s.1
  trustLink linkId kind s := (R.trustLink linkId kind s.1, s.2 ++ [RouterCall.trustLink linkId kind])
  bindRoute linkId routeId replace s :=
    ((R.bindRoute linkId routeId replace s.1).1,
      ((R.bindRoute linkId routeId replace s.1).2, s.2 ++ [RouterCall.bindRoute linkId routeId replace]))
  unbindRoute linkId routeId s :=
    ((R.unbindRoute linkId routeId s.1).1,
      ((R.unbindRoute linkId routeId s.1).2, s.2 ++ [RouterCall.unbindRoute linkId routeId]))

/-! ## The commands -/

/-- Source: `validateRpcContextFromAuth` (wshrouter_controlimpl.go:204-218). -/
def validateRpcContextFromAuth (newCtx : Option RpcContext) : Except String String :=
  match newCtx with
  | none => .error "no context found in jwt token"
  | some newCtx =>
    if newCtx.IsRouter = true ∧ newCtx.RouteId ≠ "" then
      .error "invalid context, router cannot have a routeid"
    else if newCtx.IsRouter = false ∧ newCtx.RouteId = "" then
      .error "invalid context, must have a routeid"
    else if newCtx.IsRouter = true then
      .ok ""
    else
      .ok newCtx.RouteId

/-- Source: `WshRouterControlImpl.AuthenticateCommand` (wshrouter_controlimpl.go:72-103).
The result of `bindRoute` is dropped, as in the source. The `none` branch after a
successful validation is the nil dereference of `newCtx.IsRouter`; it is unreachable. -/
def AuthenticateCommand {ρ σ : Type} (d : Deps ρ) (R : WshRouter σ) (ctx : Ctx ρ)
    (data : String) (w : World σ) : Except String CommandAuthenticateRtnData × World σ :=
  match ctx.handler with
  | none => (.error "no response handler in context", w)
  | some handler =>
    let linkId := handler.GetIngressLinkId
    if linkId = d.NoLinkId then
      (.error "no ingress link found", w)
    else
      match d.ValidateAndExtractRpcContextFromToken data with
      | .error err => (.error ("error validating token: " ++ err), w)
      | .ok newCtx =>
        match validateRpcContextFromAuth newCtx with
        | .error err => (.error err, w)
        | .ok routeId =>
          let rtnData := CommandAuthenticateRtnData.empty
          match newCtx with
          | none => (.error "nil pointer dereference", w)
          | some c =>
            if c.IsRouter = true then
              (.ok rtnData, { w with router := R.trustLink linkId LinkKind.Router w.router })
            else
              let r1 := R.trustLink linkId LinkKind.Leaf w.router
              let r2 := (R.bindRoute linkId routeId true r1).2
              (.ok rtnData, { w with router := r2 })

/-- Source: `WshRouterControlImpl.AuthenticateTokenVerifyCommand`
(wshrouter_controlimpl.go:170-202). -/
def AuthenticateTokenVerifyCommand {σ : Type} (R : WshRouter σ)
    (data : CommandAuthenticateTokenData) (w : World σ) :
    Except String CommandAuthenticateRtnData × World σ :=
  if R.IsRootRouter w.router = false then
    (.error "authenticatetokenverify can only be called on root router", w)
  else if data.Token = "" then
    (.error "no token in authenticatetoken message", w)
  else
    let got := GetAndRemoveTokenSwapEntry data.Token w.tokens
    let w1 : World σ := { w with tokens := got.2 }
    match got.1 with
    | none => (.error "no token entry found", w1)
    | some entry =>
      match validateRpcContextFromAuth entry.RpcContext with
      | .error err => (.error err, w1)
      | .ok _ =>
        match entry.RpcContext with
        | none => (.error "nil pointer dereference", w1)
        | some rc =>
          if rc.IsRouter = true then
            (.error "cannot auth router via token", w1)
          else if rc.RouteId = "" then
            (.error "no routeid", w1)
          else
            (.ok { Env := entry.Env, InitScriptText := entry.ScriptText,
                   RpcContext := entry.RpcContext }, w1)

/-- Lines 119-158 of `AuthenticateTokenCommand`: the branch that fills `rtnData` and
`rpcContext`, or returns early with an error. -/
def authenticateTokenResolve {ρ σ : Type} (d : Deps ρ) (R : WshRouter σ) (ctx : Ctx ρ)
    (data : CommandAuthenticateTokenData) (w : World σ) :
    Except String (CommandAuthenticateRtnData × Option RpcContext) × World σ :=
  if R.IsRootRouter w.router = true then
    let got := GetAndRemoveTokenSwapEntry data.Token w.tokens
    let w1 : World σ := { w with tokens := got.2 }
    match got.1 with
    | none => (.error "no token entry found", w1)
    | some entry =>
      match validateRpcContextFromAuth entry.RpcContext with
      | .error err => (.error err, w1)
      | .ok _ =>
        match entry.RpcContext with
        | none => (.error "nil pointer dereference", w1)
        | some rc =>
          if rc.IsRouter = true then
            (.error "cannot auth router via token", w1)
          else if rc.RouteId = "" then
            (.error "no routeid", w1)
          else
            let rpcContext := entry.RpcContext
            (.ok ({ Env := entry.Env, InitScriptText := entry.ScriptText,
                    RpcContext := rpcContext }, rpcContext), w1)
  else
    match ctx.wshRpc with
    | none => (.error "no wshrpc in context", w)
    | some wshRpc =>
      match wshRpc.SendRpcRequest d.Command_AuthenticateTokenVerify data d.ControlRootRoute with
      | .error err => (.error ("failed to verify token: " ++ err), w)
      | .ok respData =>
        match d.ReUnmarshal respData with
        | .error err => (.error ("failed to unmarshal response: " ++ err), w)
        | .ok rtnData => (.ok (rtnData, rtnData.RpcContext), w)

/-- Source: `WshRouterControlImpl.AuthenticateTokenCommand`
(wshrouter_controlimpl.go:105-168). The `if/else` of lines 119-158 is
`authenticateTokenResolve`; its early returns are the `.error` case below. The result of
`bindRoute` is dropped, as in the source. -/
def AuthenticateTokenCommand {ρ σ : Type} (d : Deps ρ) (R : WshRouter σ) (ctx : Ctx ρ)
    (data : CommandAuthenticateTokenData) (w : World σ) :
    Except String CommandAuthenticateRtnData × World σ :=
  match ctx.handler with
  | none => (.error "no response handler in context", w)
  | some handler =>
    let linkId := handler.GetIngressLinkId
    if linkId = d.NoLinkId then
      (.error "no ingress link found", w)
    else if data.Token = "" then
      (.error "no token in authenticatetoken message", w)
    else
      match authenticateTokenResolve d R ctx data w with
      | (.error err, w1) => (.error err, w1)
      | (.ok (rtnData, rpcContext), w1) =>
        match rpcContext with
        | none => (.error "no rpccontext in token response", w1)
        | some rc =>
          let r1 := R.trustLink linkId LinkKind.Leaf w1.router
          let r2 := (R.bindRoute linkId rc.RouteId true r1).2
          (.ok rtnData, { w1 with router := r2 })

/-! ## Concrete instances used to exercise the theorems -/

/-- State of a small table-based router: whether it is the root, the trust tier of each
trusted link, and the owner of each bound route. -/
structure RouterState where
  isRoot : Bool
  trust : List (LinkId × LinkKind)
  routes : List (String × LinkId)
deriving DecidableEq, Repr

/-- Modelled from the spec: the bodies of `trustLink`, `bindRoute` and `unbindRoute` are not
among the sources. Following section 4.2 of the spec, `trustLink` sets the tier of a link,
`bindRoute` fails if the route is bound to a different link and `replace` is false and
otherwise installs the mapping, and `unbindRoute` removes the mapping only if it is owned
by the given link. -/
def tableRouter : WshRouter RouterState where
  IsRootRouter s := s.isRoot
  trustLink linkId kind s :=
    { s with trust := (linkId, kind) :: s.trust.filter (fun p => decide (p.1 ≠ linkId)) }
  bindRoute linkId routeId replace s :=
    match s.routes.lookup routeId with
    | some owner =>
      if owner ≠ linkId ∧ replace = false then
        (some "route already bound to another link", s)
      else
        (none, { s with routes := (routeId, linkId) :: s.routes.filter (fun p => decide (p.1 ≠ routeId)) })
    | none => (none, { s with routes := (routeId, linkId) :: s.routes })
  unbindRoute linkId routeId s :=
    match s.routes.lookup routeId with
    | some owner =>
      if owner = linkId then
        (none, { s with routes := s.routes.filter (fun p => decide (p.1 ≠ routeId)) })
      else
        (none, s)
    | none => (none, s)

/-- A leaf identity with route "proc:1". -/
def leafCtx : RpcContext :=
  { RouteId := "proc:1", SockName := "sock", Conn := "", BlockId := "b1", IsRouter := false }

/-- A router identity (no route). -/
def routerCtx : RpcContext :=
  { RouteId := "", SockName := "sock", Conn := "", BlockId := "", IsRouter := true }

/-- A context that breaks the validation invariant: router-typed with a route. -/
def badCtx : RpcContext :=
  { RouteId := "proc:9", SockName := "sock", Conn := "", BlockId := "", IsRouter := true }

/-- Sample dependencies: link 0 is no link; the JWT "jwt-leaf" carries `leafCtx`,
"jwt-router" carries `routerCtx`, every other string is rejected; the response data is
already a `CommandAuthenticateRtnData` and unmarshals to itself. -/
def sampleDeps : Deps CommandAuthenticateRtnData where
  NoLinkId := 0
  Command_AuthenticateTokenVerify := "authenticatetokenverify"
  ControlRootRoute := "$control:root"
  ValidateAndExtractRpcContextFromToken jwt :=
    if jwt = "jwt-leaf" then .ok (some leafCtx)
    else if jwt = "jwt-router" then .ok (some routerCtx)
    else .error "invalid token"
  ReUnmarshal resp := .ok resp

/-- A request context whose handler reports ingress link 7 and that has no upstream client. -/
def ctxLink7 : Ctx CommandAuthenticateRtnData :=
  { source := "", handler := some { GetIngressLinkId := 7 }, wshRpc := none }

/-- A request context without a response handler. -/
def ctxNoHandler : Ctx CommandAuthenticateRtnData :=
  { source := "", handler := none, wshRpc := none }

/-- A fresh root router with nothing trusted and nothing bound. -/
def rootState : RouterState := { isRoot := true, trust := [], routes := [] }

/-- A fresh non-root router. -/
def subState : RouterState := { isRoot := false, trust := [], routes := [] }

/-- A swap entry for token "tok" carrying `leafCtx`. -/
def leafEntry : TokenSwapEntry :=
  { Token := "tok", RpcContext := some leafCtx, Env := [("TERM_PROGRAM", "waveterm")],
    ScriptText := "echo hi", Exp := 300 }

/-- A swap entry for another token, "tok2", carrying no context. -/
def otherEntry : TokenSwapEntry :=
  { Token := "tok2", RpcContext := none, Env := [], ScriptText := "", Exp := 600 }

/-- The upstream client of a sub-router whose control root route answers every verify
request with `rtn`. -/
def upstreamAnswering (rtn : CommandAuthenticateRtnData) : WshRpc CommandAuthenticateRtnData where
  SendRpcRequest command _ route :=
    if command = "authenticatetokenverify" ∧ route = "$control:root" then .ok rtn
    else .error "no route"

/-- A request context on ingress link 7 whose upstream answers with the context `rc`. -/
def ctxForward (rc : RpcContext) : Ctx CommandAuthenticateRtnData :=
  { source := "", handler := some { GetIngressLinkId := 7 },
    wshRpc := some (upstreamAnswering { Env := [], InitScriptText := "", RpcContext := some rc }) }

/-! ## Route announcement, peer info and route waiting -/

/-- Source: `WshRouterControlImpl.RouteAnnounceCommand` (wshrouter_controlimpl.go:23-37).
The Go `error` result is `none` for `nil`. -/
def RouteAnnounceCommand {ρ σ : Type} (d : Deps ρ) (R : WshRouter σ) (ctx : Ctx ρ)
    (w : World σ) : Option String × World σ :=
  let source := ctx.source
  if source = "" then
    (some "no source in routeannounce", w)
  else
    match ctx.handler with
    | none => (some "no response handler in context", w)
    | some handler =>
      let linkId := handler.GetIngressLinkId
      if linkId = d.NoLinkId then
        (some "no ingress link found", w)
      else
        let r := R.bindRoute linkId source false w.router
        (r.1, { w with router := r.2 })

/-- Source: `WshRouterControlImpl.RouteUnannounceCommand` (wshrouter_controlimpl.go:39-53). -/
def RouteUnannounceCommand {ρ σ : Type} (d : Deps ρ) (R : WshRouter σ) (ctx : Ctx ρ)
    (w : World σ) : Option String × World σ :=
  let source := ctx.source
  if source = "" then
    (some "no source in routeunannounce", w)
  else
    match ctx.handler with
    | none => (some "no response handler in context", w)
    | some handler =>
      let linkId := handler.GetIngressLinkId
      if linkId = d.NoLinkId then
        (some "no ingress link found", w)
      else
        let r := R.unbindRoute linkId source w.router
        (r.1, { w with router := r.2 })

/-- The dynamic type of `lm.client`: a `*WshRpcProxy` (identified by a reference) or any
other client implementation. -/
inductive LinkClient where
  | proxy (ref : Nat)
  | other
deriving DecidableEq, Repr

/-- Link metadata (`lm`), as far as `SetPeerInfoCommand` reads it. -/
structure LinkMeta where
  client : LinkClient
deriving DecidableEq, Repr

/-- The read-only router accessors used by `SetPeerInfoCommand`. Their bodies are not among
the sources; they are parameters of the embedding. -/
structure RouterLookup (σ : Type) where
  GetLinkIdForRoute : String → σ → LinkId
  getLinkMeta : LinkId → σ → Option LinkMeta

/-- The state `SetPeerInfoCommand` acts on: the router and the peer info held by each proxy
object. -/
structure PeerWorld (σ : Type) where
  router : σ
  peerInfo : Nat → String

/-- Modelled from the spec: `WshRpcProxy.SetPeerInfo` is not among the sources. The spec
says the command "attaches a free-form descriptive string" to the link: the proxy's peer
info becomes the given string. -/
def SetPeerInfo (ref : Nat) (peerInfo : String) (infos : Nat → String) : Nat → String :=
  fun r => if r = ref then peerInfo else infos r

/-- Source: `WshRouterControlImpl.SetPeerInfoCommand` (wshrouter_controlimpl.go:55-70). The
messages of the first two errors are formatted from the route and the link id in the
source; only their fixed part is kept. -/
def SetPeerInfoCommand {ρ σ : Type} (d : Deps ρ) (L : RouterLookup σ) (ctx : Ctx ρ)
    (peerInfo : String) (w : PeerWorld σ) : Option String × PeerWorld σ :=
  let source := ctx.source
  let linkId := L.GetLinkIdForRoute source w.router
  if linkId = d.NoLinkId then
    (some ("no link found for source route " ++ source), w)
  else
    match L.getLinkMeta linkId w.router with
    | none => (some "no link meta found for linkId", w)
    | some lm =>
      match lm.client with
      | LinkClient.proxy ref => (none, { w with peerInfo := SetPeerInfo ref peerInfo w.peerInfo })
      | LinkClient.other => (some "setpeerinfo only valid for proxy connections", w)

/-- Payload `ainshrpc.CommandWaitForRouteData`. -/
structure CommandWaitForRouteData where
  RouteId : String
  WaitMs : Int
deriving DecidableEq, Repr

/-- Go `int64` arithmetic: the value `x` of an operation wrapped into the range of `int64`
(two's complement). -/
def wrapInt64 (x : Int) : Int :=
  (x + 2 ^ 63) % 2 ^ 64 - 2 ^ 63

/-- Constant `time.Millisecond`: a `time.Duration` counts nanoseconds. -/
def Millisecond : Int := 1000000

/-- Source: `WshServer.WaitForRouteCommand` (wshserver.go:509-514). `data.WaitMs` is a Go
`int` (64 bits); the timeout `time.Duration(data.WaitMs)*time.Millisecond` is an `int64`
product in nanoseconds, which wraps around. The parameter `WaitForRegister` stands for
`DefaultRouter.WaitForRegister` run under `context.WithTimeout` with that timeout: it gets
the timeout in nanoseconds (a context with a timeout of zero or less is expired from the
start) and the route id and returns the Go `error` (`none` is `nil`). The result is the pair
`(bool, error)`. -/
def WaitForRouteCommand (WaitForRegister : Int → String → Option String)
    (data : CommandWaitForRouteData) : Bool × Option String :=
  let timeout := wrapInt64 (data.WaitMs * Millisecond)
  let err := WaitForRegister timeout data.RouteId
  (decide (err = none), none)

/-- A router lookup over `RouterState`: the owner of a route from the route table (link 0
when unbound) and a fixed table of link metadata. -/
def tableLookup (metas : List (LinkId × LinkMeta)) : RouterLookup RouterState where
  GetLinkIdForRoute routeId s := (s.routes.lookup routeId).getD 0
  getLinkMeta linkId _ := metas.lookup linkId

/-- A request context with source route "proc:1" arriving on link 7. -/
def ctxProc1 : Ctx CommandAuthenticateRtnData :=
  { source := "proc:1", handler := some { GetIngressLinkId := 7 }, wshRpc := none }

/-- A root table router on which link 7 is a trusted leaf owning route "proc:1". -/
def boundState : RouterState :=
  { isRoot := true, trust := [(7, LinkKind.Leaf)], routes := [("proc:1", 7)] }

/-- A `WaitForRegister` that finds route "proc:1" registered and times out on every other
route. -/
def sampleWaitForRegister : Int → String → Option String :=
  fun _ routeId => if routeId = "proc:1" then none else some "context deadline exceeded"

/-- A byte of a Go `[]byte`. -/
abbrev Byte := Nat

/-- The first loop of `WrappedWriter.Write` (lines 42-47): `count` is incremented for each
`'\n'` (byte 10) of `p`. -/
def countNewlinesLoop : List Byte → Nat → Nat
  | [], count => count
  | b :: rest, count => if b = 10 then countNewlinesLoop rest (count + 1)
      else countNewlinesLoop rest count

/-- The second loop of `WrappedWriter.Write` (lines 53-62): the bytes of `p` are written
into `buf` from `writeIdx` on, a `'\n'` as the two bytes `'\r'` (13), `'\n'` (10). -/
def fillLoop : List Byte → List Byte → Nat → List Byte
  | [], buf, _ => buf
  | b :: rest, buf, writeIdx =>
    if b = 10 then
      fillLoop rest ((buf.set writeIdx 13).set (writeIdx + 1) 10) (writeIdx + 2)
    else
      fillLoop rest (buf.set writeIdx b) (writeIdx + 1)

/-- Source: `WrappedWriter.Write` (ainshcmd-root.go:38-68). The result is the byte slice
handed to `w.dest.Write`; `UsingTermWshMode` is the package variable. -/
def WrappedWriter.Write (UsingTermWshMode : Bool) (p : List Byte) : List Byte :=
  if UsingTermWshMode = false then
    p
  else
    let count := countNewlinesLoop p 0
    if count = 0 then
      p
    else
      let buf := List.replicate (p.length + count) 0
      fillLoop p buf 0

/-- The claimed output in terminal mode: every `'\n'` replaced by `'\r'`, `'\n'`, every other
byte kept, in order. -/
def crlfExpand : List Byte → List Byte
  | [] => []
  | b :: rest => if b = 10 then 13 :: 10 :: crlfExpand rest else b :: crlfExpand rest

/-! ## `GetTempDirCommand` (pkg/ainshrpc/wshserver/wshserver.go)

The Go standard library functions used by the command, for a Unix system (path separator
`/`, no volume names). Strings are lists of characters. -/

/-- Go `strings.Trim(s, cutset)`: the leading and trailing characters of `s` that occur in
`cutset` are removed. -/
def stringsTrim (s cutset : List Char) : List Char :=
  ((s.dropWhile (fun c => decide (c ∈ cutset))).reverse.dropWhile
    (fun c => decide (c ∈ cutset))).reverse

/-- Go `filepath.Base` on Unix: the last element of the path; trailing slashes are removed
first; the empty path gives ".", a path of slashes only gives "/". -/
def filepathBase (path : List Char) : List Char :=
  if path = [] then
    ['.']
  else
    let stripped := (path.reverse.dropWhile (fun c => decide (c = '/'))).reverse
    let last := (stripped.reverse.takeWhile (fun c => decide (c ≠ '/'))).reverse
    if last = [] then ['/'] else last

/-- The elements of a path between its slashes. -/
def splitSlash : List Char → List (List Char)
  | [] => [[]]
  | c :: cs =>
    match splitSlash cs with
    | [] => [[]]
    | x :: xs => if c = '/' then [] :: x :: xs else (c :: x) :: xs

/-- One element of a path in `filepath.Clean`: empty and "." elements are dropped, ".."
removes the element before it (or is dropped at the root, or kept at the start of a
relative path). The stack holds the elements kept so far, last first. -/
def cleanStep (rooted : Bool) (stack : List (List Char)) (elem : List Char) :
    List (List Char) :=
  if elem = [] ∨ elem = ['.'] then
    stack
  else if elem = ['.', '.'] then
    match stack with
    | top :: rest => if top = ['.', '.'] then elem :: stack else rest
    | [] => if rooted then [] else [elem]
  else
    elem :: stack

/-- Go `filepath.Clean` on Unix: the shortest path equivalent to `path` by purely lexical
processing. -/
def filepathClean (path : List Char) : List Char :=
  if path = [] then
    ['.']
  else
    let rooted := decide (path.head? = some '/')
    let stack := (splitSlash path).foldl (cleanStep rooted) []
    let body := List.intercalate ['/'] stack.reverse
    let out := if rooted then '/' :: body else body
    if out = [] then ['.'] else out

/-- Go `filepath.Join` of two elements on Unix: empty elements are ignored, the others are
joined by a slash and the result is cleaned; no element gives the empty string. -/
def filepathJoin (a b : List Char) : List Char :=
  if a ≠ [] then
    filepathClean (a ++ '/' :: b)
  else if b ≠ [] then
    filepathClean b
  else
    []

/-- Payload `ainshrpc.CommandGetTempDirData`. -/
structure CommandGetTempDirData where
  FileName : String
deriving DecidableEq, Repr

/-- Source: `WshServer.GetTempDirCommand` (wshserver.go:434-447). `tempDir` is the value of
`os.TempDir()`. The Go `error` result is always `nil` and is left out. -/
def GetTempDirCommand (tempDir : String) (data : CommandGetTempDirData) : String :=
  if data.FileName ≠ "" then
    let name := filepathBase data.FileName.data
    let name := stringsTrim name ['/', '\\', ' ']
    if name = [] ∨ name = ['.'] then
      tempDir
    else
      String.mk (filepathJoin tempDir.data name)
  else
    tempDir

/-- Go `filepath.Dir` on Unix: the path without its last element, cleaned. -/
def filepathDir (path : List Char) : List Char :=
  filepathClean (path.reverse.dropWhile (fun c => decide (c ≠ '/'))).reverse

/-! ## Streaming producers (pkg/remote/fileshare/wavefs/wavefs.go, pkg/ainai/cloudbackend.go)

A producer goroutine is embedded as the trace it leaves on its channel, under the
assumption that the consumer receives every item. -/

/-- Item `ainshrpc.RespOrErrorUnion[T]`: a response, or an error (its message). -/
inductive RespOrErrorUnion (α : Type) where
  | Response (response : α)
  | Error (err : String)
deriving DecidableEq, Repr

/-- What a producer goroutine did to its channel: the items sent, in order, and the number
of `close` calls made. A goroutine that has not finished has made no `close` call. -/
structure ChanTrace (α : Type) where
  items : List (RespOrErrorUnion α)
  closes : Nat
deriving DecidableEq, Repr

/-- Whether an item is an error item. -/
def RespOrErrorUnion.isError {α : Type} : RespOrErrorUnion α → Bool
  | RespOrErrorUnion.Response _ => false
  | RespOrErrorUnion.Error _ => true

/-- Record `ainshrpc.FileInfo`, as far as the stream functions read it. -/
structure FileInfo where
  Path : String
  IsDir : Bool
deriving DecidableEq, Repr

/-- Record `ainshrpc.FileDataAt`. -/
structure FileDataAt where
  Offset : Int
  Size : Int
deriving DecidableEq, Repr

/-- Record `ainshrpc.FileData`; `Data64` is the byte string, `Info` and `At` are pointers. -/
structure FileData where
  Info : Option FileInfo
  Data64 : List Byte
  Entries : List FileInfo
  At : Option FileDataAt
deriving DecidableEq, Repr

/-- Payload `ainshrpc.CommandRemoteListEntriesRtnData`. -/
structure CommandRemoteListEntriesRtnData where
  FileInfo : List Ainsh.FileInfo
deriving DecidableEq, Repr

/-- The file loop of `ReadStream` (wavefs.go:57-64), from offset `i`, at its `k`-th
iteration, with `fuel` iterations left to run. `ctxErr k` is the cause reported by the
context at the check of iteration `k` (`none` while it is not cancelled). The result is the
items sent and whether the goroutine has returned. -/
def readStreamFileLoop (FileChunkSize : Nat) (ctxErr : Nat → Option String) (rtnData : FileData) :
    Nat → Nat → Nat → List (RespOrErrorUnion FileData) × Bool
  | 0, i, _ => ([], decide (¬ i < rtnData.Data64.length))
  | fuel + 1, i, k =>
    if i < rtnData.Data64.length then
      match ctxErr k with
      | some cause => ([RespOrErrorUnion.Error cause], true)
      | none =>
        let dataEnd := min (i + FileChunkSize) rtnData.Data64.length
        let item : RespOrErrorUnion FileData := RespOrErrorUnion.Response
          { Data64 := (rtnData.Data64.take dataEnd).drop i, Info := rtnData.Info, Entries := [],
            At := some { Offset := i, Size := dataEnd - i } }
        let r := readStreamFileLoop FileChunkSize ctxErr rtnData fuel (i + FileChunkSize) (k + 1)
        (item :: r.1, r.2)
    else
      ([], true)

/-- The directory loop of `ReadStream` (wavefs.go:66-72). -/
def readStreamDirLoop (DirChunkSize : Nat) (ctxErr : Nat → Option String) (rtnData : FileData) :
    Nat → Nat → Nat → List (RespOrErrorUnion FileData) × Bool
  | 0, i, _ => ([], decide (¬ i < rtnData.Entries.length))
  | fuel + 1, i, k =>
    if i < rtnData.Entries.length then
      match ctxErr k with
      | some cause => ([RespOrErrorUnion.Error cause], true)
      | none =>
        let item : RespOrErrorUnion FileData := RespOrErrorUnion.Response
          { Entries := (rtnData.Entries.take (min (i + DirChunkSize) rtnData.Entries.length)).drop i,
            Info := rtnData.Info, Data64 := [], At := none }
        let r := readStreamDirLoop DirChunkSize ctxErr rtnData fuel (i + DirChunkSize) (k + 1)
        (item :: r.1, r.2)
    else
      ([], true)

/-- Source: `WaveClient.ReadStream` (wavefs.go:46-76). `readResult` is the result of
`c.Read(ctx, conn, data)`, `FileChunkSize` and `DirChunkSize` are the constants of
`ainshrpc` (not among the sources). The loops get as many iterations as there are bytes
(entries), which is all they can use when the chunk size is positive. A nil `Info` makes
`rtnData.Info.IsDir` panic: nothing is sent and the deferred `close` runs. -/
def ReadStream (FileChunkSize DirChunkSize : Nat) (readResult : Except String FileData)
    (ctxErr : Nat → Option String) : ChanTrace FileData :=
  match readResult with
  | .error err => { items := [RespOrErrorUnion.Error err], closes := 1 }
  | .ok rtnData =>
    match rtnData.Info with
    | none => { items := [], closes := 1 }
    | some info =>
      if info.IsDir = false then
        let r := readStreamFileLoop FileChunkSize ctxErr rtnData rtnData.Data64.length 0 0
        { items := r.1, closes := if r.2 then 1 else 0 }
      else
        let r := readStreamDirLoop DirChunkSize ctxErr rtnData rtnData.Entries.length 0 0
        { items := r.1, closes := if r.2 then 1 else 0 }

/-- The loop of `ListEntriesStream` (wavefs.go:213-215). -/
def listEntriesLoop (DirChunkSize : Nat) (list : List FileInfo) :
    Nat → Nat → List (RespOrErrorUnion CommandRemoteListEntriesRtnData) × Bool
  | 0, i => ([], decide (¬ i < list.length))
  | fuel + 1, i =>
    if i < list.length then
      let item : RespOrErrorUnion CommandRemoteListEntriesRtnData := RespOrErrorUnion.Response
        { FileInfo := (list.take (min (i + DirChunkSize) list.length)).drop i }
      let r := listEntriesLoop DirChunkSize list fuel (i + DirChunkSize)
      (item :: r.1, r.2)
    else
      ([], true)

/-- Source: `WaveClient.ListEntriesStream` (wavefs.go:204-218). `listResult` is the result of
`c.ListEntries(ctx, conn, opts)`. -/
def ListEntriesStream (DirChunkSize : Nat) (listResult : Except String (List FileInfo)) :
    ChanTrace CommandRemoteListEntriesRtnData :=
  match listResult with
  | .error err => { items := [RespOrErrorUnion.Error err], closes := 1 }
  | .ok list =>
    let r := listEntriesLoop DirChunkSize list list.length 0
    { items := r.1, closes := if r.2 then 1 else 0 }

/-- The shape claimed for a stream: responses only, then at most `n` error items. -/
def ResponsesThenErrors {α : Type} (n : Nat) (items : List (RespOrErrorUnion α)) : Prop :=
  ∃ (resps : List α) (errs : List String),
    items = resps.map RespOrErrorUnion.Response ++ errs.map RespOrErrorUnion.Error ∧
      errs.length ≤ n

/-- A file of three bytes. -/
def sampleFile : FileData :=
  { Info := some { Path := "/f", IsDir := false }, Data64 := [81, 85, 74], Entries := [],
    At := none }

/-- A context that is cancelled from its second check on. -/
def cancelledAfterOne : Nat → Option String :=
  fun k => if k = 0 then none else some "context canceled"

/-! ### `WaveAICloudBackend.StreamCompletion` -/

/-- Record `ainshrpc.WaveAIPromptMessageType`, as far as the backend reads it. -/
structure WaveAIPromptMessageType where
  Role : String
  Content : String
deriving DecidableEq, Repr

/-- Record `ainshrpc.WaveAIOptsType`, as far as the backend reads it. -/
structure WaveAIOptsType where
  MaxTokens : Int
  MaxChoices : Int
deriving DecidableEq, Repr

/-- Record `ainshrpc.WaveAIStreamRequest`; `Opts` is a pointer. -/
structure WaveAIStreamRequest where
  ClientId : String
  Opts : Option WaveAIOptsType
  Prompt : List WaveAIPromptMessageType
deriving DecidableEq, Repr

/-- Record `ainshrpc.WaveAIPacketType`, as far as the backend reads it. -/
structure WaveAIPacketType where
  Text : String
  Error : String
deriving DecidableEq, Repr

/-- Record `WaveAICloudReqPacketType` (cloudbackend.go:28-34); `PkType` is the field `Type`. -/
structure WaveAICloudReqPacketType where
  PkType : String
  ClientId : String
  Prompt : List WaveAIPromptMessageType
  MaxTokens : Int
  MaxChoices : Int
deriving DecidableEq, Repr

/-- Constant `OpenAICloudReqStr`. -/
def OpenAICloudReqStr : String := "openai-cloudreq"

/-- Constant `PacketEOFStr`. -/
def PacketEOFStr : String := "EOF"

/-- Source: `MakeWaveAICloudReqPacket` (cloudbackend.go:36-40). -/
def MakeWaveAICloudReqPacket : WaveAICloudReqPacketType :=
  { PkType := OpenAICloudReqStr, ClientId := "", Prompt := [], MaxTokens := 0, MaxChoices := 0 }

/-- Result of `websocket.DefaultDialer.DialContext`. -/
inductive DialResult where
  | connected
  | deadlineExceeded (err : String)
  | failed (err : String)
deriving DecidableEq, Repr

/-- Result of `json.Unmarshal(socketMessage, &streamResp)`: an error, a nil `streamResp`
(the message is the JSON literal `null`), or a packet. -/
inductive DecodeResult where
  | failed (err : String)
  | null
  | packet (streamResp : WaveAIPacketType)
deriving DecidableEq, Repr

/-- One `conn.ReadMessage()` of the read loop, with the decoding of the message read. -/
inductive ReadEvent where
  | eof
  | failed (err : String)
  | message (decoded : DecodeResult)
deriving DecidableEq, Repr

/-- A behaviour of the websocket and of the JSON encoder, as seen by the backend: the result
of dialling, of marshalling and writing the request packet, the successive reads until the
peer falls silent, and the result of `conn.Close()`. -/
structure WebsocketBehaviour where
  dial : DialResult
  marshal : WaveAICloudReqPacketType → Except String String
  writeMessage : String → Option String
  reads : List ReadEvent
  close : Option String

/-- How the body of the goroutine ended: by returning, by a panic, or not at all (it is
blocked in `conn.ReadMessage()`). -/
inductive GoExit where
  | returned
  | panicked (recovered : String)
  | blocked
deriving DecidableEq, Repr

/-- The function `makeAIError` (not among the sources): the error item for an error. -/
def makeAIError (err : String) : RespOrErrorUnion WaveAIPacketType :=
  RespOrErrorUnion.Error err

/-- The read loop of `StreamCompletion` (cloudbackend.go:99-124) on the reads still to come.
When the reads are used up the goroutine is blocked in `conn.ReadMessage()`. -/
def streamReadLoop : List ReadEvent → List (RespOrErrorUnion WaveAIPacketType) × GoExit
  | [] => ([], GoExit.blocked)
  | ReadEvent.eof :: _ => ([], GoExit.returned)
  | ReadEvent.failed err :: _ =>
    ([makeAIError ("OpenAI request, websocket error reading message: " ++ err)], GoExit.returned)
  | ReadEvent.message (DecodeResult.failed err) :: _ =>
    ([makeAIError ("OpenAI request, websocket response json decode error: " ++ err)],
      GoExit.returned)
  | ReadEvent.message DecodeResult.null :: _ =>
    ([], GoExit.panicked "invalid memory address or nil pointer dereference")
  | ReadEvent.message (DecodeResult.packet streamResp) :: rest =>
    if streamResp.Error = PacketEOFStr then
      ([], GoExit.returned)
    else if streamResp.Error ≠ "" then
      ([makeAIError streamResp.Error], GoExit.returned)
    else
      let r := streamReadLoop rest
      (RespOrErrorUnion.Response streamResp :: r.1, r.2)

/-- Lines 77-83 of `StreamCompletion`: the prompt messages whose role is not "error". -/
def sendablePromptMsgs (prompt : List WaveAIPromptMessageType) : List WaveAIPromptMessageType :=
  prompt.filter (fun promptMsg => decide (promptMsg.Role ≠ "error"))

/-- Lines 77-124 of `StreamCompletion`: the body of the goroutine once the connection is
open. -/
def streamConnected (ws : WebsocketBehaviour) (request : WaveAIStreamRequest)
    (opts : WaveAIOptsType) : List (RespOrErrorUnion WaveAIPacketType) × GoExit :=
  let reqPk : WaveAICloudReqPacketType :=
    { MakeWaveAICloudReqPacket with
      ClientId := request.ClientId, Prompt := sendablePromptMsgs request.Prompt,
      MaxTokens := opts.MaxTokens, MaxChoices := opts.MaxChoices }
  match ws.marshal reqPk with
  | .error err =>
    ([makeAIError ("OpenAI request, packet marshal error: " ++ err)], GoExit.returned)
  | .ok configMessageBuf =>
    match ws.writeMessage configMessageBuf with
    | some err =>
      ([makeAIError ("OpenAI request, websocket write config error: " ++ err)], GoExit.returned)
    | none => streamReadLoop ws.reads

/-- The deferred function of lines 71-76, run when the body returned or panicked with the
connection open: a failing `conn.Close()` sends one more error item. -/
def deferredClose (ws : WebsocketBehaviour) (exit : GoExit) :
    List (RespOrErrorUnion WaveAIPacketType) :=
  match exit with
  | GoExit.blocked => []
  | _ =>
    match ws.close with
    | some err => [makeAIError ("unable to close openai channel: " ++ err)]
    | none => []

/-- The deferred function of lines 46-52, run last when the body returned or panicked:
`PanicHandler` turns a recovered panic into an error, which is sent, and the channel is
closed. `PanicHandler` (not among the sources) is a parameter; for a nil `recover()` it
returns nil. The result is the items sent and the number of `close(rtn)` calls. -/
def deferredPanicClose (PanicHandler : String → String → Option String) (exit : GoExit) :
    List (RespOrErrorUnion WaveAIPacketType) × Nat :=
  match exit with
  | GoExit.blocked => ([], 0)
  | GoExit.returned => ([], 1)
  | GoExit.panicked recovered =>
    match PanicHandler "WaveAICloudBackend.StreamCompletion" recovered with
    | some panicErr => ([makeAIError panicErr], 1)
    | none => ([], 1)

/-- Source: `WaveAICloudBackend.StreamCompletion` (cloudbackend.go:42-127): the trace of the
goroutine on the channel `rtn`. `wsEndpoint` is `aincloud.GetWSEndpoint()`. -/
def StreamCompletion (PanicHandler : String → String → Option String) (wsEndpoint : String)
    (ws : WebsocketBehaviour) (request : WaveAIStreamRequest) : ChanTrace WaveAIPacketType :=
  if wsEndpoint = "" then
    { items := [makeAIError "no cloud ws endpoint found"] ++
        (deferredPanicClose PanicHandler GoExit.returned).1,
      closes := (deferredPanicClose PanicHandler GoExit.returned).2 }
  else
    match request.Opts with
    | none =>
      { items := [makeAIError "no openai opts found"] ++
          (deferredPanicClose PanicHandler GoExit.returned).1,
        closes := (deferredPanicClose PanicHandler GoExit.returned).2 }
    | some opts =>
      match ws.dial with
      | DialResult.deadlineExceeded err =>
        { items := [makeAIError ("OpenAI request, timed out connecting to cloud server: " ++ err)]
            ++ (deferredPanicClose PanicHandler GoExit.returned).1,
          closes := (deferredPanicClose PanicHandler GoExit.returned).2 }
      | DialResult.failed err =>
        { items := [makeAIError ("OpenAI request, websocket connect error: " ++ err)] ++
            (deferredPanicClose PanicHandler GoExit.returned).1,
          closes := (deferredPanicClose PanicHandler GoExit.returned).2 }
      | DialResult.connected =>
        let body := streamConnected ws request opts
        { items := body.1 ++ deferredClose ws body.2 ++
            (deferredPanicClose PanicHandler body.2).1,
          closes := (deferredPanicClose PanicHandler body.2).2 }

/-- Whether a read ends the read loop: everything but a packet with an empty `Error`. -/
def ReadEvent.stops : ReadEvent → Bool
  | ReadEvent.message (DecodeResult.packet streamResp) => decide (streamResp.Error ≠ "")
  | _ => true

/-- A `PanicHandler` that reports every panic. -/
def samplePanicHandler : String → String → Option String :=
  fun debugStr recovered => some ("panic in " ++ debugStr ++ ": " ++ recovered)

/-- A websocket that connects, accepts the request, delivers the given reads and then fails
to close with the given error. -/
def sampleWebsocket (reads : List ReadEvent) (close : Option String) : WebsocketBehaviour :=
  { dial := DialResult.connected, marshal := fun _ => .ok "request", writeMessage := fun _ => none,
    reads := reads, close := close }

/-- A request with options and one prompt message. -/
def sampleRequest : WaveAIStreamRequest :=
  { ClientId := "c1", Opts := some { MaxTokens := 100, MaxChoices := 1 },
    Prompt := [{ Role := "user", Content := "hi" }] }

/-! ## Workspaces and tabs (pkg/aincore/workspace.go)

The object store (`ainstore.DBGet`, `DBMustGet`, `DBUpdate`, `DBDelete`, ...) is not among
the sources. Its operations are parameters of the embedding, over a store state `σ`;
`DeleteBlock` (block.go) and `CloseWindow` are taken as operations on the store as well:
the functions embedded here use only their error result. Events published on the broker and
`log.Printf` calls are not modelled. -/

/-- Object `ainobj.Workspace`, as far as workspace.go uses it. -/
structure Workspace where
  OID : String
  Name : String
  Icon : String
  Color : String
  TabIds : List String
  ActiveTabId : String
deriving DecidableEq, Repr

/-- Object `ainobj.Tab`, as far as workspace.go uses it. -/
structure Tab where
  OID : String
  Name : String
  LayoutState : String
  BlockIds : List String
deriving DecidableEq, Repr

/-- Object `ainobj.Window`, as far as workspace.go uses it. -/
structure Window where
  OID : String
  WorkspaceId : String
deriving DecidableEq, Repr

/-- Record `ainobj.WorkspaceListEntry`. -/
structure WorkspaceListEntry where
  WorkspaceId : String
  WindowId : String
deriving DecidableEq, Repr

/-- The object types passed to `DBDelete` (`ainobj.OType_Workspace`, `OType_Tab`,
`OType_LayoutState`). -/
inductive OType where
  | Workspace
  | Tab
  | LayoutState
deriving DecidableEq, Repr

/-- Result of `ainstore.DBMustGet`: the object, the error `ErrNotFound`, or another error. -/
inductive MustGet (α : Type) where
  | found (obj : α)
  | notFound (err : String)
  | failed (err : String)
deriving DecidableEq, Repr

/-- The store operations used by workspace.go, over a store state `σ`. An operation whose
error every caller drops is given without it (`DBGet` returns the object or nil,
`DBUpdate` returns the new state, `DBFindWindowForWorkspaceId` the window id found). -/
structure WStore (σ : Type) where
  DBGetWorkspace : String → σ → Option Workspace
  DBMustGetWorkspace : String → σ → MustGet Workspace
  DBGetTab : String → σ → Option Tab
  DBUpdateWorkspace : Workspace → σ → σ
  DBDelete : OType → String → σ → Option String × σ
  DBGetAllWorkspaces : σ → Except String (List Workspace)
  DBGetAllWindows : σ → Except String (List Window)
  DBFindWindowForWorkspaceId : String → σ → String
  DeleteBlock : String → Bool → σ → Option String × σ
  CloseWindow : String → Bool → σ → Option String × σ

/-- The function `utilfn.FindStringInSlice` (not among the sources): the index of the first
occurrence of `val` in `slice`, or -1 when there is none, as its callers expect
(`tabIdx == -1`). -/
def FindStringInSlice (slice : List String) (val : String) : Int :=
  if val ∈ slice then (slice.indexOf val : Int) else -1

/-- Lines 283-288 of `DeleteTab`: the blocks of the tab are deleted in order, stopping at
the first error. -/
def deleteTabBlocks {σ : Type} (S : WStore σ) : List String → σ → Option String × σ
  | [], s => (none, s)
  | blockId :: rest, s =>
    match S.DeleteBlock blockId false s with
    | (some err, s1) => (some ("error deleting block " ++ blockId ++ ": " ++ err), s1)
    | (none, s1) => deleteTabBlocks S rest s1

/-- Lines 303-306 of `DeleteTab`: the tab object and, when the tab was found, its layout
state are deleted; the errors of `DBDelete` are dropped. -/
def deleteTabObjects {σ : Type} (S : WStore σ) (tabId : String) (tab : Option Tab) (s : σ) : σ :=
  let s1 := (S.DBDelete OType.Tab tabId s).2
  match tab with
  | some tab => (S.DBDelete OType.LayoutState tab.LayoutState s1).2
  | none => s1

/-- Source: `DeleteTab` (workspace.go:263-322). The result of `DBUpdate` is dropped, as in
the source; `recursive` is unused there (the code using it is commented out). -/
def DeleteTab {σ : Type} (S : WStore σ) (workspaceId tabId : String) (_recursive : Bool)
    (s : σ) : Except String String × σ :=
  match S.DBGetWorkspace workspaceId s with
  | none => (.error ("workspace not found: " ++ workspaceId), s)
  | some ws =>
    let tabIdx := FindStringInSlice ws.TabIds tabId
    if tabIdx = -1 then
      (.error ("tab " ++ tabId ++ " not found in workspace " ++ workspaceId), s)
    else
      let tabIds := ws.TabIds.take tabIdx.toNat ++ ws.TabIds.drop (tabIdx.toNat + 1)
      let tab := S.DBGetTab tabId s
      let blockIds := match tab with
        | some tab => tab.BlockIds
        | none => []
      match deleteTabBlocks S blockIds s with
      | (some err, s1) => (.error err, s1)
      | (none, s1) =>
        let newActiveTabId :=
          if ws.ActiveTabId = tabId then
            if tabIds.length > 0 then
              tabIds.getD (max 0 (min (tabIdx - 1) ((tabIds.length : Int) - 1))).toNat ""
            else
              ""
          else
            ws.ActiveTabId
        let ws1 : Workspace := { ws with TabIds := tabIds, ActiveTabId := newActiveTabId }
        let s2 := S.DBUpdateWorkspace ws1 s1
        (.ok newActiveTabId, deleteTabObjects S tabId tab s2)

/-- Source: `ListWorkspaces` (workspace.go:357-386). The map `workspaceToWindow` keeps,
for a workspace id, the last window that names it. -/
def ListWorkspaces {σ : Type} (S : WStore σ) (s : σ) : Except String (List WorkspaceListEntry) :=
  match S.DBGetAllWorkspaces s with
  | .error err => .error err
  | .ok workspaces =>
    match S.DBGetAllWindows s with
    | .error err => .error err
    | .ok windows =>
      .ok (workspaces.filterMap (fun workspace =>
        if workspace.Name = "" ∨ workspace.Icon = "" ∨ workspace.Color = "" then
          none
        else
          some { WorkspaceId := workspace.OID,
                 WindowId := match windows.reverse.find?
                     (fun window => decide (window.WorkspaceId = workspace.OID)) with
                   | some window => window.OID
                   | none => "" }))

/-- Lines 135-141 of `DeleteWorkspace`: the tabs are deleted in order, stopping at the first
error. -/
def deleteWorkspaceTabs {σ : Type} (S : WStore σ) (workspaceId : String) :
    List String → σ → Option String × σ
  | [], s => (none, s)
  | tabId :: rest, s =>
    match DeleteTab S workspaceId tabId false s with
    | (.error err, s1) => (some ("error closing tab: " ++ err), s1)
    | (.ok _, s1) => deleteWorkspaceTabs S workspaceId rest s1

/-- Lines 154-169 of `DeleteWorkspace`: the loop that looks for a workspace without a
window, from the state `(UnclaimedWorkspace, findAfter)`. -/
def findUnclaimedWorkspace (workspaceId : String) :
    List WorkspaceListEntry → String → Bool → String
  | [], unclaimed, _ => unclaimed
  | ws :: rest, unclaimed, findAfter =>
    if ws.WorkspaceId = workspaceId then
      if unclaimed ≠ "" then
        unclaimed
      else
        findUnclaimedWorkspace workspaceId rest unclaimed true
    else if findAfter = true ∧ ws.WindowId = "" then
      ws.WorkspaceId
    else if ws.WindowId = "" then
      findUnclaimedWorkspace workspaceId rest ws.WorkspaceId findAfter
    else
      findUnclaimedWorkspace workspaceId rest unclaimed findAfter

/-- Lines 142-181 of `DeleteWorkspace`: the workspace record is deleted and the window that
showed it is handed another workspace or closed. -/
def deleteWorkspaceRecord {σ : Type} (S : WStore σ) (workspaceId : String)
    (workspaces : List WorkspaceListEntry) (s : σ) : (Bool × String × Option String) × σ :=
  let windowId := S.DBFindWindowForWorkspaceId workspaceId s
  match S.DBDelete OType.Workspace workspaceId s with
  | (some err, s1) => ((false, "", some ("error deleting workspace: " ++ err)), s1)
  | (none, s1) =>
    if windowId ≠ "" then
      let unclaimed := findUnclaimedWorkspace workspaceId workspaces "" false
      if unclaimed ≠ "" then
        ((true, unclaimed, none), s1)
      else
        match S.CloseWindow windowId false s1 with
        | (some err, s2) => ((false, "", some ("error closing window: " ++ err)), s2)
        | (none, s2) => ((true, "", none), s2)
    else
      ((true, "", none), s1)

/-- Source: `DeleteWorkspace` (workspace.go:115-182); the result is the triple
`(bool, string, error)`. When `DBMustGet` fails with an error other than `ErrNotFound` the
source goes on with a nil `workspace` and panics at line 130; that outcome is the error
"nil pointer dereference" here. -/
def DeleteWorkspace {σ : Type} (S : WStore σ) (workspaceId : String) (force : Bool) (s : σ) :
    (Bool × String × Option String) × σ :=
  match S.DBMustGetWorkspace workspaceId s with
  | MustGet.notFound err => ((true, "", some ("workspace already deleted " ++ err)), s)
  | got =>
    match ListWorkspaces S s with
    | .error err => ((false, "", some ("error retrieving workspaceList: " ++ err)), s)
    | .ok workspaces =>
      match got with
      | MustGet.found workspace =>
        if workspace.Name ≠ "" ∧ workspace.Icon ≠ "" ∧ force = false ∧
            workspace.TabIds.length > 0 then
          ((false, "", none), s)
        else
          match deleteWorkspaceTabs S workspaceId workspace.TabIds s with
          | (some err, s1) => ((false, "", some err), s1)
          | (none, s1) => deleteWorkspaceRecord S workspaceId workspaces s1
      | _ => ((false, "", some "nil pointer dereference"), s)

/-- An in-memory object store used to exercise the theorems: the objects of each type,
and the error `CloseWindow` answers with, if any. -/
structure MemStore where
  workspaces : List Workspace
  tabs : List Tab
  windows : List Window
  closeWindowError : Option String
deriving DecidableEq, Repr

/-- The store operations on `MemStore`: objects are found by their id, updated in place and
deleted; `DeleteBlock` finds nothing to delete; `CloseWindow` fails with the recorded error
or removes the window. -/
def memStore : WStore MemStore where
  DBGetWorkspace oid s := s.workspaces.find? (fun ws => decide (ws.OID = oid))
  DBMustGetWorkspace oid s :=
    match s.workspaces.find? (fun ws => decide (ws.OID = oid)) with
    | some ws => MustGet.found ws
    | none => MustGet.notFound "not found"
  DBGetTab oid s := s.tabs.find? (fun tab => decide (tab.OID = oid))
  DBUpdateWorkspace ws s :=
    { s with workspaces := s.workspaces.map (fun old => if old.OID = ws.OID then ws else old) }
  DBDelete otype oid s :=
    match otype with
    | OType.Workspace =>
      (none, { s with workspaces := s.workspaces.filter (fun ws => decide (ws.OID ≠ oid)) })
    | OType.Tab => (none, { s with tabs := s.tabs.filter (fun tab => decide (tab.OID ≠ oid)) })
    | OType.LayoutState => (none, s)
  DBGetAllWorkspaces s := .ok s.workspaces
  DBGetAllWindows s := .ok s.windows
  DBFindWindowForWorkspaceId workspaceId s :=
    match s.windows.find? (fun window => decide (window.WorkspaceId = workspaceId)) with
    | some window => window.OID
    | none => ""
  DeleteBlock _ _ s := (none, s)
  CloseWindow windowId _ s :=
    match s.closeWindowError with
    | some err => (some err, s)
    | none => (none, { s with windows := s.windows.filter (fun w => decide (w.OID ≠ windowId)) })

/-- A named workspace with three tabs, the second one active. -/
def sampleWorkspace : Workspace :=
  { OID := "ws1", Name := "Work", Icon := "star", Color := "#58C142",
    TabIds := ["t1", "t2", "t3"], ActiveTabId := "t2" }

/-- A tab object without blocks. -/
def sampleTab (oid : String) : Tab :=
  { OID := oid, Name := oid, LayoutState := "layout-" ++ oid, BlockIds := [] }

/-- A store holding `sampleWorkspace`, its tabs and the window "win1" that shows it. -/
def sampleStore (closeWindowError : Option String) : MemStore :=
  { workspaces := [sampleWorkspace],
    tabs := [sampleTab "t1", sampleTab "t2", sampleTab "t3"],
    windows := [{ OID := "win1", WorkspaceId := "ws1" }],
    closeWindowError := closeWindowError }

/-- The in-memory store with a failing workspace listing: `DBGetAllObjsByType` answers with
an error. -/
def memStoreListFails : WStore MemStore :=
  { memStore with DBGetAllWorkspaces := fun _ => .error "database is locked" }

/-- The condition of line 130 of `DeleteWorkspace`, on which the delete is declined. -/
def declinesDelete (workspace : Workspace) (force : Bool) : Prop :=
  force = false ∧ workspace.Name ≠ "" ∧ workspace.Icon ≠ "" ∧ workspace.TabIds ≠ []

/-! ## `cleanPath` (pkg/remote/fileshare/wavefs/wavefs.go) -/

/-- Go `strings.HasPrefix(s, start)`. -/
def startsWith (s start : List Char) : Bool :=
  start.isPrefixOf s

/-- The loop of `cleanPath` (wavefs.go:624-632) over the parts still to come, with the parts
kept so far: ".." drops the last part kept, if any; "." is skipped; every other part is
kept. -/
def cleanPathLoop : List (List Char) → List (List Char) → List (List Char)
  | [], newParts => newParts
  | part :: rest, newParts =>
    if part = ['.', '.'] then
      if newParts.length > 0 then
        cleanPathLoop rest newParts.dropLast
      else
        cleanPathLoop rest newParts
    else if part ≠ ['.'] then
      cleanPathLoop rest (newParts ++ [part])
    else
      cleanPathLoop rest newParts

/-- Source: `cleanPath` (wavefs.go:613-634). `fspath.Separator` is "/"; `Join` stands for
`fspath.Join`, which is not among the sources. -/
def cleanPath (Join : List (List Char) → List Char) (path : String) : Except String String :=
  if path = "" ∨ path = "/" then
    .ok ""
  else
    let path := if startsWith path.data ['/'] then path.data.drop 1 else path.data
    if startsWith path ['~'] ∨ startsWith path ['.'] ∨ startsWith path ['.', '.'] then
      .error "wavefile path cannot start with ~, ., or .."
    else
      .ok (String.mk (Join (cleanPathLoop (splitSlash path) [])))

/-- A model of `fspath.Join` as Go `path.Join`: the empty elements are ignored, the others are
joined by slashes and the result is cleaned; no element gives the empty string. -/
def fspathJoin (elem : List (List Char)) : List Char :=
  if elem.filter (fun e => decide (e ≠ [])) = [] then
    []
  else
    filepathClean (List.intercalate ['/'] (elem.filter (fun e => decide (e ≠ []))))

/-! ## Block metadata, `runRun` and `checkCloseOnExit`
(cmd/ainsh/cmd/ainshcmd-run.go, pkg/blockcontroller/shellcontroller.go) -/

/-- A value of a metadata map (Go `any`), as far as the embedded code stores and reads it:
a string, a boolean, a number or a list of strings. A number is a finite `float64`, kept as
its integral part (the value truncated toward zero): the embedded code writes it from an
integer, compares it with 0 and converts it to an integer duration, and for a value between
-1 and 0 both ways of the comparison give the duration 0. -/
inductive MetaValue where
  | str (s : String)
  | bool (b : Bool)
  | num (n : Int)
  | strs (l : List String)
deriving DecidableEq, Repr

/-- Map `ainobj.MetaMapType` (Go `map[string]any`): the value of a key is that of its first
pair. -/
abbrev MetaMapType := List (String × MetaValue)

/-- Assignment `m[key] = v` on a metadata map. -/
def MetaMapType.set (m : MetaMapType) (key : String) (v : MetaValue) : MetaMapType :=
  (key, v) :: m.filter (fun p => decide (p.1 ≠ key))

/-- The method `MetaMapType.GetBool` (not among the sources): the boolean stored under the
key, or the default when the key is absent or holds no boolean. -/
def MetaMapType.GetBool (m : MetaMapType) (key : String) (default : Bool) : Bool :=
  match m.lookup key with
  | some (MetaValue.bool b) => b
  | _ => default

/-- The method `MetaMapType.GetFloat` (not among the sources): the number stored under the
key, or the default when the key is absent or holds no number; a `float64`, given by its
integral part. -/
def MetaMapType.GetFloat (m : MetaMapType) (key : String) (default : Int) : Int :=
  match m.lookup key with
  | some (MetaValue.num n) => n
  | _ => default

/-- The method `MetaMapType.GetString` (not among the sources): the string stored under the
key, or the default when the key is absent or holds no string. -/
def MetaMapType.GetString (m : MetaMapType) (key : String) (default : String) : String :=
  match m.lookup key with
  | some (MetaValue.str s) => s
  | _ => default

/-! The metadata keys of `ainobj` are not among the sources. The keys below are the names
used for them; the theorems use only that they are pairwise different. -/

/-- Key `ainobj.MetaKey_View`. -/
def MetaKey_View : String := "view"

/-- Key `ainobj.MetaKey_Controller`. -/
def MetaKey_Controller : String := "controller"

/-- Key `ainobj.MetaKey_Connection`. -/
def MetaKey_Connection : String := "connection"

/-- Key `ainobj.MetaKey_Cmd`. -/
def MetaKey_Cmd : String := "cmd"

/-- Key `ainobj.MetaKey_CmdArgs`. -/
def MetaKey_CmdArgs : String := "cmd:args"

/-- Key `ainobj.MetaKey_CmdShell`. -/
def MetaKey_CmdShell : String := "cmd:shell"

/-- Key `ainobj.MetaKey_CmdCwd`. -/
def MetaKey_CmdCwd : String := "cmd:cwd"

/-- Key `ainobj.MetaKey_CmdClearOnStart`. -/
def MetaKey_CmdClearOnStart : String := "cmd:clearonstart"

/-- Key `ainobj.MetaKey_CmdRunOnStart`. -/
def MetaKey_CmdRunOnStart : String := "cmd:runonstart"

/-- Key `ainobj.MetaKey_CmdRunOnce`. -/
def MetaKey_CmdRunOnce : String := "cmd:runonce"

/-- Key `ainobj.MetaKey_CmdCloseOnExit`. -/
def MetaKey_CmdCloseOnExit : String := "cmd:closeonexit"

/-- Key `ainobj.MetaKey_CmdCloseOnExitForce`. -/
def MetaKey_CmdCloseOnExitForce : String := "cmd:closeonexitforce"

/-- Key `ainobj.MetaKey_CmdCloseOnExitDelay`. -/
def MetaKey_CmdCloseOnExitDelay : String := "cmd:closeonexitdelay"

/-- The flags and values `runRun` builds the block metadata from (ainshcmd-run.go:46-81):
the flags `-x` (`exit`), `-X` (`forceExit`), `--delay`, `-p`, `-a`, the command, its
arguments, the working directory and the connection of the RPC context. -/
structure RunFlags where
  exit : Bool
  forceExit : Bool
  delayMs : Int
  paused : Bool
  appendOutput : Bool
  shellCmd : String
  cmdArgs : List String
  useShell : Bool
  cwd : String
  conn : String
deriving DecidableEq, Repr

/-- Go `float64(n)` for an integer `n`: the nearest `float64`, a tie going to the even
mantissa. Up to `2 ^ 53` in magnitude the value is `n` itself; above, the bits below the
first 53 are rounded away. The result is an integer. -/
def float64OfInt (n : Int) : Int :=
  let a := n.natAbs
  if a < 2 ^ 53 then
    n
  else
    let e := a.log2 - 52
    let q := a / 2 ^ e
    let r := a % 2 ^ e
    let q := if 2 ^ (e - 1) < r ∨ (r = 2 ^ (e - 1) ∧ q % 2 = 1) then q + 1 else q
    if n < 0 then -((q * 2 ^ e : Nat) : Int) else ((q * 2 ^ e : Nat) : Int)

/-- Go conversion of a finite `float64`, given by its integral part, to `int64`
(`time.Duration(delayMs)`): the integral part when it is in the range of `int64`. For a value
out of range the result is left to the implementation by the Go specification; amd64 gives
the minimum of `int64`, which is what is taken here. -/
def int64OfFloat (v : Int) : Int :=
  if -2 ^ 63 ≤ v ∧ v < 2 ^ 63 then v else -2 ^ 63

/-- Source: `runRun` (ainshcmd-run.go:107-134): the map `createMeta` of the new block. The
flag `--delay` is an `int`, stored as `float64(delayMs)`. -/
def runCreateMeta (f : RunFlags) : MetaMapType :=
  let createMeta : MetaMapType :=
    [(MetaKey_View, MetaValue.str "term"), (MetaKey_CmdCwd, MetaValue.str f.cwd),
      (MetaKey_Controller, MetaValue.str "cmd"), (MetaKey_CmdClearOnStart, MetaValue.bool true)]
  let createMeta := createMeta.set MetaKey_Cmd (MetaValue.str f.shellCmd)
  let createMeta := createMeta.set MetaKey_CmdArgs (MetaValue.strs f.cmdArgs)
  let createMeta := createMeta.set MetaKey_CmdShell (MetaValue.bool f.useShell)
  let createMeta :=
    if f.paused = true then
      createMeta.set MetaKey_CmdRunOnStart (MetaValue.bool false)
    else
      (createMeta.set MetaKey_CmdRunOnce (MetaValue.bool true)).set MetaKey_CmdRunOnStart
        (MetaValue.bool true)
  let createMeta :=
    if f.forceExit = true then
      createMeta.set MetaKey_CmdCloseOnExitForce (MetaValue.bool true)
    else if f.exit = true then
      createMeta.set MetaKey_CmdCloseOnExit (MetaValue.bool true)
    else
      createMeta
  let createMeta :=
    createMeta.set MetaKey_CmdCloseOnExitDelay (MetaValue.num (float64OfInt f.delayMs))
  let createMeta :=
    if f.appendOutput = true then
      createMeta.set MetaKey_CmdClearOnStart (MetaValue.bool false)
    else
      createMeta
  if f.conn ≠ "" then
    createMeta.set MetaKey_Connection (MetaValue.str f.conn)
  else
    createMeta

/-- Reference `ainobj.ORef`: object type and object id. Its string form
(`MakeORef(...).String()`) and the parsing of it (`ParseORefNoErr`) are not among the
sources; the code that uses them takes them as `ORefFns`. -/
structure ORef where
  OType : String
  OID : String
deriving DecidableEq, Repr

/-- Constant `ainobj.OType_Tab`. -/
def OType_Tab : String := "tab"

/-- Constant `ainobj.OType_Block`. -/
def OType_Block : String := "block"

/-- Object `ainobj.Block`, as far as the embedded code uses it: `ParentORef` is the string
form of the reference to the parent; `RuntimeOpts`, which no embedded code reads, is left
out. -/
structure Block where
  OID : String
  ParentORef : String
  Meta : MetaMapType
  SubBlockIds : List String
deriving DecidableEq, Repr

/-- What `checkCloseOnExit` does after its decision: it sleeps (`time.Sleep(d)` for a
`time.Duration` `d` in nanoseconds, which returns at once when `d` is zero or less), then
sends the delete command for the block. -/
inductive ExitEffect where
  | sleep (d : Int)
  | deleteBlock (blockId : String)
deriving DecidableEq, Repr

/-- Source: `checkCloseOnExit` (shellcontroller.go:620-643). `DBMustGet` is the store lookup
of the block (not among the sources); the result is what the function does:
`time.Sleep(time.Duration(delayMs) * time.Millisecond)`, where the conversion of the
`float64` gives an `int64` and the product is an `int64` product that wraps around, then
`DeleteBlockCommand` for the block, whose error is only logged. -/
def checkCloseOnExit (DBMustGet : String → Except String Block) (blockId : String)
    (exitCode : Int) : List ExitEffect :=
  match DBMustGet blockId with
  | .error _ => []
  | .ok blockData =>
    let closeOnExit := blockData.Meta.GetBool MetaKey_CmdCloseOnExit false
    let closeOnExitForce := blockData.Meta.GetBool MetaKey_CmdCloseOnExitForce false
    if closeOnExitForce = false ∧ ¬ (closeOnExit = true ∧ exitCode = 0) then
      []
    else
      let delayMs := blockData.Meta.GetFloat MetaKey_CmdCloseOnExitDelay 2000
      let delayMs := if delayMs < 0 then 0 else delayMs
      [ExitEffect.sleep (wrapInt64 (int64OfFloat delayMs * Millisecond)),
        ExitEffect.deleteBlock blockId]

/-- A store lookup that finds the block "b1" with the given metadata and no other block. -/
def lookupBlockB1 (meta : MetaMapType) : String → Except String Block :=
  fun blockId =>
    if blockId = "b1" then
      .ok { OID := "b1", ParentORef := "tab:t1", Meta := meta, SubBlockIds := [] }
    else
      .error "not found"

/-- The flags of `wsh run -x --delay -5 -- make`. -/
def flagsExit : RunFlags :=
  { exit := true, forceExit := false, delayMs := -5, paused := false, appendOutput := false,
    shellCmd := "make", cmdArgs := [], useShell := false, cwd := "/home/u", conn := "" }

/-! ## `UpdateWorkspace` (pkg/aincore/workspace.go) -/

/-- Source: `WorkspaceColors` (workspace.go:24-32). -/
def WorkspaceColors : List String :=
  ["#58C142", "#00FFDB", "#429DFF", "#BF55EC", "#FF453A", "#FF9500", "#FFE900"]

/-- Source: `WorkspaceIcons` (workspace.go:34-49). -/
def WorkspaceIcons : List String :=
  ["custom@wave-logo-solid", "triangle", "star", "heart", "bolt", "solid@cloud", "moon",
    "layer-group", "rocket", "flask", "paperclip", "chart-line", "graduation-cap", "mug-hot"]

/-- Go `s[0:n]` for a string `s` of at least `n` bytes, read as text: the characters that
lie within the first `n` bytes of the UTF-8 encoding. When the cut falls inside a character,
each byte of it that is left reads as U+FFFD, which is how Go decodes an invalid byte (in a
`range` loop, and when the string is written as JSON). For an ASCII string these are the
first `n` characters. -/
def goSlicePrefix : List Char → Nat → List Char
  | _, 0 => []
  | [], _ + 1 => []
  | c :: cs, n + 1 =>
    if c.utf8Size ≤ n + 1 then c :: goSlicePrefix cs (n + 1 - c.utf8Size)
    else List.replicate (n + 1) (Char.ofNat 0xFFFD)

/-- Lines 83-108 of `UpdateWorkspace`: the new name, icon and colour of `ws` and the flag
`updated`. `wsListLen` is the length of the workspace list (0 when `ListWorkspaces` fails);
`ws.OID[0:5]` is the first five bytes of an object id of at least five bytes. -/
def updateWorkspaceFields (ws : Workspace) (name icon color : String) (applyDefaults : Bool)
    (wsListLen : Nat) : Workspace × Bool :=
  let updated := false
  let (ws, updated) :=
    if name ≠ "" then
      ({ ws with Name := name }, true)
    else if applyDefaults = true ∧ ws.Name = "" then
      ({ ws with Name := "New Workspace (" ++ String.mk (goSlicePrefix ws.OID.data 5) ++ ")" },
        true)
    else
      (ws, updated)
  let (ws, updated) :=
    if icon ≠ "" then
      ({ ws with Icon := icon }, true)
    else if applyDefaults = true ∧ ws.Icon = "" then
      ({ ws with Icon := WorkspaceIcons.getD 0 "" }, true)
    else
      (ws, updated)
  if color ≠ "" then
    ({ ws with Color := color }, true)
  else if applyDefaults = true ∧ ws.Color = "" then
    ({ ws with Color := WorkspaceColors.getD (wsListLen % WorkspaceColors.length) "" }, true)
  else
    (ws, updated)

/-- Source: `UpdateWorkspace` (workspace.go:76-113): the result `(ws, updated, error)` and
the store afterwards. `GetWorkspace` is `DBMustGet`; the result of `DBUpdate` is dropped.
When the default name is needed and the object id has fewer than five bytes,
`ws.OID[0:5]` panics; that outcome is the error "slice bounds out of range" here. -/
def UpdateWorkspace {σ : Type} (S : WStore σ) (workspaceId name icon color : String)
    (applyDefaults : Bool) (s : σ) : Except String (Workspace × Bool) × σ :=
  match S.DBMustGetWorkspace workspaceId s with
  | MustGet.notFound err => (.error ("workspace " ++ workspaceId ++ " not found: " ++ err), s)
  | MustGet.failed err => (.error ("workspace " ++ workspaceId ++ " not found: " ++ err), s)
  | MustGet.found ws =>
    if name = "" ∧ applyDefaults = true ∧ ws.Name = "" ∧ ws.OID.utf8ByteSize < 5 then
      (.error "slice bounds out of range", s)
    else
      let wsListLen :=
        match ListWorkspaces S s with
        | .ok wsList => wsList.length
        | .error _ => 0
      let r := updateWorkspaceFields ws name icon color applyDefaults wsListLen
      if r.2 = true then
        (.ok r, S.DBUpdateWorkspace r.1 s)
      else
        (.ok r, s)

/-- The condition under which `UpdateWorkspace` sets `updated`: a non-empty value is given,
or defaults are applied to an empty field. -/
def setsUpdated (ws : Workspace) (name icon color : String) (applyDefaults : Bool) : Prop :=
  name ≠ "" ∨ icon ≠ "" ∨ color ≠ "" ∨
    (applyDefaults = true ∧ (ws.Name = "" ∨ ws.Icon = "" ∨ ws.Color = ""))

/-! ## `CreateBlockWithTelemetry` (pkg/aincore/block.go) -/

/-- The functions on references that block.go uses and that are not among the sources:
`ORefString` is the method `ORef.String`, `ParseORefNoErr` gives nil (`none`) for a string that does not
parse. -/
structure ORefFns where
  ORefString : ORef → String
  ParseORefNoErr : String → Option ORef

/-- The function `ainobj.MakeORef`: the reference with the given type and id. -/
def MakeORef (otype oid : String) : ORef :=
  { OType := otype, OID := oid }

/-- Object `ainobj.FileDef`, as far as block.go uses it. -/
structure FileDef where
  Content : String
  Meta : MetaMapType
deriving DecidableEq, Repr

/-- Object `ainobj.BlockDef`. `Meta` is `none` for a nil map; `Files` lists the entries of
the Go map in the order in which the `range` loop visits them. -/
structure BlockDef where
  Meta : Option MetaMapType
  Files : List (String × FileDef)
deriving DecidableEq, Repr

/-- The store operations used by block.go, over a store state `σ`. `DBGetTab` is
`DBGet[*Tab]` where its error is dropped (`tab, _ :=`); `DBGetBlock` is `DBGet[*Block]` with
its error; `DBInsert`, `DBUpdate` and `DBDelete` are called with their results dropped and
give the new state. -/
structure BlockStore (σ : Type) where
  DBGetTab : String → σ → Option Tab
  DBGetBlock : String → σ → Except String (Option Block)
  DBInsertBlock : Block → σ → σ
  DBUpdateTab : Tab → σ → σ
  DBUpdateBlock : Block → σ → σ
  DBDeleteBlock : String → σ → σ

/-- The operations of `filestore.WFS` used by block.go, over a file store state `φ`. The
error of `DeleteZone` is dropped by its caller. -/
structure FileStore (φ : Type) where
  MakeFile : String → String → MetaMapType → φ → Option String × φ
  WriteFile : String → String → String → φ → Option String × φ
  DeleteZone : String → φ → φ

/-- The function `utilfn.RemoveElemFromSlice` (not among the sources): the slice without the
elements equal to `val`. -/
def RemoveElemFromSlice (arr : List String) (val : String) : List String :=
  arr.filter (fun v => decide (v ≠ val))

/-- Go `%q` for a string without characters to escape: the string in double quotes. -/
def goQuote (s : String) : String :=
  String.singleton (Char.ofNat 34) ++ s ++ String.singleton (Char.ofNat 34)

/-- Source: `createBlockObj` (block.go:130-148). `uuid` is the value of `uuid.NewString()`.
`WithTxRtn` is taken to run its body; the only error return comes before any write. -/
def createBlockObj {σ : Type} (S : BlockStore σ) (P : ORefFns) (uuid tabId : String)
    (blockDef : BlockDef) (s : σ) : Except String Block × σ :=
  match S.DBGetTab tabId s with
  | none => (.error ("tab not found: " ++ goQuote tabId), s)
  | some tab =>
    let blockId := uuid
    let blockData : Block :=
      { OID := blockId, ParentORef := P.ORefString (MakeORef OType_Tab tabId),
        Meta := blockDef.Meta.getD [], SubBlockIds := [] }
    let s1 := S.DBInsertBlock blockData s
    let tab := { tab with BlockIds := tab.BlockIds ++ [blockId] }
    let s2 := S.DBUpdateTab tab s1
    (.ok blockData, s2)

/-- Lines 208-226 of `deleteBlockObj`: the block id is taken out of the list of its parent
tab or parent block, when the parent reference parses and the parent is found; the result is
the new block count of the parent (-1 when there is none) and the store. -/
def removeFromParent {σ : Type} (S : BlockStore σ) (P : ORefFns) (block : Block)
    (blockId : String) (s : σ) : Int × σ :=
  match P.ParseORefNoErr block.ParentORef with
  | none => (-1, s)
  | some parentORef =>
    if parentORef.OType = OType_Tab then
      match S.DBGetTab parentORef.OID s with
      | some tab =>
        let tab := { tab with BlockIds := RemoveElemFromSlice tab.BlockIds blockId }
        (tab.BlockIds.length, S.DBUpdateTab tab s)
      | none => (-1, s)
    else if parentORef.OType = OType_Block then
      match S.DBGetBlock parentORef.OID s with
      | .ok (some parentBlock) =>
        let parentBlock :=
          { parentBlock with
            SubBlockIds := RemoveElemFromSlice parentBlock.SubBlockIds blockId }
        (parentBlock.SubBlockIds.length, S.DBUpdateBlock parentBlock s)
      | _ => (-1, s)
    else
      (-1, s)

/-- Source: `deleteBlockObj` (block.go:196-235): the block count of the parent or an error,
and the store. `WithTxRtn` is taken to run its body; every error return comes before any
write. `DeleteRTInfo` acts on the runtime info kept in memory, not on the store. -/
def deleteBlockObj {σ : Type} (S : BlockStore σ) (P : ORefFns) (blockId : String) (s : σ) :
    Except String Int × σ :=
  match S.DBGetBlock blockId s with
  | .error err => (.error ("error getting block: " ++ err), s)
  | .ok none => (.error ("block not found: " ++ goQuote blockId), s)
  | .ok (some block) =>
    if block.SubBlockIds.length > 0 then
      (.error "block has subblocks, must delete subblocks first", s)
    else
      let r := removeFromParent S P block blockId s
      (.ok r.1, S.DBDeleteBlock blockId r.2)

/-- Lines 89-98 of `CreateBlockWithTelemetry`: for each file of the block definition
`MakeFile` then `WriteFile`, stopping at the first error. -/
def makeBlockFiles {φ : Type} (F : FileStore φ) (newBlockOID : String) :
    List (String × FileDef) → φ → Option String × φ
  | [], f => (none, f)
  | (fileName, fileDef) :: rest, f =>
    match F.MakeFile newBlockOID fileName fileDef.Meta f with
    | (some err, f1) => (some ("error making blockfile " ++ goQuote fileName ++ ": " ++ err), f1)
    | (none, f1) =>
      match F.WriteFile newBlockOID fileName fileDef.Content f1 with
      | (some err, f2) =>
        (some ("error writing blockfile " ++ goQuote fileName ++ ": " ++ err), f2)
      | (none, f2) => makeBlockFiles F newBlockOID rest f2

/-- What the body of `CreateBlockWithTelemetry` leaves when it returns: the results, the
variables `blockCreated` and `newBlockOID` read by the deferred function, the view and
controller given to the telemetry goroutine when one is started, and the two stores. -/
structure CreateBlockRun (σ φ : Type) where
  rtnBlock : Option Block
  rtnErr : Option String
  blockCreated : Bool
  newBlockOID : String
  telemetry : Option (String × String)
  objects : σ
  files : φ

/-- Lines 76-106 of `CreateBlockWithTelemetry`: the body, without the deferred function. -/
def createBlockBody {σ φ : Type} (S : BlockStore σ) (F : FileStore φ) (P : ORefFns)
    (uuid tabId : String) (blockDef : Option BlockDef) (recordTelemetry : Bool)
    (s : σ) (f : φ) : CreateBlockRun σ φ :=
  match blockDef with
  | none =>
    { rtnBlock := none, rtnErr := some "blockDef is nil", blockCreated := false,
      newBlockOID := "", telemetry := none, objects := s, files := f }
  | some blockDef =>
    if blockDef.Meta = none ∨ (blockDef.Meta.getD []).GetString MetaKey_View "" = "" then
      { rtnBlock := none, rtnErr := some "no view provided for new block",
        blockCreated := false, newBlockOID := "", telemetry := none, objects := s, files := f }
    else
      match createBlockObj S P uuid tabId blockDef s with
      | (.error err, s1) =>
        { rtnBlock := none, rtnErr := some ("error creating block: " ++ err),
          blockCreated := false, newBlockOID := "", telemetry := none, objects := s1,
          files := f }
      | (.ok blockData, s1) =>
        match makeBlockFiles F blockData.OID blockDef.Files f with
        | (some err, f1) =>
          { rtnBlock := none, rtnErr := some err, blockCreated := true,
            newBlockOID := blockData.OID, telemetry := none, objects := s1, files := f1 }
        | (none, f1) =>
          { rtnBlock := some blockData, rtnErr := none, blockCreated := true,
            newBlockOID := blockData.OID,
            telemetry :=
              if recordTelemetry = true then
                some ((blockDef.Meta.getD []).GetString MetaKey_View "",
                  (blockDef.Meta.getD []).GetString MetaKey_Controller "")
              else none,
            objects := s1, files := f1 }

/-- Source: `CreateBlockWithTelemetry` (block.go:63-107): the body, then the deferred
function of lines 66-75, which on an error after the block was created calls
`deleteBlockObj` and `DeleteZone` for the new block and drops their results. -/
def CreateBlockWithTelemetry {σ φ : Type} (S : BlockStore σ) (F : FileStore φ) (P : ORefFns)
    (uuid tabId : String) (blockDef : Option BlockDef) (recordTelemetry : Bool)
    (s : σ) (f : φ) : CreateBlockRun σ φ :=
  let r := createBlockBody S F P uuid tabId blockDef recordTelemetry s f
  if r.rtnErr = none then
    r
  else if r.blockCreated = true ∧ r.newBlockOID ≠ "" then
    { r with
      objects := (deleteBlockObj S P r.newBlockOID r.objects).2,
      files := F.DeleteZone r.newBlockOID r.files }
  else
    r

/-- What a store has to do for the cleanup to find what was inserted: a block is found after
its insert and not after its delete, a tab that exists is found as updated, a tab found by
an id has this id, and writes of blocks and of tabs do not disturb each other. -/
structure LawfulBlockStore {σ : Type} (S : BlockStore σ) : Prop where
  getBlock_insert : ∀ (b : Block) (s : σ), S.DBGetBlock b.OID (S.DBInsertBlock b s) = .ok (some b)
  getBlock_updateTab : ∀ (t : Tab) (oid : String) (s : σ),
    S.DBGetBlock oid (S.DBUpdateTab t s) = S.DBGetBlock oid s
  getTab_insertBlock : ∀ (b : Block) (oid : String) (s : σ),
    S.DBGetTab oid (S.DBInsertBlock b s) = S.DBGetTab oid s
  getTab_updateTab : ∀ (t t0 : Tab) (s : σ),
    S.DBGetTab t.OID s = some t0 → S.DBGetTab t.OID (S.DBUpdateTab t s) = some t
  getTab_oid : ∀ (oid : String) (s : σ) (t : Tab), S.DBGetTab oid s = some t → t.OID = oid
  getBlock_delete : ∀ (oid : String) (s : σ), S.DBGetBlock oid (S.DBDeleteBlock oid s) = .ok none
  getTab_deleteBlock : ∀ (oid oid2 : String) (s : σ),
    S.DBGetTab oid2 (S.DBDeleteBlock oid s) = S.DBGetTab oid2 s

/-- An in-memory object store for block.go: the blocks and the tabs. -/
structure MemBlocks where
  blocks : List Block
  tabs : List Tab
deriving DecidableEq, Repr

/-- The store operations on `MemBlocks`: objects are found by their id, a new block is put in
front, a tab or block is updated in place, a block is deleted by its id. -/
def memBlocks : BlockStore MemBlocks where
  DBGetTab oid s := s.tabs.find? (fun tab => decide (tab.OID = oid))
  DBGetBlock oid s := .ok (s.blocks.find? (fun b => decide (b.OID = oid)))
  DBInsertBlock b s := { s with blocks := b :: s.blocks }
  DBUpdateTab tab s :=
    { s with tabs := s.tabs.map (fun old => if old.OID = tab.OID then tab else old) }
  DBUpdateBlock b s :=
    { s with blocks := s.blocks.map (fun old => if old.OID = b.OID then b else old) }
  DBDeleteBlock oid s := { s with blocks := s.blocks.filter (fun b => decide (b.OID ≠ oid)) }

/-- The in-memory object store with failing block reads: `DBGet[*Block]` answers with an
error. -/
def memBlocksGetFails : BlockStore MemBlocks :=
  { memBlocks with DBGetBlock := fun _ _ => .error "database is locked" }

/-- An in-memory file store: the files as (zone, name, content), and the error with which
`MakeFile` fails, if it does. -/
structure MemFiles where
  files : List (String × String × String)
  makeFileError : Option String
deriving DecidableEq, Repr

/-- The file operations on `MemFiles`: `MakeFile` fails with the recorded error or adds an
empty file, `WriteFile` sets the content of the file, `DeleteZone` removes the files of the
zone. -/
def memFiles : FileStore MemFiles where
  MakeFile zoneId name _ f :=
    match f.makeFileError with
    | some err => (some err, f)
    | none => (none, { f with files := f.files ++ [(zoneId, name, "")] })
  WriteFile zoneId name content f :=
    (none, { f with files := f.files.map (fun file =>
      if file.1 = zoneId ∧ file.2.1 = name then (zoneId, name, content) else file) })
  DeleteZone zoneId f := { f with files := f.files.filter (fun file => decide (file.1 ≠ zoneId)) }

/-- Reference functions for the examples: the string form is type, colon, id; a string with
exactly one colon parses back. -/
def sampleORefFns : ORefFns where
  ORefString oref := oref.OType ++ ":" ++ oref.OID
  ParseORefNoErr str :=
    match str.data.dropWhile (fun c => decide (c ≠ ':')) with
    | [] => none
    | _ :: oid =>
      if ':' ∈ oid then none
      else some { OType := String.mk (str.data.takeWhile (fun c => decide (c ≠ ':'))),
                  OID := String.mk oid }

/-- An object store with the tab "t1", which shows the block "b0". -/
def sampleBlocks : MemBlocks :=
  { blocks := [{ OID := "b0", ParentORef := "tab:t1", Meta := [], SubBlockIds := [] }],
    tabs := [{ OID := "t1", Name := "t1", LayoutState := "layout-t1", BlockIds := ["b0"] }] }

/-- A block definition with the view "term" and one file. -/
def sampleBlockDef : BlockDef :=
  { Meta := some [(MetaKey_View, MetaValue.str "term")],
    Files := [("env", { Content := "A=1", Meta := [] })] }

/-- An empty file store in which `MakeFile` fails with the given error, if any. -/
def sampleFiles (makeFileError : Option String) : MemFiles :=
  { files := [], makeFileError := makeFileError }

/-- The upstream client of a sub-router whose control root route is served by a root table
router in the world `w0`: a verify request is answered by `AuthenticateTokenVerifyCommand`
there. -/
def upstreamRoot (w0 : World RouterState) : WshRpc CommandAuthenticateRtnData where
  SendRpcRequest command data route :=
    if command = "authenticatetokenverify" ∧ route = "$control:root" then
      (AuthenticateTokenVerifyCommand tableRouter data w0).1
    else .error "no route"

/-- A request context on ingress link 7 of a sub-router whose root holds `leafEntry`. -/
def ctxForwardRoot : Ctx CommandAuthenticateRtnData :=
  { source := "", handler := some { GetIngressLinkId := 7 },
    wshRpc := some (upstreamRoot { router := rootState, tokens := [leafEntry] }) }

/-- The packet of a read that lets the read loop go on, which is sent as a response. -/
def ReadEvent.packet : ReadEvent → Option WaveAIPacketType
  | ReadEvent.message (DecodeResult.packet streamResp) => some streamResp
  | _ => none

/-- The case in which the goroutine of `StreamCompletion` does not end: the endpoint and the
options are there, the connection is made, the request packet is marshalled and written, and
no read ends the read loop, so that the goroutine stays in `conn.ReadMessage()`. -/
def staysInReadLoop (wsEndpoint : String) (ws : WebsocketBehaviour)
    (request : WaveAIStreamRequest) : Prop :=
  wsEndpoint ≠ "" ∧
    ∃ opts, request.Opts = some opts ∧ ws.dial = DialResult.connected ∧
      (∃ configMessageBuf,
        ws.marshal
            { MakeWaveAICloudReqPacket with
              ClientId := request.ClientId, Prompt := sendablePromptMsgs request.Prompt,
              MaxTokens := opts.MaxTokens, MaxChoices := opts.MaxChoices } =
          .ok configMessageBuf ∧
        ws.writeMessage configMessageBuf = none) ∧
      ∀ ev ∈ ws.reads, ev.stops = false

/-! ## Theorems -/

/-- A successful validation never comes from a nil context. -/
theorem validateRpcContextFromAuth_ok_some {c : Option RpcContext} {routeId : String}
    (h : validateRpcContextFromAuth c = .ok routeId) : ∃ x, c = some x := by
  cases c with
  | none => simp [validateRpcContextFromAuth] at h
  | some x => exact ⟨x, rfl⟩

/-- What a successful validation of a non-nil context says about it. -/
theorem validateRpcContextFromAuth_ok_iff (x : RpcContext) (routeId : String) :
    validateRpcContextFromAuth (some x) = .ok routeId ↔
      routeId = x.RouteId ∧ ((x.IsRouter = true ∧ x.RouteId = "") ∨
        (x.IsRouter = false ∧ x.RouteId ≠ "")) := by
  cases hr : x.IsRouter <;> by_cases hid : x.RouteId = "" <;>
    simp [validateRpcContextFromAuth, hr, hid] <;>
    exact ⟨fun h => h.symm, fun h => h.symm⟩

/-- C1: `validateRpcContextFromAuth c` returns an error if and only if `c` is nil, or `c` is
router-typed with a non-empty route id, or `c` is not router-typed with an empty route id;
when it succeeds it returns the route id of `c`, and that is the empty string exactly when
`c` is router-typed. -/
theorem validateRpcContextFromAuth_spec (c : Option RpcContext) :
    ((∃ err, validateRpcContextFromAuth c = .error err) ↔
        (c = none ∨ ∃ x, c = some x ∧
          ((x.IsRouter = true ∧ x.RouteId ≠ "") ∨ (x.IsRouter = false ∧ x.RouteId = "")))) ∧
      (∀ routeId, validateRpcContextFromAuth c = .ok routeId →
        ∃ x, c = some x ∧ routeId = x.RouteId ∧ (routeId = "" ↔ x.IsRouter = true)) := by
  cases c with
  | none => simp [validateRpcContextFromAuth]
  | some x =>
    cases hr : x.IsRouter <;> by_cases hid : x.RouteId = "" <;>
      simp [validateRpcContextFromAuth, hr, hid]

/-- C2: when the request arrives on ingress link `L` and the JWT validates to a context `c`
that `validateRpcContextFromAuth` accepts, `AuthenticateCommand` succeeds (with the empty
return data); if `c` is router-typed the only router call is `trustLink(L, Router)`, and
otherwise the router calls are `trustLink(L, Leaf)` followed by
`bindRoute(L, c.RouteId, true)` with `c.RouteId` non-empty. The token store is untouched. -/
theorem AuthenticateCommand_accepts {ρ σ : Type} (d : Deps ρ) (R : WshRouter σ) (ctx : Ctx ρ)
    (data : String) (w : World (σ × List RouterCall)) (handler : RpcResponseHandler)
    (c : RpcContext) (routeId : String)
    (hh : ctx.handler = some handler) (hl : handler.GetIngressLinkId ≠ d.NoLinkId)
    (hjwt : d.ValidateAndExtractRpcContextFromToken data = .ok (some c))
    (hval : validateRpcContextFromAuth (some c) = .ok routeId) :
    (c.IsRouter = true →
      AuthenticateCommand d (recording R) ctx data w =
        (.ok CommandAuthenticateRtnData.empty,
          { router := (R.trustLink handler.GetIngressLinkId LinkKind.Router w.router.1,
              w.router.2 ++ [RouterCall.trustLink handler.GetIngressLinkId LinkKind.Router]),
            tokens := w.tokens })) ∧
    (c.IsRouter = false →
      c.RouteId ≠ "" ∧
      AuthenticateCommand d (recording R) ctx data w =
        (.ok CommandAuthenticateRtnData.empty,
          { router :=
              ((R.bindRoute handler.GetIngressLinkId c.RouteId true
                  (R.trustLink handler.GetIngressLinkId LinkKind.Leaf w.router.1)).2,
                w.router.2 ++ [RouterCall.trustLink handler.GetIngressLinkId LinkKind.Leaf,
                  RouterCall.bindRoute handler.GetIngressLinkId c.RouteId true]),
            tokens := w.tokens })) := by
  have hv := (validateRpcContextFromAuth_ok_iff c routeId).mp hval
  obtain ⟨hrid, hcase⟩ := hv
  constructor
  · intro hr
    simp [AuthenticateCommand, hh, hl, hjwt, hval, hr, recording]
  · intro hr
    have hne : c.RouteId ≠ "" := by
      rcases hcase with h | h
      · rw [hr] at h; exact absurd h.1 (by simp)
      · exact h.2
    refine ⟨hne, ?_⟩
    simp [AuthenticateCommand, hh, hl, hjwt, hval, hr, recording, hrid]

/-- Witness for C2: the JWT "jwt-leaf" on link 7 of a fresh root table router. -/
theorem AuthenticateCommand_accepts_witness :
    leafCtx.RouteId ≠ "" ∧
      AuthenticateCommand sampleDeps (recording tableRouter) ctxLink7 "jwt-leaf"
          { router := (rootState, []), tokens := [] } =
        (.ok CommandAuthenticateRtnData.empty,
          { router :=
              ((tableRouter.bindRoute 7 leafCtx.RouteId true
                  (tableRouter.trustLink 7 LinkKind.Leaf rootState)).2,
                [] ++ [RouterCall.trustLink 7 LinkKind.Leaf,
                  RouterCall.bindRoute 7 leafCtx.RouteId true]),
            tokens := [] }) :=
  (AuthenticateCommand_accepts sampleDeps tableRouter ctxLink7 "jwt-leaf"
    { router := (rootState, []), tokens := [] } { GetIngressLinkId := 7 } leafCtx "proc:1"
    rfl (by decide) (by simp [sampleDeps]) (by simp [validateRpcContextFromAuth, leafCtx])).2 rfl

/-! ### Token store -/

/-- The entry returned by `GetAndRemoveTokenSwapEntry` is the one the store holds. -/
theorem GetAndRemoveTokenSwapEntry_fst (token : String) (store : TokenStore) :
    (GetAndRemoveTokenSwapEntry token store).1 = entryFor token store := by
  unfold GetAndRemoveTokenSwapEntry
  cases entryFor token store <;> rfl

/-- After `GetAndRemoveTokenSwapEntry` the store holds no entry for the token. -/
theorem GetAndRemoveTokenSwapEntry_removes (token : String) (store : TokenStore) :
    ∀ e ∈ (GetAndRemoveTokenSwapEntry token store).2, e.Token ≠ token := by
  unfold GetAndRemoveTokenSwapEntry
  cases h : entryFor token store with
  | none =>
    intro e he
    simp only at he
    have := List.find?_eq_none.mp h e he
    simpa using this
  | some x =>
    intro e he
    simp only [List.mem_filter] at he
    simpa using he.2

/-- A store without an entry whose token is `token` answers `nil`. -/
theorem entryFor_eq_none_of_forall (token : String) (store : TokenStore)
    (h : ∀ e ∈ store, e.Token ≠ token) : entryFor token store = none := by
  unfold entryFor
  rw [List.find?_eq_none]
  intro e he
  simpa using h e he

/-! ### `AuthenticateTokenVerifyCommand` -/

/-- On a root router, with a non-empty token, the verify command leaves the router alone and
leaves the store as `GetAndRemoveTokenSwapEntry` left it. -/
theorem AuthenticateTokenVerifyCommand_world {σ : Type} (R : WshRouter σ)
    (data : CommandAuthenticateTokenData) (w : World σ)
    (hroot : R.IsRootRouter w.router = true) (ht : data.Token ≠ "") :
    (AuthenticateTokenVerifyCommand R data w).2 =
      { w with tokens := (GetAndRemoveTokenSwapEntry data.Token w.tokens).2 } := by
  simp only [AuthenticateTokenVerifyCommand, hroot, ht, if_false, Bool.true_eq_false]
  repeat' split
  all_goals rfl

/-- On a root router, what the verify command answers when the store has no entry. -/
theorem AuthenticateTokenVerifyCommand_no_entry {σ : Type} (R : WshRouter σ)
    (data : CommandAuthenticateTokenData) (w : World σ)
    (hroot : R.IsRootRouter w.router = true) (ht : data.Token ≠ "")
    (hnone : entryFor data.Token w.tokens = none) :
    (AuthenticateTokenVerifyCommand R data w).1 = .error "no token entry found" := by
  simp [AuthenticateTokenVerifyCommand, hroot, ht, GetAndRemoveTokenSwapEntry_fst, hnone]

/-- C4: on a root router, `AuthenticateTokenVerifyCommand` succeeds if and only if the token is
non-empty, the store holds an entry for it, and the context of that entry is non-nil, not
router-typed and has a non-empty route id; on success the returned data is exactly the
entry's `Env`, its `ScriptText` (as `InitScriptText`) and its `RpcContext`. -/
theorem AuthenticateTokenVerifyCommand_root_iff {σ : Type} (R : WshRouter σ)
    (data : CommandAuthenticateTokenData) (w : World σ)
    (hroot : R.IsRootRouter w.router = true) :
    ((∃ rtn, (AuthenticateTokenVerifyCommand R data w).1 = .ok rtn) ↔
        (data.Token ≠ "" ∧ ∃ entry rc, entryFor data.Token w.tokens = some entry ∧
          entry.RpcContext = some rc ∧ rc.IsRouter = false ∧ rc.RouteId ≠ "")) ∧
      (∀ rtn, (AuthenticateTokenVerifyCommand R data w).1 = .ok rtn →
        ∃ entry, entryFor data.Token w.tokens = some entry ∧
          rtn = { Env := entry.Env, InitScriptText := entry.ScriptText,
                  RpcContext := entry.RpcContext }) := by
  by_cases ht : data.Token = ""
  · simp [AuthenticateTokenVerifyCommand, hroot, ht]
  · cases he : entryFor data.Token w.tokens with
    | none =>
      simp [AuthenticateTokenVerifyCommand, hroot, ht, GetAndRemoveTokenSwapEntry_fst, he]
    | some entry =>
      cases hc : entry.RpcContext with
      | none =>
        simp [AuthenticateTokenVerifyCommand, hroot, ht, GetAndRemoveTokenSwapEntry_fst, he, hc,
          validateRpcContextFromAuth]
      | some rc =>
        cases hr : rc.IsRouter <;> by_cases hid : rc.RouteId = "" <;>
          simp [AuthenticateTokenVerifyCommand, hroot, ht, GetAndRemoveTokenSwapEntry_fst, he, hc,
            validateRpcContextFromAuth, hr, hid]

/-- Witness for C4: a root table router whose store holds `leafEntry`. -/
theorem AuthenticateTokenVerifyCommand_root_iff_witness :
    tableRouter.IsRootRouter rootState = true ∧
      (AuthenticateTokenVerifyCommand tableRouter { Token := "tok" }
          { router := rootState, tokens := [leafEntry] }).1 =
        .ok { Env := leafEntry.Env, InitScriptText := leafEntry.ScriptText,
              RpcContext := leafEntry.RpcContext } := by
  refine ⟨rfl, ?_⟩
  have h := (AuthenticateTokenVerifyCommand_root_iff tableRouter { Token := "tok" }
    { router := rootState, tokens := [leafEntry] } rfl).1.2
    ⟨by decide, leafEntry, leafCtx, by simp [entryFor, leafEntry], rfl, rfl, by decide⟩
  obtain ⟨rtn, hrtn⟩ := h
  obtain ⟨entry, hentry, hdata⟩ := (AuthenticateTokenVerifyCommand_root_iff tableRouter
    { Token := "tok" } { router := rootState, tokens := [leafEntry] } rfl).2 rtn hrtn
  have : entry = leafEntry := by
    simp [entryFor, leafEntry] at hentry
    exact hentry.symm
  rw [hrtn, hdata, this]

/-- C5: on a router that is not the root router, `AuthenticateTokenVerifyCommand` fails for
every token and changes nothing: the token store (and the router) are as before. -/
theorem AuthenticateTokenVerifyCommand_not_root {σ : Type} (R : WshRouter σ)
    (data : CommandAuthenticateTokenData) (w : World σ)
    (hroot : R.IsRootRouter w.router = false) :
    AuthenticateTokenVerifyCommand R data w =
      (.error "authenticatetokenverify can only be called on root router", w) := by
  simp [AuthenticateTokenVerifyCommand, hroot]

/-- Witness for C5: a non-root table router whose store holds `leafEntry`. -/
theorem AuthenticateTokenVerifyCommand_not_root_witness :
    tableRouter.IsRootRouter subState = false ∧
      AuthenticateTokenVerifyCommand tableRouter { Token := "tok" }
          { router := subState, tokens := [leafEntry] } =
        (.error "authenticatetokenverify can only be called on root router",
          { router := subState, tokens := [leafEntry] }) :=
  ⟨rfl, AuthenticateTokenVerifyCommand_not_root tableRouter { Token := "tok" }
    { router := subState, tokens := [leafEntry] } rfl⟩

/-! ### `AuthenticateTokenCommand` -/

/-- The resolving branch never touches the router. -/
theorem authenticateTokenResolve_router {ρ σ : Type} (d : Deps ρ) (R : WshRouter σ)
    (ctx : Ctx ρ) (data : CommandAuthenticateTokenData) (w : World σ) :
    (authenticateTokenResolve d R ctx data w).2.router = w.router := by
  simp only [authenticateTokenResolve]
  repeat' split
  all_goals rfl

/-- On a non-root router the resolving branch never touches the token store. -/
theorem authenticateTokenResolve_forward_world {ρ σ : Type} (d : Deps ρ) (R : WshRouter σ)
    (ctx : Ctx ρ) (data : CommandAuthenticateTokenData) (w : World σ)
    (hroot : R.IsRootRouter w.router = false) :
    (authenticateTokenResolve d R ctx data w).2 = w := by
  simp only [authenticateTokenResolve, hroot, Bool.false_eq_true, if_false]
  repeat' split
  all_goals rfl

/-- On a root router the resolving branch is the verify command: same answer (paired with
the context of the answer) and same world afterwards. -/
theorem authenticateTokenResolve_root {ρ σ : Type} (d : Deps ρ) (R : WshRouter σ)
    (ctx : Ctx ρ) (data : CommandAuthenticateTokenData) (w : World σ)
    (hroot : R.IsRootRouter w.router = true) (ht : data.Token ≠ "") :
    authenticateTokenResolve d R ctx data w =
      (match (AuthenticateTokenVerifyCommand R data w).1 with
        | .error err => .error err
        | .ok rtn => .ok (rtn, rtn.RpcContext),
       (AuthenticateTokenVerifyCommand R data w).2) := by
  simp only [authenticateTokenResolve, AuthenticateTokenVerifyCommand, hroot, ht, if_true,
    if_false, Bool.true_eq_false]
  repeat' split
  all_goals first
    | (simp_all; done)
    | (rename_i heq; simp only [Except.ok.injEq] at heq; subst heq; rfl)

/-- A successful answer of the verify command carries a context that is not router-typed and
has a non-empty route id. -/
theorem AuthenticateTokenVerifyCommand_ok_context {σ : Type} (R : WshRouter σ)
    (data : CommandAuthenticateTokenData) (w : World σ) (rtn : CommandAuthenticateRtnData)
    (h : (AuthenticateTokenVerifyCommand R data w).1 = .ok rtn) :
    ∃ rc, rtn.RpcContext = some rc ∧ rc.IsRouter = false ∧ rc.RouteId ≠ "" := by
  cases hroot : R.IsRootRouter w.router with
  | false => simp [AuthenticateTokenVerifyCommand, hroot] at h
  | true =>
    have h4 := AuthenticateTokenVerifyCommand_root_iff R data w hroot
    obtain ⟨_, entry, rc, he, hc, hr, hid⟩ := h4.1.1 ⟨rtn, h⟩
    obtain ⟨entry2, he2, hrtn⟩ := h4.2 rtn h
    rw [he] at he2
    cases he2
    exact ⟨rc, by rw [hrtn]; exact hc, hr, hid⟩

/-- On a root router a successful resolve yields a validated leaf context. -/
theorem authenticateTokenResolve_root_ok {ρ σ : Type} (d : Deps ρ) (R : WshRouter σ)
    (ctx : Ctx ρ) (data : CommandAuthenticateTokenData) (w : World σ)
    (rtn : CommandAuthenticateRtnData) (rpcContext : Option RpcContext)
    (hroot : R.IsRootRouter w.router = true) (ht : data.Token ≠ "")
    (h : (authenticateTokenResolve d R ctx data w).1 = .ok (rtn, rpcContext)) :
    (AuthenticateTokenVerifyCommand R data w).1 = .ok rtn ∧
      ∃ rc, rpcContext = some rc ∧ rtn.RpcContext = some rc ∧ rc.IsRouter = false ∧
        rc.RouteId ≠ "" := by
  rw [authenticateTokenResolve_root d R ctx data w hroot ht] at h
  cases hv : (AuthenticateTokenVerifyCommand R data w).1 with
  | error err => simp [hv] at h
  | ok rtn2 =>
    simp only [hv, Except.ok.injEq, Prod.mk.injEq] at h
    obtain ⟨h1, h2⟩ := h
    subst h1
    obtain ⟨rc, hc, hr, hid⟩ := AuthenticateTokenVerifyCommand_ok_context R data w rtn2 hv
    exact ⟨rfl, rc, by rw [← h2, hc], hc, hr, hid⟩

/-- On a non-root router a successful resolve yields the unmarshalled response of the
control root route and the context found in it, as is. -/
theorem authenticateTokenResolve_forward_ok {ρ σ : Type} (d : Deps ρ) (R : WshRouter σ)
    (ctx : Ctx ρ) (data : CommandAuthenticateTokenData) (w : World σ)
    (rtn : CommandAuthenticateRtnData) (rpcContext : Option RpcContext)
    (hroot : R.IsRootRouter w.router = false)
    (h : (authenticateTokenResolve d R ctx data w).1 = .ok (rtn, rpcContext)) :
    rpcContext = rtn.RpcContext ∧
      ∃ wshRpc respData, ctx.wshRpc = some wshRpc ∧
        wshRpc.SendRpcRequest d.Command_AuthenticateTokenVerify data d.ControlRootRoute =
          .ok respData ∧
        d.ReUnmarshal respData = .ok rtn := by
  simp only [authenticateTokenResolve, hroot, Bool.false_eq_true, if_false] at h
  cases hw : ctx.wshRpc with
  | none => simp [hw] at h
  | some wshRpc =>
    cases hs : wshRpc.SendRpcRequest d.Command_AuthenticateTokenVerify data d.ControlRootRoute with
    | error err => simp [hw, hs] at h
    | ok respData =>
      cases hu : d.ReUnmarshal respData with
      | error err => simp [hw, hs, hu] at h
      | ok rtn2 =>
        simp only [hw, hs, hu, Except.ok.injEq, Prod.mk.injEq] at h
        obtain ⟨h1, h2⟩ := h
        subst h1
        exact ⟨h2.symm, wshRpc, respData, rfl, hs, hu⟩

/-- The context a successful resolve hands on is the one in the data it returns. -/
theorem authenticateTokenResolve_ok_context {ρ σ : Type} (d : Deps ρ) (R : WshRouter σ)
    (ctx : Ctx ρ) (data : CommandAuthenticateTokenData) (w : World σ)
    (rtn : CommandAuthenticateRtnData) (rpcContext : Option RpcContext)
    (ht : data.Token ≠ "")
    (h : (authenticateTokenResolve d R ctx data w).1 = .ok (rtn, rpcContext)) :
    rtn.RpcContext = rpcContext := by
  cases hroot : R.IsRootRouter w.router with
  | true =>
    obtain ⟨_, rc, h1, h2, _, _⟩ :=
      authenticateTokenResolve_root_ok d R ctx data w rtn rpcContext hroot ht h
    rw [h1, h2]
  | false =>
    exact (authenticateTokenResolve_forward_ok d R ctx data w rtn rpcContext hroot h).1.symm

/-- The two ways `AuthenticateTokenCommand` can end: with an error and the router untouched,
or with success after resolving a non-nil context `rc`, the router calls being
`trustLink(L, Leaf)` followed by `bindRoute(L, rc.RouteId, true)`. -/
theorem AuthenticateTokenCommand_cases {ρ σ : Type} (d : Deps ρ) (R : WshRouter σ)
    (ctx : Ctx ρ) (data : CommandAuthenticateTokenData) (w : World σ) :
    (∃ err, (AuthenticateTokenCommand d R ctx data w).1 = .error err ∧
        (AuthenticateTokenCommand d R ctx data w).2.router = w.router) ∨
      (∃ handler rtn rc, ctx.handler = some handler ∧
        handler.GetIngressLinkId ≠ d.NoLinkId ∧ data.Token ≠ "" ∧
        (authenticateTokenResolve d R ctx data w).1 = .ok (rtn, some rc) ∧
        (AuthenticateTokenCommand d R ctx data w).1 = .ok rtn ∧
        (AuthenticateTokenCommand d R ctx data w).2.router =
          (R.bindRoute handler.GetIngressLinkId rc.RouteId true
            (R.trustLink handler.GetIngressLinkId LinkKind.Leaf w.router)).2 ∧
        (AuthenticateTokenCommand d R ctx data w).2.tokens =
          (authenticateTokenResolve d R ctx data w).2.tokens) := by
  have hrouter := authenticateTokenResolve_router d R ctx data w
  cases hh : ctx.handler with
  | none =>
    left
    exact ⟨"no response handler in context", by simp [AuthenticateTokenCommand, hh]⟩
  | some handler =>
    by_cases hl : handler.GetIngressLinkId = d.NoLinkId
    · left
      exact ⟨"no ingress link found", by simp [AuthenticateTokenCommand, hh, hl]⟩
    · by_cases ht : data.Token = ""
      · left
        exact ⟨"no token in authenticatetoken message",
          by simp [AuthenticateTokenCommand, hh, hl, ht]⟩
      · rcases hres : authenticateTokenResolve d R ctx data w with ⟨res, w1⟩
        rw [hres] at hrouter
        simp only at hrouter
        cases res with
        | error err =>
          left
          exact ⟨err, by simp [AuthenticateTokenCommand, hh, hl, ht, hres, hrouter]⟩
        | ok pr =>
          obtain ⟨rtn, rpcContext⟩ := pr
          cases rpcContext with
          | none =>
            left
            exact ⟨"no rpccontext in token response",
              by simp [AuthenticateTokenCommand, hh, hl, ht, hres, hrouter]⟩
          | some rc =>
            right
            exact ⟨handler, rtn, rc, rfl, hl, ht, rfl,
              by simp [AuthenticateTokenCommand, hh, hl, ht, hres, hrouter]⟩

/-- On a root router, with a handler and an ingress link, `AuthenticateTokenCommand` answers
as the verify command does and leaves the same token store. -/
theorem AuthenticateTokenCommand_root {ρ σ : Type} (d : Deps ρ) (R : WshRouter σ)
    (ctx : Ctx ρ) (data : CommandAuthenticateTokenData) (w : World σ)
    (handler : RpcResponseHandler)
    (hroot : R.IsRootRouter w.router = true) (hh : ctx.handler = some handler)
    (hl : handler.GetIngressLinkId ≠ d.NoLinkId) :
    (AuthenticateTokenCommand d R ctx data w).1 = (AuthenticateTokenVerifyCommand R data w).1 ∧
      (AuthenticateTokenCommand d R ctx data w).2.tokens =
        (AuthenticateTokenVerifyCommand R data w).2.tokens := by
  by_cases ht : data.Token = ""
  · simp [AuthenticateTokenCommand, AuthenticateTokenVerifyCommand, hroot, hh, hl, ht]
  · have hres := authenticateTokenResolve_root d R ctx data w hroot ht
    cases hv : (AuthenticateTokenVerifyCommand R data w).1 with
    | error err =>
      rw [hv] at hres
      simp [AuthenticateTokenCommand, hh, hl, ht, hres]
    | ok rtn =>
      obtain ⟨rc, hc, _, _⟩ := AuthenticateTokenVerifyCommand_ok_context R data w rtn hv
      rw [hv] at hres
      simp [AuthenticateTokenCommand, hh, hl, ht, hres, hc]

/-- C8: on a root router, when a response handler and an ingress link are present,
`AuthenticateTokenCommand` returns the same data and the same error, and leaves the same
token store, as `AuthenticateTokenVerifyCommand` on the same store and token. -/
theorem AuthenticateTokenCommand_refines_verify {ρ σ : Type} (d : Deps ρ) (R : WshRouter σ)
    (ctx : Ctx ρ) (data : CommandAuthenticateTokenData) (w : World σ)
    (handler : RpcResponseHandler)
    (hroot : R.IsRootRouter w.router = true) (hh : ctx.handler = some handler)
    (hl : handler.GetIngressLinkId ≠ d.NoLinkId) :
    (AuthenticateTokenCommand d R ctx data w).1 = (AuthenticateTokenVerifyCommand R data w).1 ∧
      (AuthenticateTokenCommand d R ctx data w).2.tokens =
        (AuthenticateTokenVerifyCommand R data w).2.tokens :=
  AuthenticateTokenCommand_root d R ctx data w handler hroot hh hl

/-- Witness for C8: token "tok" on link 7 of a root table router holding `leafEntry`; both
commands return the entry's data and empty the store. -/
theorem AuthenticateTokenCommand_refines_verify_witness :
    ((AuthenticateTokenCommand sampleDeps tableRouter ctxLink7 { Token := "tok" }
          { router := rootState, tokens := [leafEntry] }).1 =
        (AuthenticateTokenVerifyCommand tableRouter { Token := "tok" }
          { router := rootState, tokens := [leafEntry] }).1 ∧
      (AuthenticateTokenCommand sampleDeps tableRouter ctxLink7 { Token := "tok" }
          { router := rootState, tokens := [leafEntry] }).2.tokens =
        (AuthenticateTokenVerifyCommand tableRouter { Token := "tok" }
          { router := rootState, tokens := [leafEntry] }).2.tokens) ∧
      (AuthenticateTokenVerifyCommand tableRouter { Token := "tok" }
          { router := rootState, tokens := [leafEntry] }).1 =
        .ok { Env := leafEntry.Env, InitScriptText := leafEntry.ScriptText,
              RpcContext := leafEntry.RpcContext } ∧
      (AuthenticateTokenVerifyCommand tableRouter { Token := "tok" }
          { router := rootState, tokens := [leafEntry] }).2.tokens = [] :=
  ⟨AuthenticateTokenCommand_refines_verify sampleDeps tableRouter ctxLink7 { Token := "tok" }
      { router := rootState, tokens := [leafEntry] } { GetIngressLinkId := 7 } rfl rfl
      (by decide),
    rfl, rfl⟩

/-- C7: every execution of `AuthenticateTokenCommand` that returns success made exactly the
router calls `trustLink(L, Leaf)` and then `bindRoute(L, rc.RouteId, true)`, where `L` is the
ingress link and `rc` the context in the returned data: the ingress link is promoted to
Leaf exactly once and `trustLink` is never called with the Router tier, whether the router
is the root or not. -/
theorem AuthenticateTokenCommand_success_leaf {ρ σ : Type} (d : Deps ρ) (R : WshRouter σ)
    (ctx : Ctx ρ) (data : CommandAuthenticateTokenData) (s : σ) (tokens : TokenStore)
    (rtn : CommandAuthenticateRtnData)
    (h : (AuthenticateTokenCommand d (recording R) ctx data
            { router := (s, []), tokens := tokens }).1 = .ok rtn) :
    ∃ (handler : RpcResponseHandler) (rc : RpcContext), ctx.handler = some handler ∧
      rtn.RpcContext = some rc ∧
      (AuthenticateTokenCommand d (recording R) ctx data
          { router := (s, []), tokens := tokens }).2.router =
        ((R.bindRoute handler.GetIngressLinkId rc.RouteId true
            (R.trustLink handler.GetIngressLinkId LinkKind.Leaf s)).2,
          [RouterCall.trustLink handler.GetIngressLinkId LinkKind.Leaf,
            RouterCall.bindRoute handler.GetIngressLinkId rc.RouteId true]) ∧
      List.count (RouterCall.trustLink handler.GetIngressLinkId LinkKind.Leaf)
          (AuthenticateTokenCommand d (recording R) ctx data
            { router := (s, []), tokens := tokens }).2.router.2 = 1 ∧
      ∀ linkId kind, RouterCall.trustLink linkId kind ∈
          (AuthenticateTokenCommand d (recording R) ctx data
            { router := (s, []), tokens := tokens }).2.router.2 →
        linkId = handler.GetIngressLinkId ∧ kind = LinkKind.Leaf := by
  rcases AuthenticateTokenCommand_cases d (recording R) ctx data
      { router := (s, []), tokens := tokens } with
    ⟨err, herr, _⟩ | ⟨handler, rtn2, rc, hh, _, ht, hres, hok, hrouter, _⟩
  · rw [herr] at h
    cases h
  · rw [hok] at h
    cases h
    refine ⟨handler, rc, hh, ?_, ?_, ?_, ?_⟩
    · exact authenticateTokenResolve_ok_context d (recording R) ctx data _ rtn (some rc) ht hres
    · rw [hrouter]
      simp [recording]
    · rw [hrouter]
      simp [recording]
    · intro linkId kind hmem
      rw [hrouter] at hmem
      simp [recording] at hmem
      exact hmem

/-- Witness for C7: a sub-router forwards token "tok"; the root answers with `leafCtx`. -/
theorem AuthenticateTokenCommand_success_leaf_witness :
    ∃ (handler : RpcResponseHandler) (rc : RpcContext),
      (ctxForward leafCtx).handler = some handler ∧
      some leafCtx = some rc ∧
      (AuthenticateTokenCommand sampleDeps (recording tableRouter) (ctxForward leafCtx)
          { Token := "tok" } { router := (subState, []), tokens := [] }).2.router =
        ((tableRouter.bindRoute handler.GetIngressLinkId rc.RouteId true
            (tableRouter.trustLink handler.GetIngressLinkId LinkKind.Leaf subState)).2,
          [RouterCall.trustLink handler.GetIngressLinkId LinkKind.Leaf,
            RouterCall.bindRoute handler.GetIngressLinkId rc.RouteId true]) ∧
      List.count (RouterCall.trustLink handler.GetIngressLinkId LinkKind.Leaf)
          (AuthenticateTokenCommand sampleDeps (recording tableRouter) (ctxForward leafCtx)
            { Token := "tok" } { router := (subState, []), tokens := [] }).2.router.2 = 1 ∧
      ∀ linkId kind, RouterCall.trustLink linkId kind ∈
          (AuthenticateTokenCommand sampleDeps (recording tableRouter) (ctxForward leafCtx)
            { Token := "tok" } { router := (subState, []), tokens := [] }).2.router.2 →
        linkId = handler.GetIngressLinkId ∧ kind = LinkKind.Leaf :=
  AuthenticateTokenCommand_success_leaf sampleDeps tableRouter (ctxForward leafCtx)
    { Token := "tok" } subState []
    { Env := [], InitScriptText := "", RpcContext := some leafCtx } rfl

/-- C10: whenever `AuthenticateTokenCommand` returns an error it has called neither
`trustLink` nor `bindRoute` (the router state and the log of router calls are as before);
and with no response handler, no ingress link or an empty token it fails with the whole
world, token store included, unchanged. -/
theorem AuthenticateTokenCommand_error_frame {ρ σ : Type} (d : Deps ρ) (R : WshRouter σ)
    (ctx : Ctx ρ) (data : CommandAuthenticateTokenData) (w : World (σ × List RouterCall)) :
    (∀ err, (AuthenticateTokenCommand d (recording R) ctx data w).1 = .error err →
        (AuthenticateTokenCommand d (recording R) ctx data w).2.router = w.router) ∧
      ((ctx.handler = none ∨
          (∃ handler, ctx.handler = some handler ∧ handler.GetIngressLinkId = d.NoLinkId) ∨
          data.Token = "") →
        ∃ err, AuthenticateTokenCommand d (recording R) ctx data w = (.error err, w)) := by
  constructor
  · intro err herr
    rcases AuthenticateTokenCommand_cases d (recording R) ctx data w with
      ⟨_, _, hrouter⟩ | ⟨_, _, _, _, _, _, _, hok, _, _⟩
    · exact hrouter
    · rw [hok] at herr
      cases herr
  · intro hpre
    cases hh : ctx.handler with
    | none => exact ⟨"no response handler in context", by simp [AuthenticateTokenCommand, hh]⟩
    | some handler =>
      by_cases hl : handler.GetIngressLinkId = d.NoLinkId
      · exact ⟨"no ingress link found", by simp [AuthenticateTokenCommand, hh, hl]⟩
      · have ht : data.Token = "" := by
          rcases hpre with h | ⟨handler2, h1, h2⟩ | h
          · rw [hh] at h
            cases h
          · rw [hh] at h1
            cases h1
            exact absurd h2 hl
          · exact h
        exact ⟨"no token in authenticatetoken message",
          by simp [AuthenticateTokenCommand, hh, hl, ht]⟩

/-- C9: whenever `AuthenticateCommand` returns an error, the cause is a missing response
handler, a missing ingress link, a JWT validation failure or a context rejected by
`validateRpcContextFromAuth`, and the command has called neither `trustLink` nor
`bindRoute`: the router state, the log of router calls and the token store are as before. -/
theorem AuthenticateCommand_error_frame {ρ σ : Type} (d : Deps ρ) (R : WshRouter σ)
    (ctx : Ctx ρ) (data : String) (w : World (σ × List RouterCall)) (err : String)
    (h : (AuthenticateCommand d (recording R) ctx data w).1 = .error err) :
    (AuthenticateCommand d (recording R) ctx data w).2 = w ∧
      (ctx.handler = none ∨
        (∃ handler, ctx.handler = some handler ∧ handler.GetIngressLinkId = d.NoLinkId) ∨
        (∃ e, d.ValidateAndExtractRpcContextFromToken data = .error e) ∨
        (∃ c e, d.ValidateAndExtractRpcContextFromToken data = .ok c ∧
          validateRpcContextFromAuth c = .error e)) := by
  cases hh : ctx.handler with
  | none => simp [AuthenticateCommand, hh]
  | some handler =>
    by_cases hl : handler.GetIngressLinkId = d.NoLinkId
    · simp [AuthenticateCommand, hh, hl]
    · cases hj : d.ValidateAndExtractRpcContextFromToken data with
      | error e => simp [AuthenticateCommand, hh, hl, hj]
      | ok newCtx =>
        cases hv : validateRpcContextFromAuth newCtx with
        | error e => simp [AuthenticateCommand, hh, hl, hj, hv]
        | ok routeId =>
          obtain ⟨c, hc⟩ := validateRpcContextFromAuth_ok_some hv
          subst hc
          exfalso
          by_cases hr : c.IsRouter = true <;>
            simp [AuthenticateCommand, hh, hl, hj, hv, hr] at h

/-- Witness for C9: a JWT that does not validate, on link 7 of a root table router on which
link 3 is already trusted and owns a route. -/
theorem AuthenticateCommand_error_frame_witness :
    (AuthenticateCommand sampleDeps (recording tableRouter) ctxLink7 "forged"
        { router := ({ isRoot := true, trust := [(3, LinkKind.Leaf)], routes := [("proc:3", 3)] },
            [RouterCall.trustLink 3 LinkKind.Leaf]),
          tokens := [leafEntry] }).1 = .error "error validating token: invalid token" ∧
      (AuthenticateCommand sampleDeps (recording tableRouter) ctxLink7 "forged"
        { router := ({ isRoot := true, trust := [(3, LinkKind.Leaf)], routes := [("proc:3", 3)] },
            [RouterCall.trustLink 3 LinkKind.Leaf]),
          tokens := [leafEntry] }).2 =
        { router := ({ isRoot := true, trust := [(3, LinkKind.Leaf)], routes := [("proc:3", 3)] },
            [RouterCall.trustLink 3 LinkKind.Leaf]),
          tokens := [leafEntry] } :=
  ⟨rfl, (AuthenticateCommand_error_frame sampleDeps tableRouter ctxLink7 "forged"
    { router := ({ isRoot := true, trust := [(3, LinkKind.Leaf)], routes := [("proc:3", 3)] },
        [RouterCall.trustLink 3 LinkKind.Leaf]),
      tokens := [leafEntry] } "error validating token: invalid token" rfl).1⟩

/-- The sub-router does not validate the context itself: if its upstream answered with the
router-typed context `routerCtx`, which `AuthenticateTokenVerifyCommand` never returns
(`AuthenticateTokenVerifyCommand_ok_context`), the command would bind its empty route id. -/
theorem AuthenticateTokenCommand_forward_binds_unvalidated :
    (AuthenticateTokenCommand sampleDeps (recording tableRouter) (ctxForward routerCtx)
        { Token := "tok" } { router := (subState, []), tokens := [] }).1 =
      .ok { Env := [], InitScriptText := "", RpcContext := some routerCtx } ∧
    (AuthenticateTokenCommand sampleDeps (recording tableRouter) (ctxForward routerCtx)
        { Token := "tok" } { router := (subState, []), tokens := [] }).2.router.2 =
      [RouterCall.trustLink 7 LinkKind.Leaf, RouterCall.bindRoute 7 "" true] ∧
    routerCtx.IsRouter = true ∧ routerCtx.RouteId = "" :=
  ⟨rfl, rfl, rfl, rfl⟩

/-- C6: in every execution of `AuthenticateTokenCommand` that calls `bindRoute`, on a root
router and on a sub-router alike, where on the forwarded path the response of the control
root route is one that it may return, that is, a success answer of
`AuthenticateTokenVerifyCommand` for the same request: the call is
`bindRoute(L, rc.RouteId, true)` on the ingress link `L`, the command succeeds, `rc` is the
context in the returned data, and `rc` satisfies the validation invariant: `IsRouter` is
false and the bound `RouteId` is non-empty. -/
theorem AuthenticateTokenCommand_bound_context {ρ σ : Type} (d : Deps ρ) (R : WshRouter σ)
    (ctx : Ctx ρ) (data : CommandAuthenticateTokenData) (s : σ) (tokens : TokenStore)
    (linkId : LinkId) (routeId : String) (replace : Bool)
    (hcall : RouterCall.bindRoute linkId routeId replace ∈
      (AuthenticateTokenCommand d (recording R) ctx data
        { router := (s, []), tokens := tokens }).2.router.2)
    (hresp : R.IsRootRouter s = false → ∀ wshRpc respData rtn, ctx.wshRpc = some wshRpc →
      wshRpc.SendRpcRequest d.Command_AuthenticateTokenVerify data d.ControlRootRoute =
        .ok respData →
      d.ReUnmarshal respData = .ok rtn →
      ∃ (τ : Type) (R0 : WshRouter τ) (w0 : World τ),
        (AuthenticateTokenVerifyCommand R0 data w0).1 = .ok rtn) :
    ∃ (handler : RpcResponseHandler) (rtn : CommandAuthenticateRtnData) (rc : RpcContext),
      ctx.handler = some handler ∧ linkId = handler.GetIngressLinkId ∧ replace = true ∧
      (AuthenticateTokenCommand d (recording R) ctx data
        { router := (s, []), tokens := tokens }).1 = .ok rtn ∧
      rtn.RpcContext = some rc ∧ routeId = rc.RouteId ∧
      rc.IsRouter = false ∧ rc.RouteId ≠ "" ∧ routeId ≠ "" := by
  rcases AuthenticateTokenCommand_cases d (recording R) ctx data
      { router := (s, []), tokens := tokens } with
    ⟨err, _, hrouter⟩ | ⟨handler, rtn, rc, hh, _, ht, hres, hok, hrouter, _⟩
  · rw [hrouter] at hcall
    simp at hcall
  · rw [hrouter] at hcall
    simp [recording] at hcall
    obtain ⟨h1, h2, h3⟩ := hcall
    have hctx := authenticateTokenResolve_ok_context d (recording R) ctx data _ rtn (some rc)
      ht hres
    have hinv : rc.IsRouter = false ∧ rc.RouteId ≠ "" := by
      cases hroot : R.IsRootRouter s with
      | true =>
        obtain ⟨_, rc2, hrc, _, hr, hid⟩ := authenticateTokenResolve_root_ok d (recording R)
          ctx data { router := (s, []), tokens := tokens } rtn (some rc) hroot ht hres
        cases hrc
        exact ⟨hr, hid⟩
      | false =>
        obtain ⟨wshRpc, respData, hw, hs, hu⟩ :=
          (authenticateTokenResolve_forward_ok d (recording R) ctx data
            { router := (s, []), tokens := tokens } rtn (some rc) hroot hres).2
        obtain ⟨τ, R0, w0, hv⟩ := hresp hroot wshRpc respData rtn hw hs hu
        obtain ⟨rc2, hrc, hr, hid⟩ :=
          AuthenticateTokenVerifyCommand_ok_context R0 data w0 rtn hv
        rw [hctx] at hrc
        cases hrc
        exact ⟨hr, hid⟩
    exact ⟨handler, rtn, rc, hh, h1, h3, hok, hctx, h2, hinv.1, hinv.2, by rw [h2]; exact hinv.2⟩

/-- Witness for C6: a sub-router forwards token "tok" from link 7 to a root table router that
holds `leafEntry`; the verify command there answers with `leafCtx` and the route bound is
"proc:1". -/
theorem AuthenticateTokenCommand_bound_context_witness :
    (AuthenticateTokenCommand sampleDeps (recording tableRouter) ctxForwardRoot
        { Token := "tok" } { router := (subState, []), tokens := [] }).2.router.2 =
      [RouterCall.trustLink 7 LinkKind.Leaf, RouterCall.bindRoute 7 "proc:1" true] ∧
    ∃ (handler : RpcResponseHandler) (rtn : CommandAuthenticateRtnData) (rc : RpcContext),
      ctxForwardRoot.handler = some handler ∧ (7 : LinkId) = handler.GetIngressLinkId ∧
      true = true ∧
      (AuthenticateTokenCommand sampleDeps (recording tableRouter) ctxForwardRoot
        { Token := "tok" } { router := (subState, []), tokens := [] }).1 = .ok rtn ∧
      rtn.RpcContext = some rc ∧ "proc:1" = rc.RouteId ∧
      rc.IsRouter = false ∧ rc.RouteId ≠ "" ∧ "proc:1" ≠ "" :=
  ⟨rfl,
    AuthenticateTokenCommand_bound_context sampleDeps tableRouter ctxForwardRoot
      { Token := "tok" } subState [] 7 "proc:1" true
      (by
        have hlog : (AuthenticateTokenCommand sampleDeps (recording tableRouter)
            ctxForwardRoot { Token := "tok" }
            { router := (subState, []), tokens := [] }).2.router.2 =
            [RouterCall.trustLink 7 LinkKind.Leaf, RouterCall.bindRoute 7 "proc:1" true] := rfl
        rw [hlog]
        simp)
      (by
        intro _ wshRpc respData rtn hw hs hu
        have hw2 : upstreamRoot { router := rootState, tokens := [leafEntry] } = wshRpc :=
          Option.some.inj hw
        subst hw2
        have hu2 : respData = rtn := Except.ok.inj hu
        subst hu2
        exact ⟨RouterState, tableRouter, { router := rootState, tokens := [leafEntry] }, hs⟩)⟩

/-- Counterexample for C3: on a root router whose store holds an entry for "tok", the verify
command finds and consumes it; a later `AuthenticateTokenCommand` with the same token, on a
request that has no response handler, fails with "no response handler in context", which is
not the error "no token entry found". -/
theorem AuthenticateTokenCommand_reuse_other_error :
    (AuthenticateTokenVerifyCommand tableRouter { Token := "tok" }
        { router := rootState, tokens := [leafEntry] }).1 =
      .ok { Env := leafEntry.Env, InitScriptText := leafEntry.ScriptText,
            RpcContext := leafEntry.RpcContext } ∧
    (AuthenticateTokenCommand sampleDeps tableRouter ctxNoHandler { Token := "tok" }
        (AuthenticateTokenVerifyCommand tableRouter { Token := "tok" }
          { router := rootState, tokens := [leafEntry] }).2).1 =
      .error "no response handler in context" ∧
    (Except.error "no response handler in context" : Except String CommandAuthenticateRtnData) ≠
      .error "no token entry found" :=
  ⟨rfl, rfl, by simp⟩

/-- C3 (amended): on a root router, once either command has looked up a non-empty token `t`
in a store holding an entry for it (whatever the outcome of that call), then in every later
store that holds no entry for `t` other than those left by that call,
`AuthenticateTokenVerifyCommand` with `t` fails with "no token entry found", and
`AuthenticateTokenCommand` with `t` never succeeds: it fails with "no token entry found"
when the request has a response handler and an ingress link, and otherwise with the missing
handler or missing ingress link error, raised before the lookup. -/
theorem token_single_use {ρ σ : Type} (d : Deps ρ) (R : WshRouter σ)
    (data : CommandAuthenticateTokenData) (w after later : World σ) (ctx1 : Ctx ρ)
    (entry : TokenSwapEntry)
    (hroot : R.IsRootRouter w.router = true) (ht : data.Token ≠ "")
    (_hfound : entryFor data.Token w.tokens = some entry)
    (hfirst : after = (AuthenticateTokenVerifyCommand R data w).2 ∨
      (∃ handler, ctx1.handler = some handler ∧ handler.GetIngressLinkId ≠ d.NoLinkId ∧
        after = (AuthenticateTokenCommand d R ctx1 data w).2))
    (hlater : R.IsRootRouter later.router = true)
    (hnonew : ∀ e ∈ later.tokens, e.Token = data.Token → e ∈ after.tokens) :
    (AuthenticateTokenVerifyCommand R data later).1 = .error "no token entry found" ∧
      ∀ ctx2 : Ctx ρ,
        (∀ rtn, (AuthenticateTokenCommand d R ctx2 data later).1 ≠ .ok rtn) ∧
        ((∃ handler, ctx2.handler = some handler ∧ handler.GetIngressLinkId ≠ d.NoLinkId) →
          (AuthenticateTokenCommand d R ctx2 data later).1 = .error "no token entry found") ∧
        (ctx2.handler = none →
          (AuthenticateTokenCommand d R ctx2 data later).1 =
            .error "no response handler in context") ∧
        ((∃ handler, ctx2.handler = some handler ∧ handler.GetIngressLinkId = d.NoLinkId) →
          (AuthenticateTokenCommand d R ctx2 data later).1 = .error "no ingress link found") := by
  have hafter : after.tokens = (GetAndRemoveTokenSwapEntry data.Token w.tokens).2 := by
    rcases hfirst with h | ⟨handler, hh, hl, h⟩
    · rw [h, AuthenticateTokenVerifyCommand_world R data w hroot ht]
    · rw [h, (AuthenticateTokenCommand_root d R ctx1 data w handler hroot hh hl).2,
        AuthenticateTokenVerifyCommand_world R data w hroot ht]
  have hgone : entryFor data.Token later.tokens = none := by
    apply entryFor_eq_none_of_forall
    intro e he htok
    have hmem := hnonew e he htok
    rw [hafter] at hmem
    exact GetAndRemoveTokenSwapEntry_removes data.Token w.tokens e hmem htok
  have hverify := AuthenticateTokenVerifyCommand_no_entry R data later hlater ht hgone
  refine ⟨hverify, ?_⟩
  intro ctx2
  cases hh : ctx2.handler with
  | none => simp [AuthenticateTokenCommand, hh]
  | some handler =>
    by_cases hl : handler.GetIngressLinkId = d.NoLinkId
    · simp [AuthenticateTokenCommand, hh, hl]
    · have hsame := (AuthenticateTokenCommand_root d R ctx2 data later handler hlater hh hl).1
      rw [hverify] at hsame
      simp [hsame, hl]

/-- Witness for C3 (amended): the verify command consumes "tok"; later the store holds only
an entry for "tok2"; presenting "tok" again on link 7 fails with "no token entry found". -/
theorem token_single_use_witness :
    (AuthenticateTokenVerifyCommand tableRouter { Token := "tok" }
        { router := rootState, tokens := [otherEntry] }).1 = .error "no token entry found" ∧
      (AuthenticateTokenCommand sampleDeps tableRouter ctxLink7 { Token := "tok" }
        { router := rootState, tokens := [otherEntry] }).1 = .error "no token entry found" :=
  have h := token_single_use sampleDeps tableRouter { Token := "tok" }
    { router := rootState, tokens := [leafEntry] }
    (AuthenticateTokenVerifyCommand tableRouter { Token := "tok" }
      { router := rootState, tokens := [leafEntry] }).2
    { router := rootState, tokens := [otherEntry] } ctxLink7 leafEntry
    rfl (by decide) rfl (Or.inl rfl) rfl
    (by
      intro e he htok
      simp only [List.mem_singleton] at he
      subst he
      exact absurd htok (by decide))
  ⟨h.1, (h.2 ctxLink7).2.1 ⟨{ GetIngressLinkId := 7 }, rfl, by decide⟩⟩

/-! ### `RouteAnnounceCommand`, `RouteUnannounceCommand`, `SetPeerInfoCommand`,
`WaitForRouteCommand` -/

/-- C11: for a request with non-empty source route `s` arriving on ingress link `L` (not
`NoLinkId`), `RouteAnnounceCommand` makes exactly the router call `bindRoute(L, s, false)`
and returns its result, and `RouteUnannounceCommand` makes exactly the router call
`unbindRoute(L, s)` and returns its result; with an empty source, no response handler or no
ingress link both commands fail and leave the router and the log of router calls as they
were. -/
theorem RouteAnnounce_Unannounce_spec {ρ σ : Type} (d : Deps ρ) (R : WshRouter σ)
    (ctx : Ctx ρ) (w : World (σ × List RouterCall)) :
    (∀ handler, ctx.source ≠ "" → ctx.handler = some handler →
        handler.GetIngressLinkId ≠ d.NoLinkId →
        RouteAnnounceCommand d (recording R) ctx w =
            ((R.bindRoute handler.GetIngressLinkId ctx.source false w.router.1).1,
              { router := ((R.bindRoute handler.GetIngressLinkId ctx.source false w.router.1).2,
                  w.router.2 ++ [RouterCall.bindRoute handler.GetIngressLinkId ctx.source false]),
                tokens := w.tokens }) ∧
          RouteUnannounceCommand d (recording R) ctx w =
            ((R.unbindRoute handler.GetIngressLinkId ctx.source w.router.1).1,
              { router := ((R.unbindRoute handler.GetIngressLinkId ctx.source w.router.1).2,
                  w.router.2 ++ [RouterCall.unbindRoute handler.GetIngressLinkId ctx.source]),
                tokens := w.tokens })) ∧
      ((ctx.source = "" ∨ ctx.handler = none ∨
          (∃ handler, ctx.handler = some handler ∧ handler.GetIngressLinkId = d.NoLinkId)) →
        (∃ err, RouteAnnounceCommand d (recording R) ctx w = (some err, w)) ∧
          (∃ err, RouteUnannounceCommand d (recording R) ctx w = (some err, w))) := by
  constructor
  · intro handler hs hh hl
    simp [RouteAnnounceCommand, RouteUnannounceCommand, hs, hh, hl, recording]
  · intro hpre
    by_cases hs : ctx.source = ""
    · exact ⟨⟨"no source in routeannounce", by simp [RouteAnnounceCommand, hs]⟩,
        ⟨"no source in routeunannounce", by simp [RouteUnannounceCommand, hs]⟩⟩
    · cases hh : ctx.handler with
      | none =>
        exact ⟨⟨"no response handler in context", by simp [RouteAnnounceCommand, hs, hh]⟩,
          ⟨"no response handler in context", by simp [RouteUnannounceCommand, hs, hh]⟩⟩
      | some handler =>
        have hl : handler.GetIngressLinkId = d.NoLinkId := by
          rcases hpre with h | h | ⟨handler2, h1, h2⟩
          · exact absurd h hs
          · rw [hh] at h
            cases h
          · rw [hh] at h1
            cases h1
            exact h2
        exact ⟨⟨"no ingress link found", by simp [RouteAnnounceCommand, hs, hh, hl]⟩,
          ⟨"no ingress link found", by simp [RouteUnannounceCommand, hs, hh, hl]⟩⟩

/-- On the table router, announcing "proc:1" from link 7 while link 3 owns it fails with the
collision error of `bindRoute`, and the route table is unchanged. -/
theorem RouteAnnounceCommand_collision :
    (RouteAnnounceCommand sampleDeps tableRouter ctxProc1
        { router := { isRoot := true, trust := [], routes := [("proc:1", 3)] },
          tokens := [] }).1 = some "route already bound to another link" ∧
      (RouteAnnounceCommand sampleDeps tableRouter ctxProc1
        { router := { isRoot := true, trust := [], routes := [("proc:1", 3)] },
          tokens := [] }).2.router.routes = [("proc:1", 3)] :=
  ⟨rfl, rfl⟩

/-- C12: `SetPeerInfoCommand` never changes the router (so it calls none of `trustLink`,
`bindRoute`, `unbindRoute`, whatever the router state records); it fails, changing nothing,
when the source route is bound to no link, when the link has no metadata, or when the
client of the link is not a proxy; and when it succeeds the only change is that the peer
info of that proxy is the given string. -/
theorem SetPeerInfoCommand_frame {ρ σ : Type} (d : Deps ρ) (L : RouterLookup σ) (ctx : Ctx ρ)
    (peerInfo : String) (w : PeerWorld σ) :
    (SetPeerInfoCommand d L ctx peerInfo w).2.router = w.router ∧
      (L.GetLinkIdForRoute ctx.source w.router = d.NoLinkId →
        ∃ err, SetPeerInfoCommand d L ctx peerInfo w = (some err, w)) ∧
      (L.getLinkMeta (L.GetLinkIdForRoute ctx.source w.router) w.router = none →
        ∃ err, SetPeerInfoCommand d L ctx peerInfo w = (some err, w)) ∧
      (L.getLinkMeta (L.GetLinkIdForRoute ctx.source w.router) w.router =
          some { client := LinkClient.other } →
        ∃ err, SetPeerInfoCommand d L ctx peerInfo w = (some err, w)) ∧
      ((SetPeerInfoCommand d L ctx peerInfo w).1 = none →
        ∃ ref, L.getLinkMeta (L.GetLinkIdForRoute ctx.source w.router) w.router =
            some { client := LinkClient.proxy ref } ∧
          (SetPeerInfoCommand d L ctx peerInfo w).2.peerInfo ref = peerInfo ∧
          ∀ other, other ≠ ref →
            (SetPeerInfoCommand d L ctx peerInfo w).2.peerInfo other = w.peerInfo other) := by
  by_cases hl : L.GetLinkIdForRoute ctx.source w.router = d.NoLinkId
  · simp [SetPeerInfoCommand, hl]
  · cases hm : L.getLinkMeta (L.GetLinkIdForRoute ctx.source w.router) w.router with
    | none => simp [SetPeerInfoCommand, hl, hm]
    | some lm =>
      obtain ⟨client⟩ := lm
      cases client with
      | other => simp [SetPeerInfoCommand, hl, hm]
      | proxy ref =>
        simp [SetPeerInfoCommand, hl, hm, SetPeerInfo]
        intro other hne heq
        exact absurd heq hne

/-- On the table router, with link 7 owning "proc:1" and served by proxy 1, the command sets
the peer info of proxy 1 and of no other proxy; with a client that is not a proxy it
fails. -/
theorem SetPeerInfoCommand_example :
    (SetPeerInfoCommand sampleDeps (tableLookup [(7, { client := LinkClient.proxy 1 })])
        ctxProc1 "ssh:host" { router := boundState, peerInfo := fun _ => "" }).1 = none ∧
      (SetPeerInfoCommand sampleDeps (tableLookup [(7, { client := LinkClient.proxy 1 })])
        ctxProc1 "ssh:host" { router := boundState, peerInfo := fun _ => "" }).2.peerInfo 1 =
          "ssh:host" ∧
      (SetPeerInfoCommand sampleDeps (tableLookup [(7, { client := LinkClient.proxy 1 })])
        ctxProc1 "ssh:host" { router := boundState, peerInfo := fun _ => "" }).2.peerInfo 2 =
          "" ∧
      (SetPeerInfoCommand sampleDeps (tableLookup [(7, { client := LinkClient.other })])
        ctxProc1 "ssh:host" { router := boundState, peerInfo := fun _ => "" }).1 =
          some "setpeerinfo only valid for proxy connections" := by
  decide

/-- A value in the range of `int64` is not changed by wrapping. -/
theorem wrapInt64_id (y : Int) (h1 : -2 ^ 63 ≤ y) (h2 : y < 2 ^ 63) : wrapInt64 y = y := by
  unfold wrapInt64
  omega

/-- A wait for an unregistered route that ends by its 200 ms deadline yields `false`. -/
theorem WaitForRouteCommand_deadline :
    WaitForRouteCommand sampleWaitForRegister { RouteId := "leafA", WaitMs := 200 } =
      (false, none) ∧
    WaitForRouteCommand sampleWaitForRegister { RouteId := "proc:1", WaitMs := 200 } =
      (true, none) :=
  ⟨rfl, rfl⟩

/-! ### `WrappedWriter.Write` -/

/-- The counting loop adds the number of newline bytes to its counter. -/
theorem countNewlinesLoop_eq (p : List Byte) (count : Nat) :
    countNewlinesLoop p count = count + p.count 10 := by
  induction p generalizing count with
  | nil => simp [countNewlinesLoop]
  | cons b rest ih =>
    by_cases hb : b = 10
    · subst hb
      simp [countNewlinesLoop, ih]
      omega
    · have hb2 : ¬ (10 = b) := fun h => hb h.symm
      simp [countNewlinesLoop, ih, hb, List.count_cons, hb2]

/-- Length of the expanded output. -/
theorem crlfExpand_length (p : List Byte) :
    (crlfExpand p).length = p.length + p.count 10 := by
  induction p with
  | nil => simp [crlfExpand]
  | cons b rest ih =>
    by_cases hb : b = 10
    · subst hb
      simp [crlfExpand, ih]
      omega
    · have hb2 : ¬ (10 = b) := fun h => hb h.symm
      simp [crlfExpand, ih, hb, List.count_cons, hb2]
      omega

/-- Without a newline the expansion is the identity. -/
theorem crlfExpand_of_count_zero (p : List Byte) (h : p.count 10 = 0) : crlfExpand p = p := by
  induction p with
  | nil => rfl
  | cons b rest ih =>
    by_cases hb : b = 10
    · subst hb
      simp at h
    · have hb2 : ¬ (10 = b) := fun h => hb h.symm
      simp [List.count_cons, hb2] at h
      simp [crlfExpand, hb, ih h]

/-- Writing at the end of a prefix replaces the first element of what follows. -/
theorem set_append_length (pre : List Byte) (x v : Byte) (rest : List Byte) :
    (pre ++ x :: rest).set pre.length v = pre ++ v :: rest := by
  induction pre with
  | nil => rfl
  | cons a pre ih => simp [List.set, ih]

/-- The filling loop overwrites the buffer, from the write index on, with the expansion. -/
theorem fillLoop_eq (p : List Byte) :
    ∀ (pre rest : List Byte), (crlfExpand p).length ≤ rest.length →
      fillLoop p (pre ++ rest) pre.length =
        pre ++ crlfExpand p ++ rest.drop (crlfExpand p).length := by
  induction p with
  | nil =>
    intro pre rest _
    simp [fillLoop, crlfExpand]
  | cons b p ih =>
    intro pre rest hlen
    by_cases hb : b = 10
    · subst hb
      simp only [crlfExpand, if_true, List.length_cons] at hlen
      match rest, hlen with
      | r0 :: r1 :: rest2, hlen =>
        simp only [List.length_cons] at hlen
        have h1 : (pre ++ r0 :: r1 :: rest2).set pre.length 13 = pre ++ 13 :: r1 :: rest2 :=
          set_append_length pre r0 13 (r1 :: rest2)
        have h2 : (pre ++ 13 :: r1 :: rest2).set (pre.length + 1) 10 =
            (pre ++ [13]) ++ 10 :: rest2 := by
          simp
        have h3 := ih (pre ++ [13, 10]) rest2 (by omega)
        simp only [fillLoop, if_true, h1, h2, crlfExpand]
        have h4 : (pre ++ [13]) ++ 10 :: rest2 = (pre ++ [13, 10]) ++ rest2 := by simp
        have h5 : pre.length + 2 = (pre ++ [13, 10]).length := by simp
        rw [h4, h5, h3]
        simp
    · simp only [crlfExpand, hb, if_false, List.length_cons] at hlen
      match rest, hlen with
      | r0 :: rest2, hlen =>
        simp only [List.length_cons] at hlen
        have h1 : (pre ++ r0 :: rest2).set pre.length b = pre ++ b :: rest2 :=
          set_append_length pre r0 b rest2
        have h3 := ih (pre ++ [b]) rest2 (by omega)
        simp only [fillLoop, hb, if_false, h1, crlfExpand]
        have h4 : pre ++ b :: rest2 = (pre ++ [b]) ++ rest2 := by simp
        have h5 : pre.length + 1 = (pre ++ [b]).length := by simp
        rw [h4, h5, h3]
        simp

/-- C17: when `UsingTermWshMode` is false `WrappedWriter.Write` hands `p` to the destination
unchanged; when it is true the bytes handed over are `p` with every `'\n'` replaced by
`'\r'`, `'\n'` and every other byte kept in order, and their number is `len(p)` plus the
number of `'\n'` bytes of `p`. -/
theorem WrappedWriter_Write_spec (p : List Byte) :
    WrappedWriter.Write false p = p ∧
      WrappedWriter.Write true p = crlfExpand p ∧
      (WrappedWriter.Write true p).length = p.length + p.count 10 := by
  have hmain : WrappedWriter.Write true p = crlfExpand p := by
    simp only [WrappedWriter.Write, countNewlinesLoop_eq, Nat.zero_add]
    by_cases hc : p.count 10 = 0
    · simp [hc, crlfExpand_of_count_zero p hc]
    · have h := fillLoop_eq p [] (List.replicate (p.length + p.count 10) 0)
        (by simp [crlfExpand_length])
      simp only [List.nil_append, List.length_nil] at h
      simp [hc, h, crlfExpand_length]
  refine ⟨by simp [WrappedWriter.Write], hmain, ?_⟩
  rw [hmain, crlfExpand_length]

/-- The bytes of "a\nb\n" in terminal mode become those of "a\r\nb\r\n". -/
theorem WrappedWriter_Write_example :
    WrappedWriter.Write true [97, 10, 98, 10] = [97, 13, 10, 98, 13, 10] ∧
      WrappedWriter.Write false [97, 10, 98, 10] = [97, 10, 98, 10] := by
  decide

/-! ### `GetTempDirCommand` -/

/-- C16 (the code at the failing input): for the file name "..", with temp directory "/tmp",
`GetTempDirCommand` returns "/", the parent of the temp directory: neither the temp
directory nor a direct child of it. -/
theorem GetTempDirCommand_dotdot_escapes :
    GetTempDirCommand "/tmp" { FileName := ".." } = "/" ∧
      GetTempDirCommand "/var/tmp" { FileName := "a/b/.." } = "/var" ∧
      GetTempDirCommand "/var/tmp" { FileName := " .. " } = "/var" ∧
      (GetTempDirCommand "/tmp" { FileName := ".." } ≠ "/tmp" ∧
        filepathDir (GetTempDirCommand "/tmp" { FileName := ".." }).data ≠ "/tmp".data) := by
  decide

/-- Ordinary names are reduced to their last element and placed in the temp directory. -/
theorem GetTempDirCommand_examples :
    GetTempDirCommand "/tmp" { FileName := "/etc/passwd" } = "/tmp/passwd" ∧
      GetTempDirCommand "/tmp" { FileName := "../../x.txt" } = "/tmp/x.txt" ∧
      GetTempDirCommand "/tmp" { FileName := "dir/" } = "/tmp/dir" ∧
      GetTempDirCommand "/tmp" { FileName := "/" } = "/tmp" ∧
      GetTempDirCommand "/tmp" { FileName := "." } = "/tmp" ∧
      GetTempDirCommand "/tmp" { FileName := "" } = "/tmp" := by
  decide

/-! ### Stream shape -/

/-- The empty stream has the claimed shape. -/
theorem ResponsesThenErrors_nil {α : Type} (n : Nat) :
    ResponsesThenErrors n ([] : List (RespOrErrorUnion α)) :=
  ⟨[], [], rfl, Nat.zero_le n⟩

/-- A response in front keeps the shape. -/
theorem ResponsesThenErrors_cons {α : Type} (n : Nat) (x : α)
    (items : List (RespOrErrorUnion α)) (h : ResponsesThenErrors n items) :
    ResponsesThenErrors n (RespOrErrorUnion.Response x :: items) := by
  obtain ⟨resps, errs, hitems, hlen⟩ := h
  exact ⟨x :: resps, errs, by simp [hitems], hlen⟩

/-- Error items only, as many as allowed. -/
theorem ResponsesThenErrors_errors {α : Type} (n : Nat) (errs : List String)
    (h : errs.length ≤ n) :
    ResponsesThenErrors n (errs.map (RespOrErrorUnion.Error : String → RespOrErrorUnion α)) :=
  ⟨[], errs, rfl, h⟩

/-- Error items may be appended to a stream of responses. -/
theorem ResponsesThenErrors_append {α : Type} (n : Nat) (resps : List α) (errs : List String)
    (h : errs.length ≤ n) :
    ResponsesThenErrors n
      (resps.map RespOrErrorUnion.Response ++
        errs.map (RespOrErrorUnion.Error : String → RespOrErrorUnion α)) :=
  ⟨resps, errs, rfl, h⟩

/-! ### `ReadStream` and `ListEntriesStream` -/

/-- The file loop: responses then at most one error item, an error item only when the
context reported a cause, and termination within `len - i` iterations. -/
theorem readStreamFileLoop_spec (FileChunkSize : Nat) (ctxErr : Nat → Option String)
    (rtnData : FileData) (fuel : Nat) :
    ∀ i k,
      ResponsesThenErrors 1 (readStreamFileLoop FileChunkSize ctxErr rtnData fuel i k).1 ∧
      ((∃ e, RespOrErrorUnion.Error e ∈
          (readStreamFileLoop FileChunkSize ctxErr rtnData fuel i k).1) →
        ∃ j, ctxErr j ≠ none) ∧
      (0 < FileChunkSize → rtnData.Data64.length - i ≤ fuel →
        (readStreamFileLoop FileChunkSize ctxErr rtnData fuel i k).2 = true) := by
  induction fuel with
  | zero =>
    intro i k
    refine ⟨by simp [readStreamFileLoop, ResponsesThenErrors_nil], by simp [readStreamFileLoop], ?_⟩
    intro _ h
    simp [readStreamFileLoop]
    omega
  | succ fuel ih =>
    intro i k
    by_cases hi : i < rtnData.Data64.length
    · cases hc : ctxErr k with
      | some cause =>
        simp only [readStreamFileLoop, hi, if_true, hc]
        refine ⟨ResponsesThenErrors_errors 1 [cause] (by simp), ?_, ?_⟩
        · intro _
          exact ⟨k, by simp [hc]⟩
        · intro _ _
          trivial
      | none =>
        obtain ⟨h1, h2, h3⟩ := ih (i + FileChunkSize) (k + 1)
        simp only [readStreamFileLoop, hi, if_true, hc]
        refine ⟨ResponsesThenErrors_cons 1 _ _ h1, ?_, ?_⟩
        · rintro ⟨e, he⟩
          simp only [List.mem_cons] at he
          rcases he with he | he
          · cases he
          · exact h2 ⟨e, he⟩
        · intro hpos hfuel
          exact h3 hpos (by omega)
    · simp only [readStreamFileLoop, hi, if_false]
      exact ⟨ResponsesThenErrors_nil 1, by simp, fun _ _ => trivial⟩

/-- The directory loop: as the file loop. -/
theorem readStreamDirLoop_spec (DirChunkSize : Nat) (ctxErr : Nat → Option String)
    (rtnData : FileData) (fuel : Nat) :
    ∀ i k,
      ResponsesThenErrors 1 (readStreamDirLoop DirChunkSize ctxErr rtnData fuel i k).1 ∧
      ((∃ e, RespOrErrorUnion.Error e ∈
          (readStreamDirLoop DirChunkSize ctxErr rtnData fuel i k).1) →
        ∃ j, ctxErr j ≠ none) ∧
      (0 < DirChunkSize → rtnData.Entries.length - i ≤ fuel →
        (readStreamDirLoop DirChunkSize ctxErr rtnData fuel i k).2 = true) := by
  induction fuel with
  | zero =>
    intro i k
    refine ⟨by simp [readStreamDirLoop, ResponsesThenErrors_nil], by simp [readStreamDirLoop], ?_⟩
    intro _ h
    simp [readStreamDirLoop]
    omega
  | succ fuel ih =>
    intro i k
    by_cases hi : i < rtnData.Entries.length
    · cases hc : ctxErr k with
      | some cause =>
        simp only [readStreamDirLoop, hi, if_true, hc]
        refine ⟨ResponsesThenErrors_errors 1 [cause] (by simp), ?_, ?_⟩
        · intro _
          exact ⟨k, by simp [hc]⟩
        · intro _ _
          trivial
      | none =>
        obtain ⟨h1, h2, h3⟩ := ih (i + DirChunkSize) (k + 1)
        simp only [readStreamDirLoop, hi, if_true, hc]
        refine ⟨ResponsesThenErrors_cons 1 _ _ h1, ?_, ?_⟩
        · rintro ⟨e, he⟩
          simp only [List.mem_cons] at he
          rcases he with he | he
          · cases he
          · exact h2 ⟨e, he⟩
        · intro hpos hfuel
          exact h3 hpos (by omega)
    · simp only [readStreamDirLoop, hi, if_false]
      exact ⟨ResponsesThenErrors_nil 1, by simp, fun _ _ => trivial⟩

/-- The loop of `ListEntriesStream`: responses only, and termination within `len - i`
iterations. -/
theorem listEntriesLoop_spec (DirChunkSize : Nat) (list : List FileInfo) (fuel : Nat) :
    ∀ i,
      ResponsesThenErrors 0 (listEntriesLoop DirChunkSize list fuel i).1 ∧
      (0 < DirChunkSize → list.length - i ≤ fuel →
        (listEntriesLoop DirChunkSize list fuel i).2 = true) := by
  induction fuel with
  | zero =>
    intro i
    refine ⟨by simp [listEntriesLoop, ResponsesThenErrors_nil], ?_⟩
    intro _ h
    simp [listEntriesLoop]
    omega
  | succ fuel ih =>
    intro i
    by_cases hi : i < list.length
    · obtain ⟨h1, h3⟩ := ih (i + DirChunkSize)
      simp only [listEntriesLoop, hi, if_true]
      exact ⟨ResponsesThenErrors_cons 0 _ _ h1, fun hpos hfuel => h3 hpos (by omega)⟩
    · simp only [listEntriesLoop, hi, if_false]
      exact ⟨ResponsesThenErrors_nil 0, fun _ _ => trivial⟩

/-- A stream with no error item allowed has none. -/
theorem ResponsesThenErrors_zero_no_error {α : Type} (items : List (RespOrErrorUnion α))
    (h : ResponsesThenErrors 0 items) (e : String) : RespOrErrorUnion.Error e ∉ items := by
  obtain ⟨resps, errs, hitems, hlen⟩ := h
  have : errs = [] := List.length_eq_zero.mp (Nat.le_zero.mp hlen)
  subst this
  rw [hitems]
  simp

/-- A stream with no error item allowed has the shape for any bound. -/
theorem ResponsesThenErrors_mono {α : Type} {m n : Nat} (hmn : m ≤ n)
    (items : List (RespOrErrorUnion α)) (h : ResponsesThenErrors m items) :
    ResponsesThenErrors n items := by
  obtain ⟨resps, errs, hitems, hlen⟩ := h
  exact ⟨resps, errs, hitems, Nat.le_trans hlen hmn⟩

/-- C15: with positive chunk sizes, for every result of the underlying `Read` /
`ListEntries` and every behaviour of the context, `ReadStream` and `ListEntriesStream` send
finitely many items and close the channel exactly once; the items are responses followed
by at most one error item, which is therefore last; `ReadStream` sends an error item only
if `Read` failed or the context was cancelled, `ListEntriesStream` only if `ListEntries`
failed. -/
theorem ReadStream_ListEntriesStream_spec (FileChunkSize DirChunkSize : Nat)
    (hF : 0 < FileChunkSize) (hD : 0 < DirChunkSize)
    (readResult : Except String FileData) (ctxErr : Nat → Option String)
    (listResult : Except String (List FileInfo)) :
    ((ReadStream FileChunkSize DirChunkSize readResult ctxErr).closes = 1 ∧
      ResponsesThenErrors 1 (ReadStream FileChunkSize DirChunkSize readResult ctxErr).items ∧
      ((∃ e, RespOrErrorUnion.Error e ∈
          (ReadStream FileChunkSize DirChunkSize readResult ctxErr).items) →
        (∃ err, readResult = .error err) ∨ ∃ j, ctxErr j ≠ none)) ∧
    ((ListEntriesStream DirChunkSize listResult).closes = 1 ∧
      ResponsesThenErrors 1 (ListEntriesStream DirChunkSize listResult).items ∧
      ((∃ e, RespOrErrorUnion.Error e ∈ (ListEntriesStream DirChunkSize listResult).items) →
        ∃ err, listResult = .error err)) := by
  constructor
  · cases readResult with
    | error err =>
      refine ⟨rfl, ResponsesThenErrors_errors 1 [err] (by simp), fun _ => Or.inl ⟨err, rfl⟩⟩
    | ok rtnData =>
      cases hinfo : rtnData.Info with
      | none =>
        simp only [ReadStream, hinfo]
        exact ⟨trivial, ResponsesThenErrors_nil 1, by simp⟩
      | some info =>
        by_cases hdir : info.IsDir = false
        · obtain ⟨h1, h2, h3⟩ := readStreamFileLoop_spec FileChunkSize ctxErr rtnData
            rtnData.Data64.length 0 0
          simp only [ReadStream, hinfo, hdir, if_true]
          refine ⟨by simp [h3 hF (by omega)], h1, fun h => Or.inr (h2 h)⟩
        · obtain ⟨h1, h2, h3⟩ := readStreamDirLoop_spec DirChunkSize ctxErr rtnData
            rtnData.Entries.length 0 0
          simp only [ReadStream, hinfo, hdir, if_false]
          refine ⟨by simp [h3 hD (by omega)], h1, fun h => Or.inr (h2 h)⟩
  · cases listResult with
    | error err =>
      refine ⟨rfl, ResponsesThenErrors_errors 1 [err] (by simp), fun _ => ⟨err, rfl⟩⟩
    | ok list =>
      obtain ⟨h1, h3⟩ := listEntriesLoop_spec DirChunkSize list list.length 0
      simp only [ListEntriesStream]
      refine ⟨by simp [h3 hD (by omega)], ResponsesThenErrors_mono (Nat.zero_le 1) _ h1, ?_⟩
      rintro ⟨e, he⟩
      exact absurd he (ResponsesThenErrors_zero_no_error _ h1 e)

/-- Witness for C15: a file of three bytes read in chunks of two gives two responses; the
channel is closed once. -/
theorem ReadStream_ListEntriesStream_spec_witness :
    ((ReadStream 2 1 (.ok sampleFile) (fun _ => none)).closes = 1 ∧
      ResponsesThenErrors 1 (ReadStream 2 1 (.ok sampleFile) (fun _ => none)).items ∧
      (ListEntriesStream 1 (.error "zoneid not found in connection")).closes = 1 ∧
      ResponsesThenErrors 1
        (ListEntriesStream 1 (.error "zoneid not found in connection")).items) ∧
    (ReadStream 2 1 (.ok sampleFile) (fun _ => none)).items =
      [RespOrErrorUnion.Response
          { Info := sampleFile.Info, Data64 := [81, 85], Entries := [],
            At := some { Offset := 0, Size := 2 } },
        RespOrErrorUnion.Response
          { Info := sampleFile.Info, Data64 := [74], Entries := [],
            At := some { Offset := 2, Size := 1 } }] ∧
    ReadStream 2 1 (.ok sampleFile) cancelledAfterOne =
      { items :=
          [RespOrErrorUnion.Response
              { Info := sampleFile.Info, Data64 := [81, 85], Entries := [],
                At := some { Offset := 0, Size := 2 } },
            RespOrErrorUnion.Error "context canceled"],
        closes := 1 } :=
  have h := ReadStream_ListEntriesStream_spec 2 1 (by decide) (by decide) (.ok sampleFile)
    (fun _ => none) (.error "zoneid not found in connection")
  ⟨⟨h.1.1, h.1.2.1, h.2.1, h.2.2.1⟩, by decide, by decide⟩

/-! ### `StreamCompletion` -/

/-- The read loop sends responses followed by at most one error item, and none when it does
not return. -/
theorem streamReadLoop_spec (reads : List ReadEvent) :
    ∃ (resps : List WaveAIPacketType) (errs : List String),
      (streamReadLoop reads).1 =
        resps.map RespOrErrorUnion.Response ++ errs.map RespOrErrorUnion.Error ∧
      errs.length ≤ 1 ∧ ((streamReadLoop reads).2 ≠ GoExit.returned → errs = []) := by
  induction reads with
  | nil => exact ⟨[], [], rfl, by simp, fun _ => rfl⟩
  | cons ev rest ih =>
    cases ev with
    | eof => exact ⟨[], [], rfl, by simp, fun _ => rfl⟩
    | failed err =>
      exact ⟨[], ["OpenAI request, websocket error reading message: " ++ err], rfl, by simp,
        fun h => absurd rfl h⟩
    | message decoded =>
      cases decoded with
      | failed err =>
        exact ⟨[], ["OpenAI request, websocket response json decode error: " ++ err], rfl,
          by simp, fun h => absurd rfl h⟩
      | null => exact ⟨[], [], rfl, by simp, fun _ => rfl⟩
      | packet streamResp =>
        by_cases h1 : streamResp.Error = PacketEOFStr
        · exact ⟨[], [], by simp [streamReadLoop, h1], by simp, fun _ => rfl⟩
        · by_cases h2 : streamResp.Error = ""
          · obtain ⟨resps, errs, hitems, hlen, hexit⟩ := ih
            have h1b : ¬ ("" = PacketEOFStr) := by rw [← h2]; exact h1
            refine ⟨streamResp :: resps, errs, ?_, hlen, ?_⟩
            · simp [streamReadLoop, h2, h1b, hitems]
            · intro h
              apply hexit
              simpa [streamReadLoop, h2, h1b] using h
          · refine ⟨[], [streamResp.Error], ?_, by simp, ?_⟩
            · simp [streamReadLoop, h1, h2, makeAIError]
            · intro h
              simp [streamReadLoop, h1, h2] at h

/-- A read that stops the loop keeps the goroutine from blocking. -/
theorem streamReadLoop_not_blocked (reads : List ReadEvent)
    (h : ∃ ev ∈ reads, ev.stops = true) : (streamReadLoop reads).2 ≠ GoExit.blocked := by
  induction reads with
  | nil =>
    obtain ⟨ev, hev, _⟩ := h
    cases hev
  | cons ev rest ih =>
    cases ev with
    | eof => simp [streamReadLoop]
    | failed err => simp [streamReadLoop]
    | message decoded =>
      cases decoded with
      | failed err => simp [streamReadLoop]
      | null => simp [streamReadLoop]
      | packet streamResp =>
        by_cases h1 : streamResp.Error = PacketEOFStr
        · simp [streamReadLoop, h1]
        · by_cases h2 : streamResp.Error = ""
          · have h1b : ¬ ("" = PacketEOFStr) := by rw [← h2]; exact h1
            have hrest : ∃ ev ∈ rest, ev.stops = true := by
              obtain ⟨ev, hev, hstop⟩ := h
              simp only [List.mem_cons] at hev
              rcases hev with hev | hev
              · subst hev
                simp [ReadEvent.stops, h2] at hstop
              · exact ⟨ev, hev, hstop⟩
            simpa [streamReadLoop, h2, h1b] using ih hrest
          · simp [streamReadLoop, h1, h2]

/-- The body of the goroutine with the connection open: as the read loop. -/
theorem streamConnected_spec (ws : WebsocketBehaviour) (request : WaveAIStreamRequest)
    (opts : WaveAIOptsType) :
    ∃ (resps : List WaveAIPacketType) (errs : List String),
      (streamConnected ws request opts).1 =
        resps.map RespOrErrorUnion.Response ++ errs.map RespOrErrorUnion.Error ∧
      errs.length ≤ 1 ∧ ((streamConnected ws request opts).2 ≠ GoExit.returned → errs = []) := by
  unfold streamConnected
  simp only
  split
  · rename_i err _
    exact ⟨[], ["OpenAI request, packet marshal error: " ++ err], rfl, by simp,
      fun h => absurd rfl h⟩
  · split
    · rename_i err _
      exact ⟨[], ["OpenAI request, websocket write config error: " ++ err], rfl, by simp,
        fun h => absurd rfl h⟩
    · exact streamReadLoop_spec ws.reads

/-- The deferred close sends at most one error item, and none when the body is blocked. -/
theorem deferredClose_spec (ws : WebsocketBehaviour) (exit : GoExit) :
    ∃ errs : List String,
      deferredClose ws exit = errs.map RespOrErrorUnion.Error ∧ errs.length ≤ 1 ∧
        (exit = GoExit.blocked → errs = []) := by
  cases hc : ws.close with
  | none => exact ⟨[], by cases exit <;> simp [deferredClose, hc], by simp, fun _ => rfl⟩
  | some err =>
    cases exit with
    | blocked => exact ⟨[], rfl, by simp, fun _ => rfl⟩
    | returned =>
      exact ⟨["unable to close openai channel: " ++ err],
        by simp [deferredClose, hc, makeAIError], by simp, fun h => GoExit.noConfusion h⟩
    | panicked recovered =>
      exact ⟨["unable to close openai channel: " ++ err],
        by simp [deferredClose, hc, makeAIError], by simp, fun h => GoExit.noConfusion h⟩

/-- The last deferred function sends an error item only after a panic, and closes the
channel once unless the body is blocked. -/
theorem deferredPanicClose_spec (PanicHandler : String → String → Option String)
    (exit : GoExit) :
    ∃ errs : List String,
      (deferredPanicClose PanicHandler exit).1 = errs.map RespOrErrorUnion.Error ∧
        errs.length ≤ 1 ∧ (exit = GoExit.returned ∨ exit = GoExit.blocked → errs = []) ∧
        (deferredPanicClose PanicHandler exit).2 ≤ 1 ∧
        (exit ≠ GoExit.blocked → (deferredPanicClose PanicHandler exit).2 = 1) ∧
        (exit = GoExit.blocked → (deferredPanicClose PanicHandler exit).2 = 0) := by
  cases exit with
  | returned =>
    exact ⟨[], rfl, by simp, fun _ => rfl, by simp [deferredPanicClose],
      fun _ => rfl, fun h => GoExit.noConfusion h⟩
  | blocked =>
    exact ⟨[], rfl, by simp, fun _ => rfl, by simp [deferredPanicClose],
      fun h => absurd rfl h, fun _ => rfl⟩
  | panicked recovered =>
    cases hp : PanicHandler "WaveAICloudBackend.StreamCompletion" recovered with
    | none =>
      exact ⟨[], by simp [deferredPanicClose, hp], by simp, fun _ => rfl,
        by simp [deferredPanicClose, hp], fun _ => by simp [deferredPanicClose, hp],
        fun h => GoExit.noConfusion h⟩
    | some panicErr =>
      refine ⟨[panicErr], by simp [deferredPanicClose, hp, makeAIError], by simp, ?_,
        by simp [deferredPanicClose, hp], fun _ => by simp [deferredPanicClose, hp],
        fun h => GoExit.noConfusion h⟩
      intro h
      rcases h with h | h
      · exact GoExit.noConfusion h
      · exact GoExit.noConfusion h

/-- The trace of `StreamCompletion` once the connection is open, put together from the body
and the two deferred functions. -/
theorem streamConnected_trace_spec (PanicHandler : String → String → Option String)
    (ws : WebsocketBehaviour) (request : WaveAIStreamRequest) (opts : WaveAIOptsType) :
    ResponsesThenErrors 2
        ((streamConnected ws request opts).1 ++
          deferredClose ws (streamConnected ws request opts).2 ++
          (deferredPanicClose PanicHandler (streamConnected ws request opts).2).1) ∧
      ((deferredPanicClose PanicHandler (streamConnected ws request opts).2).2 = 0 →
        ∀ item ∈ (streamConnected ws request opts).1 ++
            deferredClose ws (streamConnected ws request opts).2 ++
            (deferredPanicClose PanicHandler (streamConnected ws request opts).2).1,
          item.isError = false) := by
  obtain ⟨resps, errs, hbody, hlen, hexit⟩ := streamConnected_spec ws request opts
  obtain ⟨cl, hcl, hcllen, hclb⟩ := deferredClose_spec ws (streamConnected ws request opts).2
  obtain ⟨pe, hpe, hpelen, hper, _, hone, _⟩ :=
    deferredPanicClose_spec PanicHandler (streamConnected ws request opts).2
  rw [hbody, hcl, hpe]
  constructor
  · refine ⟨resps, errs ++ cl ++ pe, by simp, ?_⟩
    cases hx : (streamConnected ws request opts).2 with
    | returned =>
      have : pe = [] := hper (Or.inl hx)
      subst this
      simp
      omega
    | blocked =>
      have h1 : pe = [] := hper (Or.inr hx)
      have h2 : cl = [] := hclb hx
      have h3 : errs = [] := hexit (by rw [hx]; exact fun h => GoExit.noConfusion h)
      subst h1 h2 h3
      simp
    | panicked recovered =>
      have h3 : errs = [] := hexit (by rw [hx]; exact fun h => GoExit.noConfusion h)
      subst h3
      simp
      omega
  · intro hzero
    have hb : (streamConnected ws request opts).2 = GoExit.blocked := by
      by_contra hne
      rw [hone hne] at hzero
      cases hzero
    have h1 : pe = [] := hper (Or.inr hb)
    have h2 : cl = [] := hclb hb
    have h3 : errs = [] := hexit (by rw [hb]; exact fun h => GoExit.noConfusion h)
    subst h1 h2 h3
    intro item hitem
    simp only [List.map_nil, List.append_nil, List.mem_map] at hitem
    obtain ⟨r, _, hr⟩ := hitem
    subst hr
    rfl

/-- While no read stops the loop, every read is a packet that is sent as a response, and the
goroutine ends up blocked in the next read. -/
theorem streamReadLoop_silent (reads : List ReadEvent)
    (h : ∀ ev ∈ reads, ev.stops = false) :
    streamReadLoop reads =
      ((reads.filterMap ReadEvent.packet).map RespOrErrorUnion.Response, GoExit.blocked) := by
  induction reads with
  | nil => rfl
  | cons ev rest ih =>
    have hev := h ev (List.mem_cons_self _ _)
    have hrest := ih (fun e he => h e (List.mem_cons_of_mem _ he))
    cases ev with
    | eof => simp [ReadEvent.stops] at hev
    | failed err => simp [ReadEvent.stops] at hev
    | message decoded =>
      cases decoded with
      | failed err => simp [ReadEvent.stops] at hev
      | null => simp [ReadEvent.stops] at hev
      | packet streamResp =>
        have h2 : streamResp.Error = "" := by simpa [ReadEvent.stops] using hev
        have h1 : ¬ ("" = PacketEOFStr) := by decide
        simp [streamReadLoop, h1, h2, hrest, ReadEvent.packet]

/-- The read loop ends up blocked only when no read stops it. -/
theorem streamReadLoop_blocked (reads : List ReadEvent)
    (h : (streamReadLoop reads).2 = GoExit.blocked) : ∀ ev ∈ reads, ev.stops = false := by
  intro ev hev
  by_contra hstop
  have hs : ev.stops = true := by
    cases hb : ev.stops with
    | true => rfl
    | false => exact absurd hb hstop
  exact streamReadLoop_not_blocked reads ⟨ev, hev, hs⟩ h

/-- The body of the goroutine ends up blocked exactly when the request is marshalled and
written and no read stops the loop; it has then sent the packets read as responses. -/
theorem streamConnected_blocked_iff (ws : WebsocketBehaviour) (request : WaveAIStreamRequest)
    (opts : WaveAIOptsType) :
    ((streamConnected ws request opts).2 = GoExit.blocked ↔
      ((∃ configMessageBuf,
          ws.marshal
              { MakeWaveAICloudReqPacket with
                ClientId := request.ClientId, Prompt := sendablePromptMsgs request.Prompt,
                MaxTokens := opts.MaxTokens, MaxChoices := opts.MaxChoices } =
            .ok configMessageBuf ∧
          ws.writeMessage configMessageBuf = none) ∧
        ∀ ev ∈ ws.reads, ev.stops = false)) ∧
      ((streamConnected ws request opts).2 = GoExit.blocked →
        (streamConnected ws request opts).1 =
          (ws.reads.filterMap ReadEvent.packet).map RespOrErrorUnion.Response) := by
  cases hm : ws.marshal
      { MakeWaveAICloudReqPacket with
        ClientId := request.ClientId, Prompt := sendablePromptMsgs request.Prompt,
        MaxTokens := opts.MaxTokens, MaxChoices := opts.MaxChoices } with
  | error err =>
    simp only [streamConnected, hm]
    refine ⟨⟨fun h => GoExit.noConfusion h, ?_⟩, fun h => GoExit.noConfusion h⟩
    rintro ⟨⟨buf, hbuf, _⟩, _⟩
    cases hbuf
  | ok configMessageBuf =>
    cases hw : ws.writeMessage configMessageBuf with
    | some err =>
      simp only [streamConnected, hm, hw]
      refine ⟨⟨fun h => GoExit.noConfusion h, ?_⟩, fun h => GoExit.noConfusion h⟩
      rintro ⟨⟨buf, hbuf, hwr⟩, _⟩
      cases hbuf
      rw [hw] at hwr
      cases hwr
    | none =>
      simp only [streamConnected, hm, hw]
      refine ⟨⟨fun h => ⟨⟨configMessageBuf, rfl, hw⟩, streamReadLoop_blocked ws.reads h⟩, ?_⟩,
        ?_⟩
      · rintro ⟨_, hsilent⟩
        rw [streamReadLoop_silent ws.reads hsilent]
      · intro h
        rw [streamReadLoop_silent ws.reads (streamReadLoop_blocked ws.reads h)]

/-- Every item sent by the deferred close is the close error of the connection. -/
theorem deferredClose_msg (ws : WebsocketBehaviour) (exit : GoExit) :
    ∃ errs : List String,
      deferredClose ws exit = errs.map RespOrErrorUnion.Error ∧ errs.length ≤ 1 ∧
        (exit = GoExit.blocked → errs = []) ∧
        ∀ e ∈ errs, ∃ err, ws.close = some err ∧ e = "unable to close openai channel: " ++ err := by
  cases hc : ws.close with
  | none =>
    exact ⟨[], by cases exit <;> simp [deferredClose, hc], by simp, fun _ => rfl,
      fun e he => by cases he⟩
  | some err =>
    cases exit with
    | blocked => exact ⟨[], rfl, by simp, fun _ => rfl, fun e he => by cases he⟩
    | returned =>
      refine ⟨["unable to close openai channel: " ++ err],
        by simp [deferredClose, hc, makeAIError], by simp, fun h => GoExit.noConfusion h, ?_⟩
      intro e he
      simp only [List.mem_singleton] at he
      exact ⟨err, rfl, he⟩
    | panicked recovered =>
      refine ⟨["unable to close openai channel: " ++ err],
        by simp [deferredClose, hc, makeAIError], by simp, fun h => GoExit.noConfusion h, ?_⟩
      intro e he
      simp only [List.mem_singleton] at he
      exact ⟨err, rfl, he⟩

/-- The items sent once the connection is open: responses, then at most one error of the
body or of a recovered panic, with at most one close error between the two. -/
theorem streamConnected_trace_split (PanicHandler : String → String → Option String)
    (ws : WebsocketBehaviour) (request : WaveAIStreamRequest) (opts : WaveAIOptsType) :
    ∃ (resps : List WaveAIPacketType) (bodyErrs closeErrs panicErrs : List String),
      (streamConnected ws request opts).1 ++
          deferredClose ws (streamConnected ws request opts).2 ++
          (deferredPanicClose PanicHandler (streamConnected ws request opts).2).1 =
        resps.map RespOrErrorUnion.Response ++
          (bodyErrs ++ closeErrs ++ panicErrs).map RespOrErrorUnion.Error ∧
      bodyErrs.length + panicErrs.length ≤ 1 ∧ closeErrs.length ≤ 1 ∧
      ∀ e ∈ closeErrs, ∃ err, ws.close = some err ∧
        e = "unable to close openai channel: " ++ err := by
  obtain ⟨resps, errs, hbody, hlen, hexit⟩ := streamConnected_spec ws request opts
  obtain ⟨cl, hcl, hcllen, _, hclmsg⟩ := deferredClose_msg ws (streamConnected ws request opts).2
  obtain ⟨pe, hpe, hpelen, hper, _, _, _⟩ :=
    deferredPanicClose_spec PanicHandler (streamConnected ws request opts).2
  refine ⟨resps, errs, cl, pe, ?_, ?_, hcllen, hclmsg⟩
  · rw [hbody, hcl, hpe]
    simp
  · by_cases hx : (streamConnected ws request opts).2 = GoExit.returned
    · rw [hper (Or.inl hx)]
      simpa using hlen
    · rw [hexit hx]
      simpa using hpelen

/-- Counterexample for C14: the websocket connects, the first read fails and closing the
connection fails too. The channel gets two error items: the read error, then the close
error. -/
theorem StreamCompletion_two_errors :
    StreamCompletion samplePanicHandler "wss://cloud"
        (sampleWebsocket [ReadEvent.failed "connection reset"] (some "broken pipe"))
        sampleRequest =
      { items :=
          [RespOrErrorUnion.Error
              "OpenAI request, websocket error reading message: connection reset",
            RespOrErrorUnion.Error "unable to close openai channel: broken pipe"],
        closes := 1 } := by
  decide

/-- Further traces of `StreamCompletion`: a peer that sends one packet and then falls silent
leaves the goroutine blocked and the channel open; a `null` message makes the goroutine
panic, and the close error is followed by the panic error. -/
theorem StreamCompletion_traces :
    StreamCompletion samplePanicHandler "wss://cloud"
        (sampleWebsocket [ReadEvent.message (DecodeResult.packet { Text := "hi", Error := "" })]
          none)
        sampleRequest =
      { items := [RespOrErrorUnion.Response { Text := "hi", Error := "" }], closes := 0 } ∧
    StreamCompletion samplePanicHandler "wss://cloud"
        (sampleWebsocket [ReadEvent.message DecodeResult.null] (some "broken pipe"))
        sampleRequest =
      { items :=
          [RespOrErrorUnion.Error "unable to close openai channel: broken pipe",
            RespOrErrorUnion.Error
              ("panic in WaveAICloudBackend.StreamCompletion: " ++
                "invalid memory address or nil pointer dereference")],
        closes := 1 } := by
  decide

/-- The trace of a run of `StreamCompletion` that sends one error item and returns before the
connection is open. -/
theorem StreamCompletion_early_shape (ws : WebsocketBehaviour) (msg : String) :
    (∃ (resps : List WaveAIPacketType) (bodyErrs closeErrs panicErrs : List String),
        [RespOrErrorUnion.Error msg] =
          resps.map RespOrErrorUnion.Response ++
            (bodyErrs ++ closeErrs ++ panicErrs).map RespOrErrorUnion.Error ∧
        bodyErrs.length + panicErrs.length ≤ 1 ∧ closeErrs.length ≤ 1 ∧
        ∀ e ∈ closeErrs, ∃ err, ws.close = some err ∧
          e = "unable to close openai channel: " ++ err) ∧
      ResponsesThenErrors 2 ([RespOrErrorUnion.Error msg] :
        List (RespOrErrorUnion WaveAIPacketType)) :=
  ⟨⟨[], [msg], [], [], rfl, by simp, by simp, fun e he => by cases he⟩,
    ResponsesThenErrors_errors 2 [msg] (by simp)⟩

/-- C14 (amended): for every request and every behaviour of the websocket, the items
`StreamCompletion` puts on its channel are responses followed by at most two error items:
at most one from the request, the reads or a recovered panic, and at most one "unable to
close openai channel" item, sent when `conn.Close()` fails; so no response follows an error
item. The channel is closed at most once. It is not closed exactly when the endpoint and the
options are there, the connection is made, the request packet is marshalled and written and
no read ends the read loop (EOF, a read error, an undecodable or `null` message, a packet
with a non-empty `Error`): then the goroutine stays in `ReadMessage`, the channel stays open
and the items are the packets read, with no error item. In every other case the channel is
closed exactly once. -/
theorem StreamCompletion_shape (PanicHandler : String → String → Option String)
    (wsEndpoint : String) (ws : WebsocketBehaviour) (request : WaveAIStreamRequest) :
    (∃ (resps : List WaveAIPacketType) (bodyErrs closeErrs panicErrs : List String),
        (StreamCompletion PanicHandler wsEndpoint ws request).items =
          resps.map RespOrErrorUnion.Response ++
            (bodyErrs ++ closeErrs ++ panicErrs).map RespOrErrorUnion.Error ∧
        bodyErrs.length + panicErrs.length ≤ 1 ∧ closeErrs.length ≤ 1 ∧
        ∀ e ∈ closeErrs, ∃ err, ws.close = some err ∧
          e = "unable to close openai channel: " ++ err) ∧
      ResponsesThenErrors 2 (StreamCompletion PanicHandler wsEndpoint ws request).items ∧
      (StreamCompletion PanicHandler wsEndpoint ws request).closes ≤ 1 ∧
      ((StreamCompletion PanicHandler wsEndpoint ws request).closes = 0 ↔
        staysInReadLoop wsEndpoint ws request) ∧
      ((StreamCompletion PanicHandler wsEndpoint ws request).closes = 1 ↔
        ¬ staysInReadLoop wsEndpoint ws request) ∧
      (staysInReadLoop wsEndpoint ws request →
        (StreamCompletion PanicHandler wsEndpoint ws request).items =
          (ws.reads.filterMap ReadEvent.packet).map RespOrErrorUnion.Response) ∧
      ((StreamCompletion PanicHandler wsEndpoint ws request).closes = 0 →
        ∀ item ∈ (StreamCompletion PanicHandler wsEndpoint ws request).items,
          item.isError = false) ∧
      ((wsEndpoint = "" ∨ request.Opts = none ∨ ws.dial ≠ DialResult.connected ∨
          (∃ ev ∈ ws.reads, ev.stops = true)) →
        (StreamCompletion PanicHandler wsEndpoint ws request).closes = 1) := by
  have hearly : ∀ msg : String,
      StreamCompletion PanicHandler wsEndpoint ws request =
        { items := [RespOrErrorUnion.Error msg], closes := 1 } →
      ¬ staysInReadLoop wsEndpoint ws request →
      (∃ (resps : List WaveAIPacketType) (bodyErrs closeErrs panicErrs : List String),
        (StreamCompletion PanicHandler wsEndpoint ws request).items =
          resps.map RespOrErrorUnion.Response ++
            (bodyErrs ++ closeErrs ++ panicErrs).map RespOrErrorUnion.Error ∧
        bodyErrs.length + panicErrs.length ≤ 1 ∧ closeErrs.length ≤ 1 ∧
        ∀ e ∈ closeErrs, ∃ err, ws.close = some err ∧
          e = "unable to close openai channel: " ++ err) ∧
      ResponsesThenErrors 2 (StreamCompletion PanicHandler wsEndpoint ws request).items ∧
      (StreamCompletion PanicHandler wsEndpoint ws request).closes ≤ 1 ∧
      ((StreamCompletion PanicHandler wsEndpoint ws request).closes = 0 ↔
        staysInReadLoop wsEndpoint ws request) ∧
      ((StreamCompletion PanicHandler wsEndpoint ws request).closes = 1 ↔
        ¬ staysInReadLoop wsEndpoint ws request) ∧
      (staysInReadLoop wsEndpoint ws request →
        (StreamCompletion PanicHandler wsEndpoint ws request).items =
          (ws.reads.filterMap ReadEvent.packet).map RespOrErrorUnion.Response) ∧
      ((StreamCompletion PanicHandler wsEndpoint ws request).closes = 0 →
        ∀ item ∈ (StreamCompletion PanicHandler wsEndpoint ws request).items,
          item.isError = false) ∧
      ((wsEndpoint = "" ∨ request.Opts = none ∨ ws.dial ≠ DialResult.connected ∨
          (∃ ev ∈ ws.reads, ev.stops = true)) →
        (StreamCompletion PanicHandler wsEndpoint ws request).closes = 1) := by
    intro msg hsc hnot
    rw [hsc]
    obtain ⟨h1, h2⟩ := StreamCompletion_early_shape ws msg
    refine ⟨h1, h2, le_refl 1, ⟨fun h => ?_, fun h => absurd h hnot⟩,
      ⟨fun _ => hnot, fun _ => rfl⟩, fun h => absurd h hnot, fun h => ?_, fun _ => rfl⟩
    · cases h
    · cases h
  by_cases he : wsEndpoint = ""
  · exact hearly "no cloud ws endpoint found"
      (by simp [StreamCompletion, he, deferredPanicClose, makeAIError])
      (fun hstay => hstay.1 he)
  · obtain ho | ⟨opts, ho⟩ : request.Opts = none ∨ ∃ opts, request.Opts = some opts := by
      cases request.Opts <;> simp
    · refine hearly "no openai opts found"
        (by simp [StreamCompletion, he, ho, deferredPanicClose, makeAIError]) ?_
      rintro ⟨_, opts, hopts, _⟩
      rw [ho] at hopts
      cases hopts
    · obtain hd | ⟨err, hd⟩ | ⟨err, hd⟩ : ws.dial = DialResult.connected ∨
          (∃ err, ws.dial = DialResult.deadlineExceeded err) ∨
          ∃ err, ws.dial = DialResult.failed err := by
        cases ws.dial <;> simp
      rotate_left
      · refine hearly ("OpenAI request, timed out connecting to cloud server: " ++ err)
          (by simp [StreamCompletion, he, ho, hd, deferredPanicClose, makeAIError]) ?_
        rintro ⟨_, opts2, _, hdial, _⟩
        rw [hd] at hdial
        cases hdial
      · refine hearly ("OpenAI request, websocket connect error: " ++ err)
          (by simp [StreamCompletion, he, ho, hd, deferredPanicClose, makeAIError]) ?_
        rintro ⟨_, opts2, _, hdial, _⟩
        rw [hd] at hdial
        cases hdial
      · obtain ⟨hshape, hzero⟩ := streamConnected_trace_spec PanicHandler ws request opts
        obtain ⟨_, _, _, _, hle, hone, hblk⟩ :=
          deferredPanicClose_spec PanicHandler (streamConnected ws request opts).2
        obtain ⟨hiff, hitems⟩ := streamConnected_blocked_iff ws request opts
        have hsc : StreamCompletion PanicHandler wsEndpoint ws request =
            { items := (streamConnected ws request opts).1 ++
                deferredClose ws (streamConnected ws request opts).2 ++
                (deferredPanicClose PanicHandler (streamConnected ws request opts).2).1,
              closes := (deferredPanicClose PanicHandler (streamConnected ws request opts).2).2 } := by
          simp [StreamCompletion, he, ho, hd]
        have hstay : staysInReadLoop wsEndpoint ws request ↔
            (streamConnected ws request opts).2 = GoExit.blocked := by
          rw [hiff]
          constructor
          · rintro ⟨_, opts2, hopts, _, hrest⟩
            rw [ho] at hopts
            cases hopts
            exact hrest
          · intro hrest
            exact ⟨he, opts, ho, hd, hrest⟩
        have hclose0 : (deferredPanicClose PanicHandler (streamConnected ws request opts).2).2 = 0 ↔
            (streamConnected ws request opts).2 = GoExit.blocked := by
          constructor
          · intro hz
            by_contra hne
            rw [hone hne] at hz
            cases hz
          · exact hblk
        have hclose1 : (deferredPanicClose PanicHandler (streamConnected ws request opts).2).2 = 1 ↔
            ¬ (streamConnected ws request opts).2 = GoExit.blocked := by
          constructor
          · intro h1 hb
            rw [hblk hb] at h1
            cases h1
          · exact hone
        rw [hsc]
        refine ⟨streamConnected_trace_split PanicHandler ws request opts, hshape, hle,
          by rw [hstay]; exact hclose0, by rw [hstay]; exact hclose1, ?_, hzero, ?_⟩
        · intro hs
          have hb := hstay.mp hs
          have hcl : deferredClose ws (streamConnected ws request opts).2 = [] := by
            rw [hb]
            rfl
          have hpc : (deferredPanicClose PanicHandler (streamConnected ws request opts).2).1 =
              [] := by
            rw [hb]
            rfl
          simp only [hcl, hpc, List.append_nil]
          exact hitems hb
        · intro hpre
          apply hone
          have hreads : ∃ ev ∈ ws.reads, ev.stops = true := by
            rcases hpre with h | h | h | h
            · exact absurd h he
            · rw [ho] at h
              cases h
            · exact absurd hd h
            · exact h
          intro hb
          obtain ⟨ev, hev, hstop⟩ := hreads
          have hsil := (hiff.mp hb).2 ev hev
          rw [hsil] at hstop
          cases hstop

/-! ### `DeleteTab` -/

/-- The search answers -1 exactly for a value that is not in the slice. -/
theorem FindStringInSlice_eq_neg_one (slice : List String) (val : String) :
    FindStringInSlice slice val = -1 ↔ val ∉ slice := by
  unfold FindStringInSlice
  by_cases h : val ∈ slice
  · simp only [h, if_true, not_true_eq_false, iff_false]
    omega
  · simp [h]

/-- For a value in the slice the search answers its first index. -/
theorem FindStringInSlice_of_mem (slice : List String) (val : String) (h : val ∈ slice) :
    FindStringInSlice slice val = (slice.indexOf val : Int) := by
  simp [FindStringInSlice, h]

/-- The index arithmetic of line 295, for the tab removed at index `i` of a list of `n + 1`
tabs: the index `i - 1`, or 0 for the first tab. -/
theorem newActiveIndex (i n : Nat) (hi : i ≤ n) :
    (max 0 (min ((i : Int) - 1) ((n : Int) - 1))).toNat = i - 1 := by
  omega

/-- C18: for an existing workspace `ws`, when `tabId` is not in `TabIds` `DeleteTab` fails and
the store is unchanged; when `DeleteTab` succeeds, `tabId` stood at its (first) index `i` of
`TabIds`, the workspace written to the store is `ws` with exactly the entry at `i` removed,
the other entries in their order, and with the returned id as `ActiveTabId`; the returned
id is `ws.ActiveTabId` if `tabId` was not the active tab, and otherwise "" when no tab
remains, the new first tab when `i = 0`, and the tab that stood at index `i - 1` else. -/
theorem DeleteTab_spec {σ : Type} (S : WStore σ) (workspaceId tabId : String)
    (recursive : Bool) (s : σ) (ws : Workspace)
    (hws : S.DBGetWorkspace workspaceId s = some ws) :
    (tabId ∉ ws.TabIds →
        ∃ err, DeleteTab S workspaceId tabId recursive s = (.error err, s)) ∧
      (∀ newActiveTabId s1, DeleteTab S workspaceId tabId recursive s = (.ok newActiveTabId, s1) →
        ∃ (i : Nat) (s0 : σ), i < ws.TabIds.length ∧ ws.TabIds.indexOf tabId = i ∧
          ws.TabIds.getD i "" = tabId ∧
          s1 = deleteTabObjects S tabId (S.DBGetTab tabId s)
            (S.DBUpdateWorkspace
              { ws with TabIds := ws.TabIds.eraseIdx i, ActiveTabId := newActiveTabId } s0) ∧
          newActiveTabId =
            (if ws.ActiveTabId = tabId then
              (if ws.TabIds.eraseIdx i = [] then ""
                else if i = 0 then (ws.TabIds.eraseIdx i).headD ""
                else ws.TabIds.getD (i - 1) "")
              else ws.ActiveTabId)) := by
  constructor
  · intro hmem
    have hfind := (FindStringInSlice_eq_neg_one ws.TabIds tabId).mpr hmem
    exact ⟨"tab " ++ tabId ++ " not found in workspace " ++ workspaceId,
      by simp [DeleteTab, hws, hfind]⟩
  · intro newActiveTabId s1 hok
    by_cases hmem : tabId ∈ ws.TabIds
    · have hfind := FindStringInSlice_of_mem ws.TabIds tabId hmem
      have hlt : ws.TabIds.indexOf tabId < ws.TabIds.length := List.indexOf_lt_length.mpr hmem
      have hne : ¬ ((ws.TabIds.indexOf tabId : Int) = -1) := by omega
      have herase : ws.TabIds.take (ws.TabIds.indexOf tabId) ++
          ws.TabIds.drop (ws.TabIds.indexOf tabId + 1) =
          ws.TabIds.eraseIdx (ws.TabIds.indexOf tabId) :=
        (List.eraseIdx_eq_take_drop_succ ws.TabIds (ws.TabIds.indexOf tabId)).symm
      simp only [DeleteTab, hws, hfind, hne, if_false, Int.toNat_ofNat, herase] at hok
      rcases hblocks : deleteTabBlocks S
          (match S.DBGetTab tabId s with
            | some tab => tab.BlockIds
            | none => []) s with ⟨berr, s0⟩
      rw [hblocks] at hok
      cases berr with
      | some err => simp at hok
      | none =>
        simp only [Prod.mk.injEq, Except.ok.injEq] at hok
        obtain ⟨hactive, hstate⟩ := hok
        have hget : ws.TabIds.getD (ws.TabIds.indexOf tabId) "" = tabId := by
          simp [List.getD_eq_getElem?_getD, List.getElem?_eq_getElem hlt, List.getElem_indexOf hlt]
        have hlen : (ws.TabIds.eraseIdx (ws.TabIds.indexOf tabId)).length =
            ws.TabIds.length - 1 := List.length_eraseIdx_of_lt hlt
        have hformula : newActiveTabId =
            (if ws.ActiveTabId = tabId then
              (if ws.TabIds.eraseIdx (ws.TabIds.indexOf tabId) = [] then ""
                else if ws.TabIds.indexOf tabId = 0 then
                  (ws.TabIds.eraseIdx (ws.TabIds.indexOf tabId)).headD ""
                else ws.TabIds.getD (ws.TabIds.indexOf tabId - 1) "")
              else ws.ActiveTabId) := by
          rw [← hactive]
          by_cases hact : ws.ActiveTabId = tabId
          · simp only [hact, if_true]
            by_cases hnil : ws.TabIds.eraseIdx (ws.TabIds.indexOf tabId) = []
            · simp [hnil]
            · have hpos : 0 < (ws.TabIds.eraseIdx (ws.TabIds.indexOf tabId)).length :=
                List.length_pos.mpr hnil
              have hidx := newActiveIndex (ws.TabIds.indexOf tabId)
                (ws.TabIds.eraseIdx (ws.TabIds.indexOf tabId)).length (by omega)
              simp only [hnil, if_false, gt_iff_lt, hpos, if_true, hidx]
              by_cases hzero : ws.TabIds.indexOf tabId = 0
              · simp only [hzero, if_true]
                cases hl : ws.TabIds.eraseIdx 0 with
                | nil => simp
                | cons a rest => simp
              · simp only [hzero, if_false]
                simp only [List.getD_eq_getElem?_getD]
                rw [List.getElem?_eraseIdx_of_lt _ _ _ (by omega)]
          · simp [hact]
        exact ⟨ws.TabIds.indexOf tabId, s0, hlt, rfl, hget, by rw [← hstate, hactive],
          hformula⟩
    · have hfind := (FindStringInSlice_eq_neg_one ws.TabIds tabId).mpr hmem
      simp [DeleteTab, hws, hfind] at hok

/-- Witness for C18: deleting the active tab "t2" (index 1) of `sampleWorkspace` in the
in-memory store makes "t1" the active tab and leaves the tabs "t1", "t3"; deleting a tab that
is not in the workspace fails and leaves the store as it was. -/
theorem DeleteTab_spec_witness :
    (∃ (i : Nat) (s0 : MemStore), i < sampleWorkspace.TabIds.length ∧
      sampleWorkspace.TabIds.indexOf "t2" = i ∧ sampleWorkspace.TabIds.getD i "" = "t2" ∧
      (DeleteTab memStore "ws1" "t2" false (sampleStore none)).2 =
        deleteTabObjects memStore "t2" (memStore.DBGetTab "t2" (sampleStore none))
          (memStore.DBUpdateWorkspace
            { sampleWorkspace with TabIds := sampleWorkspace.TabIds.eraseIdx i,
                                   ActiveTabId := "t1" } s0) ∧
      "t1" =
        (if sampleWorkspace.ActiveTabId = "t2" then
          (if sampleWorkspace.TabIds.eraseIdx i = [] then ""
            else if i = 0 then (sampleWorkspace.TabIds.eraseIdx i).headD ""
            else sampleWorkspace.TabIds.getD (i - 1) "")
          else sampleWorkspace.ActiveTabId)) ∧
    memStore.DBGetWorkspace "ws1" (DeleteTab memStore "ws1" "t2" false (sampleStore none)).2 =
      some { sampleWorkspace with TabIds := ["t1", "t3"], ActiveTabId := "t1" } ∧
    (∃ err, DeleteTab memStore "ws1" "t9" false (sampleStore none) =
      (.error err, sampleStore none)) :=
  ⟨(DeleteTab_spec memStore "ws1" "t2" false (sampleStore none) sampleWorkspace rfl).2 "t1"
      (DeleteTab memStore "ws1" "t2" false (sampleStore none)).2 rfl,
    by decide,
    (DeleteTab_spec memStore "ws1" "t9" false (sampleStore none) sampleWorkspace rfl).1
      (by decide)⟩

/-! ### `DeleteWorkspace` -/

/-- C19 (the code at the failing input): the workspace "ws1" is shown in window "win1", there
is no other workspace, and `CloseWindow` fails. With `force` the tabs and the workspace
record are deleted, and then `DeleteWorkspace` returns `false` with the error of
`CloseWindow`: the result is `false` although the record is gone from the store. -/
theorem DeleteWorkspace_false_after_delete :
    (DeleteWorkspace memStore "ws1" true (sampleStore (some "database is locked"))).1 =
      (false, "", some "error closing window: database is locked") ∧
    memStore.DBGetWorkspace "ws1" (sampleStore (some "database is locked")) =
      some sampleWorkspace ∧
    memStore.DBGetWorkspace "ws1"
      (DeleteWorkspace memStore "ws1" true (sampleStore (some "database is locked"))).2 = none := by
  decide

/-- The other outcomes of `DeleteWorkspace` on the in-memory store: a forced delete whose
window is closed returns `true`; a missing workspace returns `true` with an error. -/
theorem DeleteWorkspace_examples :
    (DeleteWorkspace memStore "ws1" true (sampleStore none)).1 = (true, "", none) ∧
    memStore.DBGetWorkspace "ws1"
      (DeleteWorkspace memStore "ws1" true (sampleStore none)).2 = none ∧
    (DeleteWorkspace memStore "ws9" true (sampleStore none)).1 =
      (true, "", some "workspace already deleted not found") := by
  decide

/-- The deleting part of `DeleteWorkspace` never answers `(false, "", nil)`, and when the
record is deleted the store is left as `DBDelete` left it, or as `CloseWindow` left it
after that. -/
theorem deleteWorkspaceRecord_spec {σ : Type} (S : WStore σ) (workspaceId : String)
    (workspaces : List WorkspaceListEntry) (s : σ) :
    (deleteWorkspaceRecord S workspaceId workspaces s).1 ≠ (false, "", none) ∧
      (∀ s1, S.DBDelete OType.Workspace workspaceId s = (none, s1) →
        (deleteWorkspaceRecord S workspaceId workspaces s).2 = s1 ∨
          (deleteWorkspaceRecord S workspaceId workspaces s).2 =
            (S.CloseWindow (S.DBFindWindowForWorkspaceId workspaceId s) false s1).2) := by
  unfold deleteWorkspaceRecord
  simp only
  rcases hdel : S.DBDelete OType.Workspace workspaceId s with ⟨derr, s1⟩
  cases derr with
  | some err => simp
  | none =>
    by_cases hwin : S.DBFindWindowForWorkspaceId workspaceId s = ""
    · simp [hwin]
    · by_cases hun : findUnclaimedWorkspace workspaceId workspaces "" false = ""
      · rcases hclose : S.CloseWindow (S.DBFindWindowForWorkspaceId workspaceId s) false s1
          with ⟨cerr, s2⟩
        cases cerr <;> simp [hwin, hun, hclose]
      · simp [hwin, hun]

/-- Counterexample for C20: `sampleWorkspace` is named, has an icon and three tabs, and
`force` is false, but the workspace list cannot be retrieved: `DeleteWorkspace` returns
`(false, "", error)` and not `(false, "", nil)`. -/
theorem DeleteWorkspace_list_error :
    memStoreListFails.DBMustGetWorkspace "ws1" (sampleStore none) =
      MustGet.found sampleWorkspace ∧
    (sampleWorkspace.Name ≠ "" ∧ sampleWorkspace.Icon ≠ "" ∧ sampleWorkspace.TabIds ≠ []) ∧
    DeleteWorkspace memStoreListFails "ws1" false (sampleStore none) =
      ((false, "", some "error retrieving workspaceList: database is locked"),
        sampleStore none) ∧
    (DeleteWorkspace memStoreListFails "ws1" false (sampleStore none)).1 ≠ (false, "", none) := by
  decide

/-- C20 (amended): for an existing workspace, `DeleteWorkspace` returns `(false, "", nil)`
only if `force` is false, name and icon are non-empty and there is at least one tab, and
then the store is unchanged; when the workspace list cannot be retrieved it returns
`(false, "", error)` and changes nothing; when the list can be retrieved it declines
(returns `(false, "", nil)`, store unchanged) if and only if that condition holds, and
otherwise (with `force`, without a name or an icon, or without tabs) it deletes: once the
tabs are closed and `DBDelete` of the record succeeds, the store is left without the
record (as `DBDelete` left it, or as `CloseWindow` left it after that). -/
theorem DeleteWorkspace_declines_iff {σ : Type} (S : WStore σ) (workspaceId : String)
    (force : Bool) (s : σ) (workspace : Workspace)
    (hget : S.DBMustGetWorkspace workspaceId s = MustGet.found workspace) :
    ((DeleteWorkspace S workspaceId force s).1 = (false, "", none) →
        declinesDelete workspace force ∧ (DeleteWorkspace S workspaceId force s).2 = s) ∧
      (∀ err, ListWorkspaces S s = .error err →
        DeleteWorkspace S workspaceId force s =
          ((false, "", some ("error retrieving workspaceList: " ++ err)), s)) ∧
      (∀ workspaces, ListWorkspaces S s = .ok workspaces →
        ((DeleteWorkspace S workspaceId force s).1 = (false, "", none) ↔
          declinesDelete workspace force) ∧
        (declinesDelete workspace force →
          DeleteWorkspace S workspaceId force s = ((false, "", none), s)) ∧
        (¬ declinesDelete workspace force →
          ∀ s1 s2, deleteWorkspaceTabs S workspaceId workspace.TabIds s = (none, s1) →
            S.DBDelete OType.Workspace workspaceId s1 = (none, s2) →
            (DeleteWorkspace S workspaceId force s).2 = s2 ∨
              (DeleteWorkspace S workspaceId force s).2 =
                (S.CloseWindow (S.DBFindWindowForWorkspaceId workspaceId s1) false s2).2)) := by
  have hcond : (workspace.Name ≠ "" ∧ workspace.Icon ≠ "" ∧ force = false ∧
      workspace.TabIds.length > 0) ↔ declinesDelete workspace force := by
    unfold declinesDelete
    rw [gt_iff_lt, List.length_pos]
    tauto
  have hlisterr : ∀ err, ListWorkspaces S s = .error err →
      DeleteWorkspace S workspaceId force s =
        ((false, "", some ("error retrieving workspaceList: " ++ err)), s) := by
    intro err herr
    simp [DeleteWorkspace, hget, herr]
  have hlistok : ∀ workspaces, ListWorkspaces S s = .ok workspaces →
      (declinesDelete workspace force →
        DeleteWorkspace S workspaceId force s = ((false, "", none), s)) ∧
      (¬ declinesDelete workspace force →
        DeleteWorkspace S workspaceId force s =
          match deleteWorkspaceTabs S workspaceId workspace.TabIds s with
          | (some err, s1) => ((false, "", some err), s1)
          | (none, s1) => deleteWorkspaceRecord S workspaceId workspaces s1) := by
    intro workspaces hok
    constructor
    · intro hd
      have := hcond.mpr hd
      simp [DeleteWorkspace, hget, hok, this]
    · intro hd
      have hn : ¬ (workspace.Name ≠ "" ∧ workspace.Icon ≠ "" ∧ force = false ∧
          workspace.TabIds.length > 0) := fun h => hd (hcond.mp h)
      simp only [DeleteWorkspace, hget, hok, hn, if_false]
  have hnotdecl : ∀ workspaces, ListWorkspaces S s = .ok workspaces →
      ¬ declinesDelete workspace force →
      (DeleteWorkspace S workspaceId force s).1 ≠ (false, "", none) := by
    intro workspaces hok hd
    rw [(hlistok workspaces hok).2 hd]
    rcases htabs : deleteWorkspaceTabs S workspaceId workspace.TabIds s with ⟨terr, s1⟩
    cases terr with
    | some err => simp
    | none => exact (deleteWorkspaceRecord_spec S workspaceId workspaces s1).1
  refine ⟨?_, hlisterr, ?_⟩
  · intro hres
    cases hl : ListWorkspaces S s with
    | error err =>
      rw [hlisterr err hl] at hres
      simp at hres
    | ok workspaces =>
      by_cases hd : declinesDelete workspace force
      · exact ⟨hd, by rw [(hlistok workspaces hl).1 hd]⟩
      · exact absurd hres (hnotdecl workspaces hl hd)
  · intro workspaces hok
    refine ⟨⟨?_, ?_⟩, (hlistok workspaces hok).1, ?_⟩
    · intro hres
      by_contra hd
      exact hnotdecl workspaces hok hd hres
    · intro hd
      rw [(hlistok workspaces hok).1 hd]
    · intro hd s1 s2 htabs hdel
      rw [(hlistok workspaces hok).2 hd, htabs]
      exact (deleteWorkspaceRecord_spec S workspaceId workspaces s1).2 s2 hdel

/-- Witness for C20 (amended): in the in-memory store `sampleWorkspace` (named, with tabs) is
left alone without `force`, and a forced delete removes the record. -/
theorem DeleteWorkspace_declines_iff_witness :
    ((DeleteWorkspace memStore "ws1" false (sampleStore none)).1 = (false, "", none) ↔
      declinesDelete sampleWorkspace false) ∧
    DeleteWorkspace memStore "ws1" false (sampleStore none) =
      ((false, "", none), sampleStore none) ∧
    memStore.DBGetWorkspace "ws1"
      (DeleteWorkspace memStore "ws1" true (sampleStore none)).2 = none :=
  have h := (DeleteWorkspace_declines_iff memStore "ws1" false (sampleStore none)
    sampleWorkspace rfl).2.2 ((ListWorkspaces memStore (sampleStore none)).toOption.getD []) rfl
  ⟨h.1, h.2.1 ⟨rfl, by decide, by decide, by decide⟩, by decide⟩

/-! ### `cleanPath` -/

/-- The parts kept by `cleanPath` for the path "a/../.b": the part "a" is dropped again by
"..", and ".b" is kept. -/
theorem cleanPathLoop_example :
    cleanPathLoop (splitSlash "a/../.b".data) [] = [".b".data] ∧
      cleanPathLoop (splitSlash "a/../~b".data) [] = ["~b".data] ∧
      cleanPathLoop (splitSlash "docs/./x/../y".data) [] = ["docs".data, "y".data] := by
  decide

/-- C24 (the code at the failing input): `cleanPath` accepts "a/../.b" and "/a/../~b", whose
first character is neither '~' nor '.', and returns what `fspath.Join` makes of the single
part ".b" (of "~b"); with `fspath.Join` as Go `path.Join` the returned paths are ".b" and
"~b", which start with '.' and with '~'. -/
theorem cleanPath_returns_dot_path :
    (∀ Join : List (List Char) → List Char,
      cleanPath Join "a/../.b" = .ok (String.mk (Join [".b".data])) ∧
        cleanPath Join "/a/../~b" = .ok (String.mk (Join ["~b".data]))) ∧
    cleanPath fspathJoin "a/../.b" = .ok ".b" ∧
    cleanPath fspathJoin "/a/../~b" = .ok "~b" ∧
    cleanPath fspathJoin ".b" = .error "wavefile path cannot start with ~, ., or .." ∧
    cleanPath fspathJoin "docs/./x/../y" = .ok "docs/y" :=
  ⟨fun _ => ⟨rfl, rfl⟩, rfl, rfl, rfl, rfl⟩

/-! ### `checkCloseOnExit` -/

/-- The conversion `float64(n)` keeps a negative integer negative. -/
theorem float64OfInt_neg (n : Int) (h : n < 0) : float64OfInt n < 0 := by
  unfold float64OfInt
  simp only
  split
  · exact h
  · rename_i hbig
    have ha : n.natAbs ≠ 0 := by omega
    have hpow : 2 ^ (n.natAbs.log2 - 52) ≤ n.natAbs :=
      le_trans (Nat.pow_le_pow_right (by decide) (Nat.sub_le _ _)) (Nat.log2_self_le ha)
    have hq : 1 ≤ n.natAbs / 2 ^ (n.natAbs.log2 - 52) :=
      (Nat.one_le_div_iff (Nat.pos_pow_of_pos _ (by decide))).mpr hpow
    have hpos : 0 < 2 ^ (n.natAbs.log2 - 52) := Nat.pos_pow_of_pos _ (by decide)
    have hprod : 0 < (if 2 ^ (n.natAbs.log2 - 52 - 1) < n.natAbs % 2 ^ (n.natAbs.log2 - 52) ∨
        (n.natAbs % 2 ^ (n.natAbs.log2 - 52) = 2 ^ (n.natAbs.log2 - 52 - 1) ∧
          n.natAbs / 2 ^ (n.natAbs.log2 - 52) % 2 = 1)
        then n.natAbs / 2 ^ (n.natAbs.log2 - 52) + 1
        else n.natAbs / 2 ^ (n.natAbs.log2 - 52)) * 2 ^ (n.natAbs.log2 - 52) := by
      apply Nat.mul_pos _ hpos
      split <;> omega
    omega

/-- The conversion `float64(n)` is exact for an integer below `2 ^ 53` in magnitude. -/
theorem float64OfInt_exact (n : Int) (h : n.natAbs < 2 ^ 53) : float64OfInt n = n := by
  unfold float64OfInt
  simp only
  rw [if_pos h]

/-- The close flags that `runRun` writes: the force flag is set exactly with `-X`, the
plain flag exactly with `-x` and without `-X`, and the delay is the `--delay` value as a
`float64`. -/
theorem runCreateMeta_close_flags (f : RunFlags) :
    (runCreateMeta f).GetBool MetaKey_CmdCloseOnExitForce false = f.forceExit ∧
      (runCreateMeta f).GetBool MetaKey_CmdCloseOnExit false =
        (f.exit && !f.forceExit) ∧
      (runCreateMeta f).GetFloat MetaKey_CmdCloseOnExitDelay 2000 =
        float64OfInt f.delayMs := by
  obtain ⟨exit, forceExit, delayMs, paused, appendOutput, shellCmd, cmdArgs, useShell, cwd,
    conn⟩ := f
  by_cases hconn : conn = "" <;> cases exit <;> cases forceExit <;> cases paused <;>
    cases appendOutput <;>
    simp [runCreateMeta, MetaMapType.set, MetaMapType.GetBool, MetaMapType.GetFloat,
      List.lookup, List.filter, MetaKey_View, MetaKey_Controller, MetaKey_Connection,
      MetaKey_Cmd, MetaKey_CmdArgs, MetaKey_CmdShell, MetaKey_CmdCwd, MetaKey_CmdClearOnStart,
      MetaKey_CmdRunOnStart, MetaKey_CmdRunOnce, MetaKey_CmdCloseOnExit,
      MetaKey_CmdCloseOnExitForce, MetaKey_CmdCloseOnExitDelay, hconn]

/-- The duration slept for a close delay: 0 for a negative delay, the delay in milliseconds
for a delay from 0 to 9223372036854. -/
theorem closeSleep_spec (delayMs : Int) :
    (delayMs < 0 → wrapInt64 (int64OfFloat (max 0 delayMs) * Millisecond) = 0) ∧
      (0 ≤ delayMs → delayMs ≤ 9223372036854 →
        wrapInt64 (int64OfFloat (max 0 delayMs) * Millisecond) = delayMs * Millisecond) := by
  constructor
  · intro h
    rw [max_eq_left (le_of_lt h)]
    decide
  · intro h1 h2
    rw [max_eq_right h1]
    have hin : int64OfFloat delayMs = delayMs := by
      unfold int64OfFloat
      rw [if_pos ⟨by omega, by omega⟩]
    rw [hin]
    unfold Millisecond
    exact wrapInt64_id _ (by omega) (by omega)

/-- What `checkCloseOnExit` does for a block found in the store, in terms of its metadata. -/
theorem checkCloseOnExit_eq (DBMustGet : String → Except String Block) (blockId : String)
    (exitCode : Int) (blockData : Block) (hget : DBMustGet blockId = .ok blockData) :
    checkCloseOnExit DBMustGet blockId exitCode =
      if blockData.Meta.GetBool MetaKey_CmdCloseOnExitForce false = true ∨
          (blockData.Meta.GetBool MetaKey_CmdCloseOnExit false = true ∧ exitCode = 0) then
        [ExitEffect.sleep (wrapInt64 (int64OfFloat
            (max 0 (blockData.Meta.GetFloat MetaKey_CmdCloseOnExitDelay 2000)) * Millisecond)),
          ExitEffect.deleteBlock blockId]
      else [] := by
  have hmax : ∀ d : Int, (if d < 0 then 0 else d) = max 0 d := by
    intro d
    by_cases h : d < 0
    · simp [h, max_eq_left (le_of_lt h)]
    · simp [h, max_eq_right (not_lt.mp h)]
  simp only [checkCloseOnExit, hget, hmax]
  cases blockData.Meta.GetBool MetaKey_CmdCloseOnExitForce false <;>
    cases blockData.Meta.GetBool MetaKey_CmdCloseOnExit false <;>
    by_cases he : exitCode = 0 <;> simp [he]

/-- The 64-bit arithmetic of the sleep at its edge: a delay of 9223372036854 ms is slept in
full, a delay of 9223372036855 ms wraps to a negative duration, for which `time.Sleep`
returns at once. -/
theorem checkCloseOnExit_wrap_example :
    checkCloseOnExit
        (lookupBlockB1 [(MetaKey_CmdCloseOnExitForce, MetaValue.bool true),
          (MetaKey_CmdCloseOnExitDelay, MetaValue.num 9223372036854)]) "b1" 1 =
      [ExitEffect.sleep 9223372036854000000, ExitEffect.deleteBlock "b1"] ∧
    checkCloseOnExit
        (lookupBlockB1 [(MetaKey_CmdCloseOnExitForce, MetaValue.bool true),
          (MetaKey_CmdCloseOnExitDelay, MetaValue.num 9223372036855)]) "b1" 1 =
      [ExitEffect.sleep (-9223372036854551616), ExitEffect.deleteBlock "b1"] := by
  decide

/-- C23: for a block that still exists when its process exits with code `e`,
`checkCloseOnExit` sends the delete command for the block if and only if
`cmd:closeonexitforce` is true, or `cmd:closeonexit` is true and `e = 0`; it then sleeps
first, for `time.Duration(delay) * time.Millisecond` with the delay first raised to 0 when
negative, and otherwise it does nothing. A negative delay gives a sleep of 0; a delay from 0
to 9223372036854 gives a sleep of that many milliseconds. For a block whose metadata `runRun`
wrote: with `-X` the block is closed whatever the exit code, with `-x` and without `-X` it
is closed exactly when the exit code is 0, so it stays open when the command failed, and a
negative `--delay` gives a sleep of 0. -/
theorem checkCloseOnExit_spec (DBMustGet : String → Except String Block) (blockId : String)
    (exitCode : Int) (blockData : Block) (hget : DBMustGet blockId = .ok blockData) :
    (ExitEffect.deleteBlock blockId ∈ checkCloseOnExit DBMustGet blockId exitCode ↔
        (blockData.Meta.GetBool MetaKey_CmdCloseOnExitForce false = true ∨
          (blockData.Meta.GetBool MetaKey_CmdCloseOnExit false = true ∧ exitCode = 0))) ∧
      (checkCloseOnExit DBMustGet blockId exitCode = [] ∨
        checkCloseOnExit DBMustGet blockId exitCode =
          [ExitEffect.sleep (wrapInt64 (int64OfFloat
              (max 0 (blockData.Meta.GetFloat MetaKey_CmdCloseOnExitDelay 2000)) *
                Millisecond)),
            ExitEffect.deleteBlock blockId]) ∧
      (blockData.Meta.GetFloat MetaKey_CmdCloseOnExitDelay 2000 < 0 →
        ∀ d, ExitEffect.sleep d ∈ checkCloseOnExit DBMustGet blockId exitCode → d = 0) ∧
      (0 ≤ blockData.Meta.GetFloat MetaKey_CmdCloseOnExitDelay 2000 →
        blockData.Meta.GetFloat MetaKey_CmdCloseOnExitDelay 2000 ≤ 9223372036854 →
        ∀ d, ExitEffect.sleep d ∈ checkCloseOnExit DBMustGet blockId exitCode →
          d = blockData.Meta.GetFloat MetaKey_CmdCloseOnExitDelay 2000 * Millisecond) ∧
      (∀ f : RunFlags, blockData.Meta = runCreateMeta f →
        (f.forceExit = true →
          ExitEffect.deleteBlock blockId ∈ checkCloseOnExit DBMustGet blockId exitCode) ∧
        (f.exit = true → f.forceExit = false →
          (ExitEffect.deleteBlock blockId ∈ checkCloseOnExit DBMustGet blockId exitCode ↔
            exitCode = 0) ∧
          (exitCode ≠ 0 → checkCloseOnExit DBMustGet blockId exitCode = [])) ∧
        (f.exit = false → f.forceExit = false →
          checkCloseOnExit DBMustGet blockId exitCode = []) ∧
        (f.delayMs < 0 →
          ∀ d, ExitEffect.sleep d ∈ checkCloseOnExit DBMustGet blockId exitCode → d = 0)) := by
  have heq := checkCloseOnExit_eq DBMustGet blockId exitCode blockData hget
  have hsleep := closeSleep_spec (blockData.Meta.GetFloat MetaKey_CmdCloseOnExitDelay 2000)
  have hmem : ∀ d, ExitEffect.sleep d ∈ checkCloseOnExit DBMustGet blockId exitCode →
      d = wrapInt64 (int64OfFloat
        (max 0 (blockData.Meta.GetFloat MetaKey_CmdCloseOnExitDelay 2000)) * Millisecond) := by
    intro d hd
    rw [heq] at hd
    split at hd
    · simp at hd
      exact hd
    · cases hd
  have hnegflag : ∀ f : RunFlags, blockData.Meta = runCreateMeta f → f.delayMs < 0 →
      ∀ d, ExitEffect.sleep d ∈ checkCloseOnExit DBMustGet blockId exitCode → d = 0 := by
    intro f hmeta hneg d hd
    have hfl := (runCreateMeta_close_flags f).2.2
    rw [← hmeta] at hfl
    rw [hmem d hd]
    exact hsleep.1 (by rw [hfl]; exact float64OfInt_neg f.delayMs hneg)
  have hnegd : blockData.Meta.GetFloat MetaKey_CmdCloseOnExitDelay 2000 < 0 →
      ∀ d, ExitEffect.sleep d ∈ checkCloseOnExit DBMustGet blockId exitCode → d = 0 := by
    intro hneg d hd
    rw [hmem d hd]
    exact hsleep.1 hneg
  have hsmall : 0 ≤ blockData.Meta.GetFloat MetaKey_CmdCloseOnExitDelay 2000 →
      blockData.Meta.GetFloat MetaKey_CmdCloseOnExitDelay 2000 ≤ 9223372036854 →
      ∀ d, ExitEffect.sleep d ∈ checkCloseOnExit DBMustGet blockId exitCode →
        d = blockData.Meta.GetFloat MetaKey_CmdCloseOnExitDelay 2000 * Millisecond := by
    intro h1 h2 d hd
    rw [hmem d hd]
    exact hsleep.2 h1 h2
  by_cases hc : blockData.Meta.GetBool MetaKey_CmdCloseOnExitForce false = true ∨
      (blockData.Meta.GetBool MetaKey_CmdCloseOnExit false = true ∧ exitCode = 0)
  · rw [if_pos hc] at heq
    refine ⟨by simp [heq, hc], Or.inr heq, hnegd, hsmall, ?_⟩
    intro f hmeta
    obtain ⟨hf, hx, _⟩ := runCreateMeta_close_flags f
    rw [← hmeta] at hf hx
    refine ⟨fun _ => by simp [heq], ?_, ?_, hnegflag f hmeta⟩
    · intro hexit hforce
      have hzero : exitCode = 0 := by
        rcases hc with h | h
        · rw [hf, hforce] at h
          cases h
        · exact h.2
      refine ⟨⟨fun _ => hzero, fun _ => ?_⟩, fun hne => absurd hzero hne⟩
      rw [heq]
      simp
    · intro hexit hforce
      exfalso
      rcases hc with h | h
      · rw [hf, hforce] at h
        cases h
      · rw [hx, hexit, hforce] at h
        simp at h
  · rw [if_neg hc] at heq
    refine ⟨by simp [heq, hc], Or.inl heq, hnegd, hsmall, ?_⟩
    intro f hmeta
    obtain ⟨hf, hx, _⟩ := runCreateMeta_close_flags f
    rw [← hmeta] at hf hx
    refine ⟨?_, ?_, fun _ _ => heq, hnegflag f hmeta⟩
    · intro hforce
      exfalso
      apply hc
      left
      rw [hf, hforce]
    · intro hexit hforce
      have hne : exitCode ≠ 0 := by
        intro hzero
        apply hc
        right
        rw [hx, hexit, hforce]
        exact ⟨rfl, hzero⟩
      refine ⟨⟨?_, fun hzero => absurd hzero hne⟩, fun _ => heq⟩
      intro hmem2
      rw [heq] at hmem2
      cases hmem2

/-- Witness for C23: the block "b1" was created by `wsh run -x --delay -5 -- make`. When the
command exits with code 0 the block is deleted without delay; when it exits with code 2 the
block stays. -/
theorem checkCloseOnExit_spec_witness :
    (ExitEffect.deleteBlock "b1" ∈ checkCloseOnExit (lookupBlockB1 (runCreateMeta flagsExit))
        "b1" 0 ↔
      ((runCreateMeta flagsExit).GetBool MetaKey_CmdCloseOnExitForce false = true ∨
        ((runCreateMeta flagsExit).GetBool MetaKey_CmdCloseOnExit false = true ∧
          (0 : Int) = 0))) ∧
    checkCloseOnExit (lookupBlockB1 (runCreateMeta flagsExit)) "b1" 0 =
      [ExitEffect.sleep 0, ExitEffect.deleteBlock "b1"] ∧
    checkCloseOnExit (lookupBlockB1 (runCreateMeta flagsExit)) "b1" 2 = [] ∧
    checkCloseOnExit (lookupBlockB1 (runCreateMeta { flagsExit with forceExit := true })) "b1" 2 =
      [ExitEffect.sleep 0, ExitEffect.deleteBlock "b1"] ∧
    checkCloseOnExit (lookupBlockB1 (runCreateMeta { flagsExit with delayMs := 1500 })) "b1" 0 =
      [ExitEffect.sleep 1500000000, ExitEffect.deleteBlock "b1"] :=
  ⟨(checkCloseOnExit_spec (lookupBlockB1 (runCreateMeta flagsExit)) "b1" 0
      { OID := "b1", ParentORef := "tab:t1", Meta := runCreateMeta flagsExit,
        SubBlockIds := [] } rfl).1,
    by decide, by decide, by decide, by decide⟩

/-! ### `UpdateWorkspace` -/

/-- The default name is not empty. -/
theorem defaultName_ne_empty (idPrefix : String) :
    "New Workspace (" ++ idPrefix ++ ")" ≠ "" := by
  intro h
  have hlen := congrArg String.length h
  simp [String.length_append] at hlen
  exact absurd hlen.1.1 (by decide)

/-- Every default colour is a non-empty string. -/
theorem defaultColor_ne_empty (n : Nat) :
    WorkspaceColors.getD (n % WorkspaceColors.length) "" ≠ "" := by
  have hlt : n % WorkspaceColors.length < 7 := Nat.mod_lt _ (by decide)
  generalize n % WorkspaceColors.length = k at hlt
  interval_cases k <;> decide

/-- The fields and the flag computed by lines 83-108. -/
theorem updateWorkspaceFields_spec (ws : Workspace) (name icon color : String)
    (applyDefaults : Bool) (wsListLen : Nat) :
    (updateWorkspaceFields ws name icon color applyDefaults wsListLen).1 =
        { ws with
          Name := if name ≠ "" then name
            else if applyDefaults = true ∧ ws.Name = "" then
              "New Workspace (" ++ String.mk (goSlicePrefix ws.OID.data 5) ++ ")"
            else ws.Name,
          Icon := if icon ≠ "" then icon
            else if applyDefaults = true ∧ ws.Icon = "" then WorkspaceIcons.getD 0 ""
            else ws.Icon,
          Color := if color ≠ "" then color
            else if applyDefaults = true ∧ ws.Color = "" then
              WorkspaceColors.getD (wsListLen % WorkspaceColors.length) ""
            else ws.Color } ∧
      ((updateWorkspaceFields ws name icon color applyDefaults wsListLen).2 = true ↔
        setsUpdated ws name icon color applyDefaults) := by
  obtain ⟨oid, wname, wicon, wcolor, tabIds, activeTabId⟩ := ws
  unfold updateWorkspaceFields setsUpdated
  by_cases hn : name = "" <;> by_cases hi : icon = "" <;> by_cases hc : color = "" <;>
    by_cases hwn : wname = "" <;> by_cases hwi : wicon = "" <;>
    by_cases hwc : wcolor = "" <;> cases applyDefaults <;>
    simp [hn, hi, hc, hwn, hwi, hwc]

/-- One field of the workspace after lines 83-108 differs from its old value exactly when a
non-empty value other than the old one is given, or the default replaces an empty value. -/
theorem updatedField_ne (given current dflt : String) (applyDefaults : Bool)
    (hd : dflt ≠ "") :
    (if given ≠ "" then given
        else if applyDefaults = true ∧ current = "" then dflt else current) ≠ current ↔
      ((given ≠ "" ∧ given ≠ current) ∨ (applyDefaults = true ∧ given = "" ∧ current = "")) := by
  have hd2 : ¬ ("" = dflt) := fun h => hd h.symm
  by_cases hg : given = "" <;> by_cases hc : current = "" <;> cases applyDefaults <;>
    simp [hg, hc, hd, hd2]

/-- The default icon is a non-empty string. -/
theorem defaultIcon_ne_empty : WorkspaceIcons.getD 0 "" ≠ "" := by decide

/-- Three per-field equivalences combined into one about any of the three fields. -/
theorem anyFieldChanged_iff {A B C a1 a2 b1 b2 c1 c2 d : Prop}
    (hA : A ↔ (a1 ∨ (d ∧ a2))) (hB : B ↔ (b1 ∨ (d ∧ b2))) (hC : C ↔ (c1 ∨ (d ∧ c2))) :
    (A ∨ B ∨ C) ↔ (a1 ∨ b1 ∨ c1 ∨ (d ∧ (a2 ∨ b2 ∨ c2))) := by
  rw [hA, hB, hC]
  constructor
  · rintro ((h | ⟨hd, h⟩) | (h | ⟨hd, h⟩) | (h | ⟨hd, h⟩))
    · exact Or.inl h
    · exact Or.inr (Or.inr (Or.inr ⟨hd, Or.inl h⟩))
    · exact Or.inr (Or.inl h)
    · exact Or.inr (Or.inr (Or.inr ⟨hd, Or.inr (Or.inl h)⟩))
    · exact Or.inr (Or.inr (Or.inl h))
    · exact Or.inr (Or.inr (Or.inr ⟨hd, Or.inr (Or.inr h)⟩))
  · rintro (h | h | h | ⟨hd, h | h | h⟩)
    · exact Or.inl (Or.inl h)
    · exact Or.inr (Or.inl (Or.inl h))
    · exact Or.inr (Or.inr (Or.inl h))
    · exact Or.inl (Or.inr ⟨hd, h⟩)
    · exact Or.inr (Or.inl (Or.inr ⟨hd, h⟩))
    · exact Or.inr (Or.inr (Or.inr ⟨hd, h⟩))

/-- A change of name, icon or colour is one of the cases in which `updated` is set. -/
theorem setsUpdated_of_changed (ws : Workspace) (name icon color : String)
    (applyDefaults : Bool)
    (h : (name ≠ "" ∧ name ≠ ws.Name) ∨ (icon ≠ "" ∧ icon ≠ ws.Icon) ∨
      (color ≠ "" ∧ color ≠ ws.Color) ∨
      (applyDefaults = true ∧
        ((name = "" ∧ ws.Name = "") ∨ (icon = "" ∧ ws.Icon = "") ∨
          (color = "" ∧ ws.Color = "")))) :
    setsUpdated ws name icon color applyDefaults := by
  unfold setsUpdated
  rcases h with h | h | h | ⟨hd, h | h | h⟩
  · exact Or.inl h.1
  · exact Or.inr (Or.inl h.1)
  · exact Or.inr (Or.inr (Or.inl h.1))
  · exact Or.inr (Or.inr (Or.inr ⟨hd, Or.inl h.2⟩))
  · exact Or.inr (Or.inr (Or.inr ⟨hd, Or.inr (Or.inl h.2)⟩))
  · exact Or.inr (Or.inr (Or.inr ⟨hd, Or.inr (Or.inr h.2)⟩))

/-- What a successful `UpdateWorkspace` returns and leaves in the store, in terms of
`updateWorkspaceFields`. -/
theorem UpdateWorkspace_ok {σ : Type} (S : WStore σ) (workspaceId name icon color : String)
    (applyDefaults : Bool) (s : σ) (ws ws1 : Workspace) (updated : Bool)
    (hget : S.DBMustGetWorkspace workspaceId s = MustGet.found ws)
    (hres : (UpdateWorkspace S workspaceId name icon color applyDefaults s).1 =
      .ok (ws1, updated)) :
    ∃ wsListLen, (ws1, updated) =
        updateWorkspaceFields ws name icon color applyDefaults wsListLen ∧
      (UpdateWorkspace S workspaceId name icon color applyDefaults s).2 =
        if updated = true then S.DBUpdateWorkspace ws1 s else s := by
  simp only [UpdateWorkspace, hget] at hres ⊢
  split at hres
  · cases hres
  · rename_i hguard
    rw [if_neg hguard]
    split at hres
    · rename_i hup
      simp only [Except.ok.injEq] at hres
      refine ⟨_, hres.symm, ?_⟩
      rw [if_pos hup]
      have h2 := congrArg Prod.snd hres
      have h1 := congrArg Prod.fst hres
      simp only at h1 h2
      rw [← h2, hup, if_pos rfl, h1]
    · rename_i hup
      simp only [Except.ok.injEq] at hres
      refine ⟨_, hres.symm, ?_⟩
      rw [if_neg hup]
      have h2 := congrArg Prod.snd hres
      simp only at h2
      rw [← h2, if_neg hup]

/-- Counterexample for C21: `sampleWorkspace` is named "Work"; updating it with the name
"Work" and nothing else returns `updated = true`, while name, icon and colour after the call
are what they were before. -/
theorem UpdateWorkspace_same_name_updated :
    (UpdateWorkspace memStore "ws1" "Work" "" "" false (sampleStore none)).1 =
      .ok (sampleWorkspace, true) ∧
    memStore.DBGetWorkspace "ws1" (sampleStore none) = some sampleWorkspace ∧
    memStore.DBGetWorkspace "ws1"
      (UpdateWorkspace memStore "ws1" "Work" "" "" false (sampleStore none)).2 =
        some sampleWorkspace :=
  ⟨rfl, rfl, rfl⟩

/-- What a call of `UpdateWorkspace` for an existing workspace `ws` that returns
`(ws1, updated)` says about the flag, the store and the fields. -/
theorem UpdateWorkspace_updated_of_ok {σ : Type} (S : WStore σ)
    (workspaceId name icon color : String) (applyDefaults : Bool) (s : σ)
    (ws ws1 : Workspace) (updated : Bool)
    (hget : S.DBMustGetWorkspace workspaceId s = MustGet.found ws)
    (hres : (UpdateWorkspace S workspaceId name icon color applyDefaults s).1 =
      .ok (ws1, updated)) :
    (updated = true ↔ setsUpdated ws name icon color applyDefaults) ∧
      ((UpdateWorkspace S workspaceId name icon color applyDefaults s).2 =
        if updated = true then S.DBUpdateWorkspace ws1 s else s) ∧
      ((ws1.Name ≠ ws.Name ∨ ws1.Icon ≠ ws.Icon ∨ ws1.Color ≠ ws.Color) → updated = true) ∧
      ((ws1.Name ≠ ws.Name ∨ ws1.Icon ≠ ws.Icon ∨ ws1.Color ≠ ws.Color) ↔
        ((name ≠ "" ∧ name ≠ ws.Name) ∨ (icon ≠ "" ∧ icon ≠ ws.Icon) ∨
          (color ≠ "" ∧ color ≠ ws.Color) ∨
          (applyDefaults = true ∧
            ((name = "" ∧ ws.Name = "") ∨ (icon = "" ∧ ws.Icon = "") ∨
              (color = "" ∧ ws.Color = ""))))) ∧
      (ws1.OID = ws.OID ∧ ws1.TabIds = ws.TabIds ∧ ws1.ActiveTabId = ws.ActiveTabId) := by
  obtain ⟨wsListLen, hfields, hstore⟩ :=
    UpdateWorkspace_ok S workspaceId name icon color applyDefaults s ws ws1 updated hget hres
  obtain ⟨h1, h2⟩ := updateWorkspaceFields_spec ws name icon color applyDefaults wsListLen
  rw [← hfields] at h1 h2
  simp only at h1 h2
  have hN : ws1.Name ≠ ws.Name ↔
      ((name ≠ "" ∧ name ≠ ws.Name) ∨ (applyDefaults = true ∧ name = "" ∧ ws.Name = "")) := by
    rw [h1]
    exact updatedField_ne name ws.Name _ applyDefaults (defaultName_ne_empty (String.mk (goSlicePrefix ws.OID.data 5)))
  have hI : ws1.Icon ≠ ws.Icon ↔
      ((icon ≠ "" ∧ icon ≠ ws.Icon) ∨ (applyDefaults = true ∧ icon = "" ∧ ws.Icon = "")) := by
    rw [h1]
    exact updatedField_ne icon ws.Icon _ applyDefaults defaultIcon_ne_empty
  have hC : ws1.Color ≠ ws.Color ↔
      ((color ≠ "" ∧ color ≠ ws.Color) ∨
        (applyDefaults = true ∧ color = "" ∧ ws.Color = "")) := by
    rw [h1]
    exact updatedField_ne color ws.Color _ applyDefaults (defaultColor_ne_empty wsListLen)
  have hchanged := anyFieldChanged_iff hN hI hC
  refine ⟨h2, hstore, ?_, hchanged, by rw [h1], by rw [h1], by rw [h1]⟩
  intro hdiff
  rw [h2]
  exact setsUpdated_of_changed ws name icon color applyDefaults (hchanged.mp hdiff)


/-- An existing workspace is updated and returned unless the default name is needed and the
object id is shorter than five bytes. -/
theorem UpdateWorkspace_returns {σ : Type} (S : WStore σ)
    (workspaceId name icon color : String) (applyDefaults : Bool) (s : σ) (ws : Workspace)
    (hget : S.DBMustGetWorkspace workspaceId s = MustGet.found ws)
    (hlen : ¬ (name = "" ∧ applyDefaults = true ∧ ws.Name = "" ∧ ws.OID.utf8ByteSize < 5)) :
    ∃ ws1 updated, (UpdateWorkspace S workspaceId name icon color applyDefaults s).1 =
      .ok (ws1, updated) := by
  simp only [UpdateWorkspace, hget, if_neg hlen]
  split
  · exact ⟨_, _, rfl⟩
  · exact ⟨_, _, rfl⟩

/-- C21 (amended): for an existing workspace `ws`, `UpdateWorkspace` returns a workspace `ws1`
and a flag `updated`, unless the default name is needed and the object id is shorter than
five bytes (then `ws.OID[0:5]` panics and the store is unchanged). `updated` is true exactly
when a non-empty name, icon or colour is given, or `applyDefaults` is set and the name, icon
or colour of `ws` is empty; the store is written (with `ws1`) exactly when `updated` is true;
if name, icon or colour of `ws1` differs from that of `ws` then `updated` is true; and such a
difference exists exactly when a given non-empty value differs from the current one or a
default is applied to an empty field; the other fields of the workspace are unchanged. -/
theorem UpdateWorkspace_updated_spec {σ : Type} (S : WStore σ)
    (workspaceId name icon color : String) (applyDefaults : Bool) (s : σ) (ws : Workspace)
    (hget : S.DBMustGetWorkspace workspaceId s = MustGet.found ws) :
    ((name = "" ∧ applyDefaults = true ∧ ws.Name = "" ∧ ws.OID.utf8ByteSize < 5) →
      UpdateWorkspace S workspaceId name icon color applyDefaults s =
        (.error "slice bounds out of range", s)) ∧
    (¬ (name = "" ∧ applyDefaults = true ∧ ws.Name = "" ∧ ws.OID.utf8ByteSize < 5) →
      ∃ ws1 updated,
        (UpdateWorkspace S workspaceId name icon color applyDefaults s).1 = .ok (ws1, updated) ∧
        (updated = true ↔ setsUpdated ws name icon color applyDefaults) ∧
        ((UpdateWorkspace S workspaceId name icon color applyDefaults s).2 =
          if updated = true then S.DBUpdateWorkspace ws1 s else s) ∧
        ((ws1.Name ≠ ws.Name ∨ ws1.Icon ≠ ws.Icon ∨ ws1.Color ≠ ws.Color) →
          updated = true) ∧
        ((ws1.Name ≠ ws.Name ∨ ws1.Icon ≠ ws.Icon ∨ ws1.Color ≠ ws.Color) ↔
          ((name ≠ "" ∧ name ≠ ws.Name) ∨ (icon ≠ "" ∧ icon ≠ ws.Icon) ∨
            (color ≠ "" ∧ color ≠ ws.Color) ∨
            (applyDefaults = true ∧
              ((name = "" ∧ ws.Name = "") ∨ (icon = "" ∧ ws.Icon = "") ∨
                (color = "" ∧ ws.Color = ""))))) ∧
        (ws1.OID = ws.OID ∧ ws1.TabIds = ws.TabIds ∧ ws1.ActiveTabId = ws.ActiveTabId)) := by
  constructor
  · intro hlen
    simp only [UpdateWorkspace, hget, if_pos hlen]
  · intro hlen
    obtain ⟨ws1, updated, hres⟩ :=
      UpdateWorkspace_returns S workspaceId name icon color applyDefaults s ws hget hlen
    exact ⟨ws1, updated, hres,
      UpdateWorkspace_updated_of_ok S workspaceId name icon color applyDefaults s ws ws1
        updated hget hres⟩

/-- The default name on the in-memory store: it takes the first five bytes of the object
id. The id "0123abcd" gives "New Workspace (0123a)"; the id "ééé" has three characters and
six bytes, so there is no panic, and the fifth byte, the first half of the third character,
reads as U+FFFD; the id "abcd" has fewer than five bytes and the slice panics. -/
theorem UpdateWorkspace_default_name_examples :
    (UpdateWorkspace memStore "0123abcd" "" "" "" true
        { workspaces := [{ OID := "0123abcd", Name := "", Icon := "star", Color := "#58C142",
                           TabIds := [], ActiveTabId := "" }],
          tabs := [], windows := [], closeWindowError := none }).1 =
      .ok ({ OID := "0123abcd", Name := "New Workspace (0123a)", Icon := "star",
             Color := "#58C142", TabIds := [], ActiveTabId := "" }, true) ∧
    (UpdateWorkspace memStore "ééé" "" "" "" true
        { workspaces := [{ OID := "ééé", Name := "", Icon := "star", Color := "#58C142",
                           TabIds := [], ActiveTabId := "" }],
          tabs := [], windows := [], closeWindowError := none }).1 =
      .ok ({ OID := "ééé",
             Name := "New Workspace (éé" ++ String.singleton (Char.ofNat 0xFFFD) ++ ")",
             Icon := "star", Color := "#58C142", TabIds := [], ActiveTabId := "" }, true) ∧
    (UpdateWorkspace memStore "abcd" "" "" "" true
        { workspaces := [{ OID := "abcd", Name := "", Icon := "star", Color := "#58C142",
                           TabIds := [], ActiveTabId := "" }],
          tabs := [], windows := [], closeWindowError := none }).1 =
      .error "slice bounds out of range" :=
  ⟨rfl, rfl, rfl⟩

/-- Witness for C21 (amended): renaming `sampleWorkspace` from "Work" to "Home" returns
`updated = true` and the renamed workspace, and the store then holds the renamed
workspace. -/
theorem UpdateWorkspace_updated_spec_witness :
    memStore.DBMustGetWorkspace "ws1" (sampleStore none) = MustGet.found sampleWorkspace ∧
    (∃ ws1 updated,
      (UpdateWorkspace memStore "ws1" "Home" "" "" false (sampleStore none)).1 =
        .ok (ws1, updated) ∧
      (updated = true ↔ setsUpdated sampleWorkspace "Home" "" "" false) ∧
      ((UpdateWorkspace memStore "ws1" "Home" "" "" false (sampleStore none)).2 =
        if updated = true then memStore.DBUpdateWorkspace ws1 (sampleStore none)
        else sampleStore none)) ∧
    (UpdateWorkspace memStore "ws1" "Home" "" "" false (sampleStore none)).1 =
      .ok ({ sampleWorkspace with Name := "Home" }, true) ∧
    memStore.DBGetWorkspace "ws1"
      (UpdateWorkspace memStore "ws1" "Home" "" "" false (sampleStore none)).2 =
        some { sampleWorkspace with Name := "Home" } :=
  have h := (UpdateWorkspace_updated_spec memStore "ws1" "Home" "" "" false (sampleStore none)
    sampleWorkspace rfl).2 (by decide)
  ⟨rfl, Exists.elim h (fun ws1 h1 => Exists.elim h1 (fun updated h2 =>
      ⟨ws1, updated, h2.1, h2.2.1, h2.2.2.1⟩)), rfl, rfl⟩

/-! ### `CreateBlockWithTelemetry` -/

/-- In a list of tabs, a tab found by its id is found as updated after the update. -/
theorem find_tab_map_update (t : Tab) (tabs : List Tab) (t0 : Tab)
    (h : tabs.find? (fun tab => decide (tab.OID = t.OID)) = some t0) :
    (tabs.map (fun old => if old.OID = t.OID then t else old)).find?
      (fun tab => decide (tab.OID = t.OID)) = some t := by
  induction tabs with
  | nil => simp at h
  | cons a rest ih =>
    by_cases ha : a.OID = t.OID
    · simp [List.find?, ha]
    · simp only [List.find?, ha, decide_False] at h
      simp [List.find?, ha, ih h]

/-- The in-memory object store is a lawful store. -/
theorem memBlocks_lawful : LawfulBlockStore memBlocks where
  getBlock_insert b s := by simp [memBlocks]
  getBlock_updateTab t oid s := rfl
  getTab_insertBlock b oid s := rfl
  getTab_updateTab t t0 s h := find_tab_map_update t s.tabs t0 h
  getTab_oid oid s t h := by
    have := List.find?_some h
    simpa using this
  getBlock_delete oid s := by
    simp only [memBlocks]
    congr 1
    rw [List.find?_eq_none]
    intro b hb
    rw [List.mem_filter] at hb
    simpa using hb.2
  getTab_deleteBlock oid oid2 s := rfl

/-- What `createBlockObj` does when the tab is found: it returns the new block, whose id is
`uuid`, and the store is the one after the insert of the block and the update of the tab
with the id appended. -/
theorem createBlockObj_found {σ : Type} (S : BlockStore σ) (P : ORefFns) (uuid tabId : String)
    (blockDef : BlockDef) (s : σ) (tab : Tab) (htab : S.DBGetTab tabId s = some tab) :
    createBlockObj S P uuid tabId blockDef s =
      (.ok { OID := uuid, ParentORef := P.ORefString (MakeORef OType_Tab tabId),
             Meta := blockDef.Meta.getD [], SubBlockIds := [] },
        S.DBUpdateTab { tab with BlockIds := tab.BlockIds ++ [uuid] }
          (S.DBInsertBlock { OID := uuid, ParentORef := P.ORefString (MakeORef OType_Tab tabId),
                             Meta := blockDef.Meta.getD [], SubBlockIds := [] } s)) := by
  simp only [createBlockObj, htab]

/-- When the tab is not found `createBlockObj` fails and leaves the store as it was. -/
theorem createBlockObj_not_found {σ : Type} (S : BlockStore σ) (P : ORefFns)
    (uuid tabId : String) (blockDef : BlockDef) (s : σ) (htab : S.DBGetTab tabId s = none) :
    createBlockObj S P uuid tabId blockDef s =
      (.error ("tab not found: " ++ goQuote tabId), s) := by
  simp only [createBlockObj, htab]

/-- In a lawful store, after `createBlockObj` for an existing tab the new block is found by
its id and the tab is found with the id of the block at the end of its `BlockIds`. -/
theorem createBlockObj_stored {σ : Type} (S : BlockStore σ) (P : ORefFns) (hS : LawfulBlockStore S)
    (uuid tabId : String) (blockDef : BlockDef) (s : σ) (tab : Tab)
    (htab : S.DBGetTab tabId s = some tab) :
    S.DBGetBlock uuid (createBlockObj S P uuid tabId blockDef s).2 =
        .ok (some { OID := uuid, ParentORef := P.ORefString (MakeORef OType_Tab tabId),
                    Meta := blockDef.Meta.getD [], SubBlockIds := [] }) ∧
      S.DBGetTab tabId (createBlockObj S P uuid tabId blockDef s).2 =
        some { tab with BlockIds := tab.BlockIds ++ [uuid] } := by
  rw [createBlockObj_found S P uuid tabId blockDef s tab htab]
  have hoid : tab.OID = tabId := hS.getTab_oid tabId s tab htab
  subst hoid
  constructor
  · rw [hS.getBlock_updateTab]
    exact hS.getBlock_insert
      { OID := uuid, ParentORef := P.ORefString (MakeORef OType_Tab tab.OID),
        Meta := blockDef.Meta.getD [], SubBlockIds := [] } s
  · exact hS.getTab_updateTab { tab with BlockIds := tab.BlockIds ++ [uuid] } tab _
      (by rw [hS.getTab_insertBlock]; exact htab)

/-- In a lawful store, `deleteBlockObj` for a block without sub-blocks whose parent reference
parses to an existing tab succeeds: the tab is updated with the block id taken out of its
`BlockIds` and the block is deleted. -/
theorem deleteBlockObj_of_tab {σ : Type} (S : BlockStore σ) (P : ORefFns) (blockId tabId : String)
    (s : σ) (block : Block) (tab : Tab)
    (hblock : S.DBGetBlock blockId s = .ok (some block)) (hsub : block.SubBlockIds = [])
    (hparse : P.ParseORefNoErr block.ParentORef = some (MakeORef OType_Tab tabId))
    (htab : S.DBGetTab tabId s = some tab) :
    deleteBlockObj S P blockId s =
      (.ok ((RemoveElemFromSlice tab.BlockIds blockId).length : Int),
        S.DBDeleteBlock blockId
          (S.DBUpdateTab { tab with BlockIds := RemoveElemFromSlice tab.BlockIds blockId } s)) := by
  simp [deleteBlockObj, removeFromParent, hblock, hsub, hparse, MakeORef, htab]

/-- The id taken out of the list to which it was appended: the id is not in the result, and
the result is the old list when the id was not in it. -/
theorem RemoveElemFromSlice_append (arr : List String) (val : String) :
    val ∉ RemoveElemFromSlice (arr ++ [val]) val ∧
      (val ∉ arr → RemoveElemFromSlice (arr ++ [val]) val = arr) := by
  constructor
  · simp [RemoveElemFromSlice, List.mem_filter]
  · intro h
    simp only [RemoveElemFromSlice, List.filter_append]
    have h1 : List.filter (fun v => decide (v ≠ val)) arr = arr := by
      rw [List.filter_eq_self]
      intro a ha
      have : a ≠ val := fun hav => h (hav ▸ ha)
      simpa using this
    rw [h1]
    simp


/-- The run of `CreateBlockWithTelemetry` when the block was created and making its files
failed: the deferred function runs `deleteBlockObj` and `DeleteZone` for the new block. -/
theorem CreateBlockWithTelemetry_files_error {σ φ : Type} (S : BlockStore σ) (F : FileStore φ)
    (P : ORefFns) (uuid tabId : String) (d : BlockDef) (recordTelemetry : Bool) (s : σ) (f : φ)
    (tab : Tab) (fileErr : String) (f1 : φ) (huuid : uuid ≠ "")
    (hview : ¬ (d.Meta = none ∨ (d.Meta.getD []).GetString MetaKey_View "" = ""))
    (htab : S.DBGetTab tabId s = some tab)
    (hfiles : makeBlockFiles F uuid d.Files f = (some fileErr, f1)) :
    CreateBlockWithTelemetry S F P uuid tabId (some d) recordTelemetry s f =
      { rtnBlock := none, rtnErr := some fileErr, blockCreated := true, newBlockOID := uuid,
        telemetry := none,
        objects := (deleteBlockObj S P uuid (createBlockObj S P uuid tabId d s).2).2,
        files := F.DeleteZone uuid f1 } := by
  simp only [CreateBlockWithTelemetry, createBlockBody, if_neg hview,
    createBlockObj_found S P uuid tabId d s tab htab, hfiles]
  simp [huuid]

/-- The run of `CreateBlockWithTelemetry` when the block was created and its files were
made: the block is returned and nothing is cleaned up. -/
theorem CreateBlockWithTelemetry_files_ok {σ φ : Type} (S : BlockStore σ) (F : FileStore φ)
    (P : ORefFns) (uuid tabId : String) (d : BlockDef) (recordTelemetry : Bool) (s : σ) (f : φ)
    (tab : Tab) (f1 : φ)
    (hview : ¬ (d.Meta = none ∨ (d.Meta.getD []).GetString MetaKey_View "" = ""))
    (htab : S.DBGetTab tabId s = some tab)
    (hfiles : makeBlockFiles F uuid d.Files f = (none, f1)) :
    (CreateBlockWithTelemetry S F P uuid tabId (some d) recordTelemetry s f).rtnErr = none ∧
      (CreateBlockWithTelemetry S F P uuid tabId (some d) recordTelemetry s f).objects =
        (createBlockObj S P uuid tabId d s).2 ∧
      (CreateBlockWithTelemetry S F P uuid tabId (some d) recordTelemetry s f).files = f1 := by
  simp only [CreateBlockWithTelemetry, createBlockBody, if_neg hview,
    createBlockObj_found S P uuid tabId d s tab htab, hfiles]
  simp

/-- C22 (amended): when `CreateBlockWithTelemetry` returns an error, either nothing was
inserted (nil blockDef, missing view, tab not found) and both stores are as before the call,
or the block was inserted and making one of its files failed; then the object store is the
one left by `deleteBlockObj` for the new block, run on the store after `createBlockObj`, and
the file store is the one left by `DeleteZone` for the new block. In a lawful store, with a
parent reference that parses back to the tab, the block, which was in the store, is no longer
found, the tab is found without the id of the block in its `BlockIds` (as it was before the
call when that id was not yet in them). When the lookup of the block in `deleteBlockObj`
fails, the object store stays as `createBlockObj` left it, with the block. -/
theorem CreateBlockWithTelemetry_error_cleanup {σ φ : Type} (S : BlockStore σ)
    (F : FileStore φ) (P : ORefFns) (uuid tabId : String) (blockDef : Option BlockDef)
    (recordTelemetry : Bool) (s : σ) (f : φ) (err : String) (huuid : uuid ≠ "")
    (herr : (CreateBlockWithTelemetry S F P uuid tabId blockDef recordTelemetry s f).rtnErr =
      some err) :
    ((blockDef = none ∨
        (∃ d, blockDef = some d ∧
          ((d.Meta = none ∨ (d.Meta.getD []).GetString MetaKey_View "" = "") ∨
            S.DBGetTab tabId s = none))) ∧
      (CreateBlockWithTelemetry S F P uuid tabId blockDef recordTelemetry s f).objects = s ∧
      (CreateBlockWithTelemetry S F P uuid tabId blockDef recordTelemetry s f).files = f) ∨
    (∃ d tab f1, blockDef = some d ∧ S.DBGetTab tabId s = some tab ∧
      makeBlockFiles F uuid d.Files f = (some err, f1) ∧
      (CreateBlockWithTelemetry S F P uuid tabId blockDef recordTelemetry s f).objects =
        (deleteBlockObj S P uuid (createBlockObj S P uuid tabId d s).2).2 ∧
      (CreateBlockWithTelemetry S F P uuid tabId blockDef recordTelemetry s f).files =
        F.DeleteZone uuid f1 ∧
      (LawfulBlockStore S →
        P.ParseORefNoErr (P.ORefString (MakeORef OType_Tab tabId)) =
          some (MakeORef OType_Tab tabId) →
        (∃ block, S.DBGetBlock uuid (createBlockObj S P uuid tabId d s).2 =
          .ok (some block)) ∧
        S.DBGetBlock uuid
          (CreateBlockWithTelemetry S F P uuid tabId blockDef recordTelemetry s f).objects =
            .ok none ∧
        S.DBGetTab tabId
          (CreateBlockWithTelemetry S F P uuid tabId blockDef recordTelemetry s f).objects =
            some { tab with BlockIds := RemoveElemFromSlice (tab.BlockIds ++ [uuid]) uuid } ∧
        uuid ∉ RemoveElemFromSlice (tab.BlockIds ++ [uuid]) uuid ∧
        (uuid ∉ tab.BlockIds →
          S.DBGetTab tabId
            (CreateBlockWithTelemetry S F P uuid tabId blockDef recordTelemetry s f).objects =
              some tab)) ∧
      (∀ e, S.DBGetBlock uuid (createBlockObj S P uuid tabId d s).2 = .error e →
        (CreateBlockWithTelemetry S F P uuid tabId blockDef recordTelemetry s f).objects =
          (createBlockObj S P uuid tabId d s).2)) := by
  cases blockDef with
  | none => exact Or.inl ⟨Or.inl rfl, rfl, rfl⟩
  | some d =>
    by_cases hview : d.Meta = none ∨ (d.Meta.getD []).GetString MetaKey_View "" = ""
    · left
      refine ⟨Or.inr ⟨d, rfl, Or.inl hview⟩, ?_, ?_⟩ <;>
        simp [CreateBlockWithTelemetry, createBlockBody, if_pos hview]
    · cases htab : S.DBGetTab tabId s with
      | none =>
        left
        refine ⟨Or.inr ⟨d, rfl, Or.inr rfl⟩, ?_, ?_⟩ <;>
          simp [CreateBlockWithTelemetry, createBlockBody, if_neg hview,
            createBlockObj_not_found S P uuid tabId d s htab]
      | some tab =>
        rcases hfiles : makeBlockFiles F uuid d.Files f with ⟨fileErr, f1⟩
        cases fileErr with
        | none =>
          rw [(CreateBlockWithTelemetry_files_ok S F P uuid tabId d recordTelemetry s f tab f1
            hview htab hfiles).1] at herr
          cases herr
        | some fileErr =>
          have hrun := CreateBlockWithTelemetry_files_error S F P uuid tabId d recordTelemetry
            s f tab fileErr f1 huuid hview htab hfiles
          rw [hrun] at herr ⊢
          simp only [Option.some.injEq] at herr
          subst herr
          right
          refine ⟨d, tab, f1, rfl, rfl, hfiles, rfl, rfl, ?_, ?_⟩
          · intro hS hparse
            obtain ⟨hb, ht⟩ := createBlockObj_stored S P hS uuid tabId d s tab htab
            have hdel := deleteBlockObj_of_tab S P uuid tabId
              (createBlockObj S P uuid tabId d s).2 _ _ hb rfl hparse ht
            have hrem := RemoveElemFromSlice_append tab.BlockIds uuid
            have hoid : tab.OID = tabId := hS.getTab_oid tabId s tab htab
            have hget : S.DBGetTab tabId
                (deleteBlockObj S P uuid (createBlockObj S P uuid tabId d s).2).2 =
                some { tab with
                  BlockIds := RemoveElemFromSlice (tab.BlockIds ++ [uuid]) uuid } := by
              rw [hdel]
              simp only
              rw [hS.getTab_deleteBlock]
              subst hoid
              exact hS.getTab_updateTab
                { tab with BlockIds := RemoveElemFromSlice (tab.BlockIds ++ [uuid]) uuid }
                _ _ ht
            refine ⟨⟨_, hb⟩, ?_, hget, hrem.1, ?_⟩
            · rw [hdel]
              exact hS.getBlock_delete uuid _
            · intro hnot
              rw [hget, hrem.2 hnot]
          · intro e he
            simp only [deleteBlockObj, he]


/-- Counterexample for C22: the tab "t1" exists, `MakeFile` fails, and the block lookup of
the store fails as well. `CreateBlockWithTelemetry` returns the error of `MakeFile`;
`deleteBlockObj` stops at its failed lookup and its error is dropped, so the new block "b1"
is still in the store and in the `BlockIds` of the tab. -/
theorem CreateBlockWithTelemetry_block_remains :
    (CreateBlockWithTelemetry memBlocksGetFails memFiles sampleORefFns "b1" "t1"
        (some sampleBlockDef) true sampleBlocks
        (sampleFiles (some "context deadline exceeded"))).rtnErr =
      some ("error making blockfile " ++ goQuote "env" ++ ": context deadline exceeded") ∧
    deleteBlockObj memBlocksGetFails sampleORefFns "b1"
        (createBlockObj memBlocksGetFails sampleORefFns "b1" "t1" sampleBlockDef
          sampleBlocks).2 =
      (.error "error getting block: database is locked",
        (createBlockObj memBlocksGetFails sampleORefFns "b1" "t1" sampleBlockDef
          sampleBlocks).2) ∧
    (CreateBlockWithTelemetry memBlocksGetFails memFiles sampleORefFns "b1" "t1"
        (some sampleBlockDef) true sampleBlocks
        (sampleFiles (some "context deadline exceeded"))).objects =
      { blocks := [{ OID := "b1", ParentORef := "tab:t1",
                     Meta := [(MetaKey_View, MetaValue.str "term")], SubBlockIds := [] },
                   { OID := "b0", ParentORef := "tab:t1", Meta := [], SubBlockIds := [] }],
        tabs := [{ OID := "t1", Name := "t1", LayoutState := "layout-t1",
                   BlockIds := ["b0", "b1"] }] } :=
  ⟨by decide, rfl, by decide⟩

/-- Witness for C22 (amended): in the lawful in-memory store, with a failing `MakeFile`,
`CreateBlockWithTelemetry` returns the error, the block "b1" is not found afterwards and the
tab "t1" is as it was before the call. -/
theorem CreateBlockWithTelemetry_error_cleanup_witness :
    (CreateBlockWithTelemetry memBlocks memFiles sampleORefFns "b1" "t1"
        (some sampleBlockDef) true sampleBlocks (sampleFiles (some "disk full"))).rtnErr =
      some ("error making blockfile " ++ goQuote "env" ++ ": disk full") ∧
    memBlocks.DBGetBlock "b1"
      (CreateBlockWithTelemetry memBlocks memFiles sampleORefFns "b1" "t1"
        (some sampleBlockDef) true sampleBlocks (sampleFiles (some "disk full"))).objects =
      .ok none ∧
    memBlocks.DBGetTab "t1"
      (CreateBlockWithTelemetry memBlocks memFiles sampleORefFns "b1" "t1"
        (some sampleBlockDef) true sampleBlocks (sampleFiles (some "disk full"))).objects =
      some { OID := "t1", Name := "t1", LayoutState := "layout-t1", BlockIds := ["b0"] } := by
  have h := CreateBlockWithTelemetry_error_cleanup memBlocks memFiles sampleORefFns "b1" "t1"
    (some sampleBlockDef) true sampleBlocks (sampleFiles (some "disk full"))
    ("error making blockfile " ++ goQuote "env" ++ ": disk full") (by decide) (by decide)
  have htab1 : memBlocks.DBGetTab "t1" sampleBlocks =
      some { OID := "t1", Name := "t1", LayoutState := "layout-t1", BlockIds := ["b0"] } := rfl
  rcases h with ⟨h1, _⟩ | ⟨d, tab, f1, _, htab, _, _, _, hlaw, _⟩
  · exfalso
    rcases h1 with h | ⟨d, hd, hm | ht⟩
    · cases h
    · cases hd
      revert hm
      decide
    · rw [htab1] at ht
      cases ht
  · rw [htab1] at htab
    cases htab
    obtain ⟨_, hb, _, _, hsame⟩ := hlaw memBlocks_lawful (by decide)
    exact ⟨by decide, hb, hsame (by decide)⟩

end Ainsh
